import Mathlib

/-!
Verification development for the disclaw reconciliation / snapshot / rollback core.

The definitions below are a shallow embedding of the TypeScript source:
  * src/reconciler.ts   (function reconcile, embedded here together with the
    in-place sorts it performs on the fetched workspace state)
  * src/parser.ts       (function flattenDesiredState)
  * src/types.ts        (the data model)
  * src/snapshot.ts     (saveSnapshot / loadSnapshot over a modelled file system)
  * src/commands/apply.ts    (the mutating per-server orchestration loop)
  * src/commands/rollback.ts (rollbackCommand and snapshotToDesired)

TypeScript optional fields are modelled as Option; JavaScript string
truthiness ("" is falsy) and boolean coercion (!!x) are modelled explicitly
where the source relies on them.  JavaScript Array.prototype.sort is stable;
it is modelled by a structurally recursive stable insertion sort.  Both the
default string sort (UTF-16 code unit order) and localeCompare-based
comparators are modelled as code-point lexicographic order on the string's
characters (they agree on the inputs exercised here).
-/

namespace Disclaw

/-- Action type of one computed change (src/types.ts). -/
inductive ActionType
  | create
  | update
  | delete
  | noop
deriving DecidableEq, Repr

/-- Resource class of one computed change (src/types.ts). -/
inductive ResourceType
  | category
  | channel
  | thread
  | binding
deriving DecidableEq, Repr

/-- Sparse field map used for Action.details.before / after.  The TypeScript
type is Record&lt;String, unknown&gt;; the reconciler and the commands only ever
store the keys below.  An outer none means the key is absent; for topic and
categoryName the inner Option distinguishes a key present with value
undefined / null from a string value. -/
structure FieldMap where
  name : Option String := none
  id : Option String := none
  topic : Option (Option String) := none
  restricted : Option Bool := none
  private_ : Option Bool := none
  addBot : Option Bool := none
  categoryName : Option (Option String) := none
  parentChannel : Option String := none
  parentChannelId : Option String := none
  agentName : Option String := none
  channelRef : Option String := none
  requireMention : Option Bool := none
  resolvedChannelId : Option String := none
deriving DecidableEq, Repr

/-- details field of an Action (src/types.ts). -/
structure ActionDetails where
  before : Option FieldMap := none
  after : Option FieldMap := none
deriving DecidableEq, Repr

/-- One computed change (src/types.ts). -/
structure Action where
  type : ActionType
  resourceType : ResourceType
  name : String
  details : Option ActionDetails := none
deriving DecidableEq, Repr

/-- Desired channel as written in the config (src/types.ts DesiredChannel).
The source field named private is a Lean keyword and is rendered private_. -/
structure DesiredChannel where
  name : String
  topic : Option String := none
  restricted : Option Bool := none
  private_ : Option Bool := none
  addBot : Option Bool := none
  threads : Option (List String) := none
deriving DecidableEq, Repr

/-- Desired category group (src/types.ts DesiredCategoryGroup). -/
structure DesiredCategoryGroup where
  category : String
  channels : List DesiredChannel
deriving DecidableEq, Repr

/-- DesiredChannelEntry = DesiredChannel | DesiredCategoryGroup, discriminated
by the presence of the category key (src/types.ts isCategoryGroup). -/
inductive DesiredChannelEntry
  | chan (c : DesiredChannel)
  | group (g : DesiredCategoryGroup)
deriving DecidableEq, Repr

/-- Item of the mixed-array agent binding form (src/types.ts). -/
structure DesiredAgentBindingItem where
  channel : String
  requireMention : Option Bool := none
deriving DecidableEq, Repr

/-- channel field of the object binding form: string | string[]. -/
inductive AgentChannelRef
  | one (s : String)
  | many (l : List String)
deriving DecidableEq, Repr

/-- Object form of an agent binding (src/types.ts DesiredAgentBinding). -/
structure DesiredAgentBinding where
  channel : AgentChannelRef
  requireMention : Option Bool := none
deriving DecidableEq, Repr

/-- AgentBindingValue = string | (string | item)[] | object (src/types.ts). -/
inductive AgentBindingValue
  | str (s : String)
  | arr (items : List (String ⊕ DesiredAgentBindingItem))
  | obj (b : DesiredAgentBinding)
deriving DecidableEq, Repr

/-- openclaw section of the desired state (src/types.ts DesiredOpenClaw).
agents is a JavaScript object; it is modelled as an association list in
insertion order, matching Object.entries. -/
structure DesiredOpenClaw where
  requireMention : Option Bool := none
  agents : List (String × AgentBindingValue)
deriving DecidableEq, Repr

/-- Desired state of one server (src/types.ts DesiredState).  The constant
fields version : 1 and managedBy : "disclaw" are omitted. -/
structure DesiredState where
  guild : String
  channels : List DesiredChannelEntry
  openclaw : Option DesiredOpenClaw := none
deriving DecidableEq, Repr

/-- Flattened desired channel (src/types.ts FlatDesiredChannel). -/
structure FlatDesiredChannel where
  name : String
  topic : Option String := none
  restricted : Option Bool := none
  private_ : Option Bool := none
  addBot : Option Bool := none
  categoryName : Option String := none
deriving DecidableEq, Repr

/-- Flattened desired thread (src/types.ts FlatDesiredThread). -/
structure FlatDesiredThread where
  parentChannel : String
  name : String
deriving DecidableEq, Repr

/-- Flattened desired binding (src/types.ts FlatDesiredBinding). -/
structure FlatDesiredBinding where
  agentName : String
  channelRef : String
  requireMention : Option Bool := none
deriving DecidableEq, Repr

/-- Flattened desired state (src/types.ts FlatDesiredState). -/
structure FlatDesiredState where
  categories : List String
  channels : List FlatDesiredChannel
  threads : List FlatDesiredThread
  bindings : List FlatDesiredBinding
deriving DecidableEq, Repr

/-- Live category (src/types.ts ActualCategory). -/
structure ActualCategory where
  id : String
  name : String
  managedBy : Option String := none
deriving DecidableEq, Repr

/-- Live channel (src/types.ts ActualChannel).  The constant type field
("text") is omitted. -/
structure ActualChannel where
  id : String
  name : String
  topic : Option String := none
  restricted : Option Bool := none
  private_ : Option Bool := none
  addBot : Option Bool := none
  categoryId : Option String := none
  managedBy : Option String := none
deriving DecidableEq, Repr

/-- Live thread (src/types.ts ActualThread). -/
structure ActualThread where
  id : String
  name : String
  parentChannelId : String
  managedBy : Option String := none
deriving DecidableEq, Repr

/-- Live pin (src/types.ts ActualPin); read-only, informational. -/
structure ActualPin where
  messageId : String
  channelId : String
  content : String
  managedBy : Option String := none
deriving DecidableEq, Repr

/-- peer of a routing binding match (src/types.ts ActualBinding). -/
structure BindingPeer where
  kind : String
  id : String
deriving DecidableEq, Repr

/-- match of a routing binding (src/types.ts ActualBinding).  The source
field named match is a Lean keyword and is rendered match_. -/
structure BindingMatch where
  channel : String
  peer : BindingPeer
deriving DecidableEq, Repr

/-- One routing-store binding (src/types.ts ActualBinding). -/
structure ActualBinding where
  agentId : String
  match_ : BindingMatch
deriving DecidableEq, Repr

/-- Live workspace state of one target (src/types.ts DiscordState). -/
structure DiscordState where
  categories : List ActualCategory
  channels : List ActualChannel
  threads : List ActualThread
  pins : List ActualPin
deriving DecidableEq, Repr

/-- Live routing-store state (src/types.ts OpenClawState). -/
structure OpenClawState where
  bindings : List ActualBinding
deriving DecidableEq, Repr

/-- Unmanaged live resource (src/types.ts UnmanagedResource). -/
structure UnmanagedResource where
  resourceType : ResourceType
  name : String
  id : String
  topic : Option String := none
deriving DecidableEq, Repr

/-- Output of one reconcile call (src/types.ts ReconcileResult). -/
structure ReconcileResult where
  actions : List Action
  unmanaged : List UnmanagedResource
deriving DecidableEq, Repr

/-- Options of reconcile (src/reconciler.ts ReconcileOptions). -/
structure ReconcileOptions where
  prune : Option Bool := none
deriving DecidableEq, Repr

/-- JavaScript string truthiness for an optional string: undefined and ""
are falsy. -/
def strTruthy : Option String → Bool
  | none => false
  | some s => decide (s ≠ "")

/-- Code-unit lexicographic strict order on character lists, modelling the
comparison underlying both the default JavaScript string sort and the
localeCompare comparators used by the source (see the header comment). -/
def jsStrLtChars : List Char → List Char → Bool
  | [], [] => false
  | [], _ :: _ => true
  | _ :: _, [] => false
  | a :: as, b :: bs => if a = b then jsStrLtChars as bs else decide (a < b)

/-- Strict string order used by the modelled sorts. -/
def jsStrLt (a b : String) : Bool := jsStrLtChars a.data b.data

/-- Non-strict string order used by the modelled sorts. -/
def jsStrLe (a b : String) : Bool := !(jsStrLt b a)

/-- Stable insertion of one element: an element of the input list that came
earlier is inserted before every element it does not strictly follow, so
ties keep input order, as JavaScript Array.prototype.sort guarantees. -/
def orderedInsertB (le : α → α → Bool) (x : α) : List α → List α
  | [] => [x]
  | y :: ys => if le x y then x :: y :: ys else y :: orderedInsertB le x ys

/-- Stable sort modelling JavaScript Array.prototype.sort with a
non-strict comparator le. -/
def insertionSortB (le : α → α → Bool) : List α → List α
  | [] => []
  | x :: xs => orderedInsertB le x (insertionSortB le xs)


/-- Threads contributed by one desired channel (parser.ts, the pushes into
threads inside flattenDesiredState). -/
def channelThreads (ch : DesiredChannel) : List FlatDesiredThread :=
  match ch.threads with
  | none => []
  | some ts => ts.map (fun t => { parentChannel := ch.name, name := t })

/-- Flat channel record pushed for a channel inside a category group
(parser.ts flattenDesiredState, grouped branch). -/
def flattenGroupedChannel (catName : String) (ch : DesiredChannel) : FlatDesiredChannel :=
  { name := ch.name, topic := ch.topic, restricted := ch.restricted,
    private_ := ch.private_, addBot := ch.addBot, categoryName := some catName }

/-- Flat channel record pushed for a top-level channel (parser.ts
flattenDesiredState, standalone branch; no categoryName key). -/
def flattenTopChannel (ch : DesiredChannel) : FlatDesiredChannel :=
  { name := ch.name, topic := ch.topic, restricted := ch.restricted,
    private_ := ch.private_, addBot := ch.addBot, categoryName := none }

/-- Bindings contributed by one agents entry (parser.ts flattenDesiredState,
the openclaw section).  guildDefault is state.openclaw.requireMention; the
JavaScript ?? fallback is Option.orElse. -/
def flattenAgentEntry (guildDefault : Option Bool) (agentName : String) :
    AgentBindingValue → List FlatDesiredBinding
  | .obj b =>
      let channelRefs := match b.channel with | .one s => [s] | .many l => l
      let requireMention := b.requireMention.orElse (fun _ => guildDefault)
      channelRefs.map (fun channelRef =>
        { agentName := agentName, channelRef := channelRef, requireMention := requireMention })
  | .arr items =>
      items.map (fun item =>
        match item with
        | .inl s => { agentName := agentName, channelRef := s, requireMention := guildDefault }
        | .inr it =>
            { agentName := agentName, channelRef := it.channel,
              requireMention := it.requireMention.orElse (fun _ => guildDefault) })
  | .str s => [{ agentName := agentName, channelRef := s, requireMention := guildDefault }]

/-- Embedding of parser.ts flattenDesiredState. -/
def flattenDesiredState (state : DesiredState) : FlatDesiredState :=
  { categories := state.channels.filterMap (fun entry =>
      match entry with
      | .chan _ => none
      | .group g => some g.category),
    channels := state.channels.flatMap (fun entry =>
      match entry with
      | .chan c => [flattenTopChannel c]
      | .group g => g.channels.map (flattenGroupedChannel g.category)),
    threads := state.channels.flatMap (fun entry =>
      match entry with
      | .chan c => channelThreads c
      | .group g => g.channels.flatMap channelThreads),
    bindings :=
      match state.openclaw with
      | none => []
      | some oc =>
          oc.agents.flatMap (fun e => flattenAgentEntry oc.requireMention e.1 e.2) }

/-- Sort used for the desired category names: a copy of the array sorted by
the default string sort (reconciler.ts line "[...flat.categories].sort()"). -/
def jsSortStrings (l : List String) : List String := insertionSortB jsStrLe l

/-- Stable sort by a string key, modelling sort((a, b) =&gt;
key(a).localeCompare(key(b))). -/
def jsSortByKey (key : α → String) (l : List α) : List α :=
  insertionSortB (fun a b => jsStrLe (key a) (key b)) l

/-- The same sort with the localeCompare comparator abstracted.
String.prototype.localeCompare consults the runtime locale's collation
(ICU), which code-point order does not reproduce on mixed-case names
(ICU places alpha before Beta), so every localeCompare-based ordering
statement below is made for an arbitrary total transitive comparator lc
— lc a b standing for a.localeCompare(b) &lt;= 0 — and jsSortByKey is the
code-point instance the concrete model evaluates with:
jsSortByKey key = lcSortByKey jsStrLe key. -/
def lcSortByKey (lc : String → String → Bool) (key : α → String) (l : List α) : List α :=
  insertionSortB (fun a b => lc (key a) (key b)) l

/-- Desired-side category actions (reconciler.ts section 1): desired names
copy-sorted, each looked up in the actual categories (pre-sort order). -/
def categoryDesiredActions (flatCats : List String) (cats : List ActualCategory) :
    List Action :=
  (jsSortStrings flatCats).map (fun catName =>
    match cats.find? (fun c => decide (c.name = catName)) with
    | none =>
        { type := .create, resourceType := .category, name := catName,
          details := some { after := some { name := some catName } } }
    | some _ => { type := .noop, resourceType := .category, name := catName })

/-- Delete actions of the unmanaged-categories loop (reconciler.ts "Detect
unmanaged categories"); the loop iterates the in-place-sorted array. -/
def categoryUnmanagedActions (prune : Bool) (desiredNames : List String)
    (catsSorted : List ActualCategory) : List Action :=
  catsSorted.filterMap (fun cat =>
    if desiredNames.contains cat.name then none
    else if prune then
      some { type := .delete, resourceType := .category, name := cat.name,
             details := some { before := some { id := some cat.id } } }
    else none)

/-- Unmanaged entries of the unmanaged-categories loop. -/
def categoryUnmanagedList (prune : Bool) (desiredNames : List String)
    (catsSorted : List ActualCategory) : List UnmanagedResource :=
  catsSorted.filterMap (fun cat =>
    if desiredNames.contains cat.name then none
    else if prune then none
    else some { resourceType := .category, name := cat.name, id := cat.id })

/-- details.after of a channel create (reconciler.ts section 2): the topic
key is always present; flags and categoryName only when truthy. -/
def channelCreateAfter (ch : FlatDesiredChannel) : FieldMap :=
  { topic := some ch.topic,
    restricted := if ch.restricted.getD false then some true else none,
    private_ := if ch.private_.getD false then some true else none,
    addBot := if ch.addBot.getD false then some true else none,
    categoryName := if strTruthy ch.categoryName then some ch.categoryName else none }

/-- Live category of an existing channel: existing.categoryId is tested for
string truthiness, then looked up by id in the (sorted) categories. -/
def existingCategoryOf (catsSorted : List ActualCategory) (existing : ActualChannel) :
    Option ActualCategory :=
  match existing.categoryId with
  | none => none
  | some cid =>
      if cid = "" then none
      else catsSorted.find? (fun c => decide (c.id = cid))

/-- Desired-side channel actions (reconciler.ts section 2). -/
def channelDesiredActions (flatChans : List FlatDesiredChannel)
    (chans : List ActualChannel) (catsSorted : List ActualCategory) : List Action :=
  (jsSortByKey (fun c => c.name) flatChans).map (fun ch =>
    match chans.find? (fun c => decide (c.name = ch.name)) with
    | none =>
        { type := .create, resourceType := .channel, name := ch.name,
          details := some { after := some (channelCreateAfter ch) } }
    | some existing =>
        let existingCat := existingCategoryOf catsSorted existing
        let topicChanged := decide (existing.topic ≠ ch.topic)
        let categoryChanged := decide (existingCat.map (fun c => c.name) ≠ ch.categoryName)
        let restrictedChanged := existing.restricted.getD false != ch.restricted.getD false
        let privateChanged := existing.private_.getD false != ch.private_.getD false
        let addBotChanged := existing.addBot.getD false != ch.addBot.getD false
        if topicChanged || categoryChanged || restrictedChanged || privateChanged || addBotChanged then
          { type := .update, resourceType := .channel, name := ch.name,
            details := some
              { before := some
                  { topic := some existing.topic,
                    restricted := if existing.restricted.getD false then some true else none,
                    private_ := if existing.private_.getD false then some true else none,
                    addBot := if existing.addBot.getD false then some true else none,
                    categoryName := existingCat.map (fun c => some c.name) },
                after := some
                  { topic := some ch.topic,
                    restricted := if ch.restricted.getD false then some true else none,
                    private_ := if ch.private_.getD false then some true else none,
                    addBot := if ch.addBot.getD false then some true else none,
                    categoryName :=
                      if strTruthy ch.categoryName then some ch.categoryName
                      else if categoryChanged then some none
                      else none } } }
        else { type := .noop, resourceType := .channel, name := ch.name })

/-- Delete actions of the unmanaged-channels loop (reconciler.ts "Detect
unmanaged channels"); iterates the in-place-sorted channels. -/
def channelUnmanagedActions (prune : Bool) (desiredNames : List String)
    (chansSorted : List ActualChannel) : List Action :=
  chansSorted.filterMap (fun ch =>
    if desiredNames.contains ch.name then none
    else if prune then
      some { type := .delete, resourceType := .channel, name := ch.name,
             details := some { before := some { id := some ch.id, topic := some ch.topic } } }
    else none)

/-- Unmanaged entries of the unmanaged-channels loop. -/
def channelUnmanagedList (prune : Bool) (desiredNames : List String)
    (chansSorted : List ActualChannel) : List UnmanagedResource :=
  chansSorted.filterMap (fun ch =>
    if desiredNames.contains ch.name then none
    else if prune then none
    else some { resourceType := .channel, name := ch.name, id := ch.id, topic := ch.topic })

/-- Sort key of the desired threads (reconciler.ts section 3). -/
def threadSortKey (t : FlatDesiredThread) : String := t.parentChannel ++ ":" ++ t.name

/-- Desired-side thread actions (reconciler.ts section 3); channel lookups
see the in-place-sorted channels, thread lookups the pre-sort threads. -/
def threadDesiredActions (flatThreads : List FlatDesiredThread)
    (chansSorted : List ActualChannel) (threads : List ActualThread) : List Action :=
  (jsSortByKey threadSortKey flatThreads).map (fun th =>
    let parentChannel := chansSorted.find? (fun c => decide (c.name = th.parentChannel))
    let existing := threads.find? (fun t =>
      decide (t.name = th.name) &&
        match parentChannel with
        | some pc => decide (t.parentChannelId = pc.id)
        | none => false)
    match existing with
    | none =>
        { type := .create, resourceType := .thread, name := th.name,
          details := some { after := some { parentChannel := some th.parentChannel } } }
    | some _ => { type := .noop, resourceType := .thread, name := th.name })

/-- Key of an actual thread in the unmanaged-threads loop: the resolved
parent channel name (empty when the parent id resolves to no channel),
then ":", then the thread name. -/
def actualThreadKey (chansSorted : List ActualChannel) (th : ActualThread) : String :=
  match chansSorted.find? (fun c => decide (c.id = th.parentChannelId)) with
  | some pc => pc.name ++ ":" ++ th.name
  | none => ":" ++ th.name

/-- Delete actions of the unmanaged-threads loop (reconciler.ts "Detect
unmanaged threads"); iterates the in-place-sorted threads. -/
def threadUnmanagedActions (prune : Bool) (desiredKeys : List String)
    (chansSorted : List ActualChannel) (threadsSorted : List ActualThread) : List Action :=
  threadsSorted.filterMap (fun th =>
    if desiredKeys.contains (actualThreadKey chansSorted th) then none
    else if prune then
      some { type := .delete, resourceType := .thread, name := th.name,
             details := some { before := some ({ id := some th.id,
                                                 parentChannelId := some th.parentChannelId } : FieldMap) } }
    else none)

/-- Unmanaged entries of the unmanaged-threads loop. -/
def threadUnmanagedList (prune : Bool) (desiredKeys : List String)
    (chansSorted : List ActualChannel) (threadsSorted : List ActualThread) :
    List UnmanagedResource :=
  threadsSorted.filterMap (fun th =>
    if desiredKeys.contains (actualThreadKey chansSorted th) then none
    else if prune then none
    else some { resourceType := .thread, name := th.name, id := th.id })

/-- details.after of a desired binding action (create and noop use the same
shape; the requireMention key is present exactly when the desired value is
not undefined). -/
def bindingAfter (b : FlatDesiredBinding) : FieldMap :=
  { agentName := some b.agentName, channelRef := some b.channelRef,
    requireMention := b.requireMention }

/-- Desired-side binding actions (reconciler.ts section 4), sorted by agent
name; channel references resolved against the in-place-sorted channels. -/
def bindingDesiredActions (flatBindings : List FlatDesiredBinding)
    (chansSorted : List ActualChannel) (openclaw : OpenClawState) : List Action :=
  (jsSortByKey (fun b => b.agentName) flatBindings).map (fun b =>
    let resolvedChannel := chansSorted.find? (fun c => decide (c.name = b.channelRef))
    let existing := openclaw.bindings.find? (fun ob =>
      decide (ob.agentId = b.agentName) &&
        match resolvedChannel with
        | some rc => decide (ob.match_.peer.id = rc.id)
        | none => false)
    match existing with
    | none =>
        { type := .create, resourceType := .binding,
          name := b.agentName ++ " → " ++ b.channelRef,
          details := some { after := some (bindingAfter b) } }
    | some _ =>
        { type := .noop, resourceType := .binding,
          name := b.agentName ++ " → " ++ b.channelRef,
          details := some { after := some (bindingAfter b) } })

/-- Keys of the desired bindings that resolve to a live channel
(reconciler.ts desiredBindingKeys; unresolvable references are dropped by
filter(Boolean)). -/
def desiredBindingKeys (flatBindings : List FlatDesiredBinding)
    (chansSorted : List ActualChannel) : List String :=
  flatBindings.filterMap (fun b =>
    (chansSorted.find? (fun c => decide (c.name = b.channelRef))).map
      (fun ch => b.agentName ++ ":" ++ ch.id))

/-- Stale-binding delete actions (reconciler.ts "Detect stale bindings"):
every discord-kind routing entry, sorted by agent id, whose
(agent, channel id) key has no desired counterpart gets a delete.  There is
no guard restricting the scan to channel ids of the current target. -/
def staleBindingActions (flatBindings : List FlatDesiredBinding)
    (chansSorted : List ActualChannel) (openclaw : OpenClawState) : List Action :=
  let keys := desiredBindingKeys flatBindings chansSorted
  (jsSortByKey (fun b => b.agentId)
      (openclaw.bindings.filter (fun b => decide (b.match_.channel = "discord")))).filterMap
    (fun binding =>
      let key := binding.agentId ++ ":" ++ binding.match_.peer.id
      if keys.contains key then none
      else
        let ch := chansSorted.find? (fun c => decide (c.id = binding.match_.peer.id))
        let channelName := (ch.map (fun c => c.name)).getD binding.match_.peer.id
        some { type := .delete, resourceType := .binding,
               name := binding.agentId ++ " → " ++ channelName,
               details := some { before := some ({ agentName := some binding.agentId,
                                                   channelRef := some channelName,
                                                   resolvedChannelId := some binding.match_.peer.id } : FieldMap) } })

/-- Embedding of reconciler.ts reconcile, together with the state of the
DiscordState object after the call: the source sorts discord.categories,
discord.channels and discord.threads in place (Array.prototype.sort mutates),
so the second component records those arrays as the call leaves them.
Lookups after each in-place sort see the sorted array, exactly as in the
source. -/
def reconcileFull (desired : DesiredState) (discord : DiscordState)
    (openclaw : OpenClawState) (options : ReconcileOptions) :
    ReconcileResult × DiscordState :=
  let prune := options.prune.getD false
  let flat := flattenDesiredState desired
  let catActs := categoryDesiredActions flat.categories discord.categories
  let catsSorted := jsSortByKey (fun c => c.name) discord.categories
  let catPruneActs := categoryUnmanagedActions prune flat.categories catsSorted
  let catUnm := categoryUnmanagedList prune flat.categories catsSorted
  let chanActs := channelDesiredActions flat.channels discord.channels catsSorted
  let desiredChannelNames := flat.channels.map (fun c => c.name)
  let chansSorted := jsSortByKey (fun c => c.name) discord.channels
  let chanPruneActs := channelUnmanagedActions prune desiredChannelNames chansSorted
  let chanUnm := channelUnmanagedList prune desiredChannelNames chansSorted
  let thActs := threadDesiredActions flat.threads chansSorted discord.threads
  let desiredThreadKeys := flat.threads.map threadSortKey
  let threadsSorted := jsSortByKey (fun t => t.name) discord.threads
  let thPruneActs := threadUnmanagedActions prune desiredThreadKeys chansSorted threadsSorted
  let thUnm := threadUnmanagedList prune desiredThreadKeys chansSorted threadsSorted
  let bindActs := bindingDesiredActions flat.bindings chansSorted openclaw
  let staleActs := staleBindingActions flat.bindings chansSorted openclaw
  ({ actions := catActs ++ catPruneActs ++ chanActs ++ chanPruneActs ++
                thActs ++ thPruneActs ++ bindActs ++ staleActs,
     unmanaged := catUnm ++ chanUnm ++ thUnm },
   { discord with categories := catsSorted, channels := chansSorted,
                  threads := threadsSorted })

/-- channelDesiredActions with the localeCompare comparator abstracted:
the same action per desired channel, the desired channels sorted by lc on
name. -/
def channelDesiredActionsW (lc : String → String → Bool)
    (flatChans : List FlatDesiredChannel)
    (chans : List ActualChannel) (catsSorted : List ActualCategory) : List Action :=
  (lcSortByKey lc (fun c => c.name) flatChans).map (fun ch =>
    match chans.find? (fun c => decide (c.name = ch.name)) with
    | none =>
        { type := .create, resourceType := .channel, name := ch.name,
          details := some { after := some (channelCreateAfter ch) } }
    | some existing =>
        let existingCat := existingCategoryOf catsSorted existing
        let topicChanged := decide (existing.topic ≠ ch.topic)
        let categoryChanged := decide (existingCat.map (fun c => c.name) ≠ ch.categoryName)
        let restrictedChanged := existing.restricted.getD false != ch.restricted.getD false
        let privateChanged := existing.private_.getD false != ch.private_.getD false
        let addBotChanged := existing.addBot.getD false != ch.addBot.getD false
        if topicChanged || categoryChanged || restrictedChanged || privateChanged || addBotChanged then
          { type := .update, resourceType := .channel, name := ch.name,
            details := some
              { before := some
                  { topic := some existing.topic,
                    restricted := if existing.restricted.getD false then some true else none,
                    private_ := if existing.private_.getD false then some true else none,
                    addBot := if existing.addBot.getD false then some true else none,
                    categoryName := existingCat.map (fun c => some c.name) },
                after := some
                  { topic := some ch.topic,
                    restricted := if ch.restricted.getD false then some true else none,
                    private_ := if ch.private_.getD false then some true else none,
                    addBot := if ch.addBot.getD false then some true else none,
                    categoryName :=
                      if strTruthy ch.categoryName then some ch.categoryName
                      else if categoryChanged then some none
                      else none } } }
        else { type := .noop, resourceType := .channel, name := ch.name })

/-- threadDesiredActions with the localeCompare comparator abstracted:
the desired threads sorted by lc on their parent:name key. -/
def threadDesiredActionsW (lc : String → String → Bool)
    (flatThreads : List FlatDesiredThread)
    (chansSorted : List ActualChannel) (threads : List ActualThread) : List Action :=
  (lcSortByKey lc threadSortKey flatThreads).map (fun th =>
    let parentChannel := chansSorted.find? (fun c => decide (c.name = th.parentChannel))
    let existing := threads.find? (fun t =>
      decide (t.name = th.name) &&
        match parentChannel with
        | some pc => decide (t.parentChannelId = pc.id)
        | none => false)
    match existing with
    | none =>
        { type := .create, resourceType := .thread, name := th.name,
          details := some { after := some { parentChannel := some th.parentChannel } } }
    | some _ => { type := .noop, resourceType := .thread, name := th.name })

/-- bindingDesiredActions with the localeCompare comparator abstracted:
the desired bindings sorted by lc on agent name. -/
def bindingDesiredActionsW (lc : String → String → Bool)
    (flatBindings : List FlatDesiredBinding)
    (chansSorted : List ActualChannel) (openclaw : OpenClawState) : List Action :=
  (lcSortByKey lc (fun b => b.agentName) flatBindings).map (fun b =>
    let resolvedChannel := chansSorted.find? (fun c => decide (c.name = b.channelRef))
    let existing := openclaw.bindings.find? (fun ob =>
      decide (ob.agentId = b.agentName) &&
        match resolvedChannel with
        | some rc => decide (ob.match_.peer.id = rc.id)
        | none => false)
    match existing with
    | none =>
        { type := .create, resourceType := .binding,
          name := b.agentName ++ " → " ++ b.channelRef,
          details := some { after := some (bindingAfter b) } }
    | some _ =>
        { type := .noop, resourceType := .binding,
          name := b.agentName ++ " → " ++ b.channelRef,
          details := some { after := some (bindingAfter b) } })

/-- staleBindingActions with the localeCompare comparator abstracted:
the discord-kind routing entries sorted by lc on agent id. -/
def staleBindingActionsW (lc : String → String → Bool)
    (flatBindings : List FlatDesiredBinding)
    (chansSorted : List ActualChannel) (openclaw : OpenClawState) : List Action :=
  let keys := desiredBindingKeys flatBindings chansSorted
  (lcSortByKey lc (fun b => b.agentId)
      (openclaw.bindings.filter (fun b => decide (b.match_.channel = "discord")))).filterMap
    (fun binding =>
      let key := binding.agentId ++ ":" ++ binding.match_.peer.id
      if keys.contains key then none
      else
        let ch := chansSorted.find? (fun c => decide (c.id = binding.match_.peer.id))
        let channelName := (ch.map (fun c => c.name)).getD binding.match_.peer.id
        some { type := .delete, resourceType := .binding,
               name := binding.agentId ++ " → " ++ channelName,
               details := some { before := some ({ agentName := some binding.agentId,
                                                   channelRef := some channelName,
                                                   resolvedChannelId := some binding.match_.peer.id } : FieldMap) } })

/-- reconcileFull with the localeCompare comparator abstracted: the three
in-place workspace sorts and the four comparator-sorting stages take lc,
the default-sorted desired-category stage is unchanged (Array.sort with no
comparator does not consult the locale).  reconcileFull is its instance at
the code-point comparator (reconcileFullW_jsStrLe). -/
def reconcileFullW (lc : String → String → Bool) (desired : DesiredState) (discord : DiscordState)
    (openclaw : OpenClawState) (options : ReconcileOptions) :
    ReconcileResult × DiscordState :=
  let prune := options.prune.getD false
  let flat := flattenDesiredState desired
  let catActs := categoryDesiredActions flat.categories discord.categories
  let catsSorted := lcSortByKey lc (fun c => c.name) discord.categories
  let catPruneActs := categoryUnmanagedActions prune flat.categories catsSorted
  let catUnm := categoryUnmanagedList prune flat.categories catsSorted
  let chanActs := channelDesiredActionsW lc flat.channels discord.channels catsSorted
  let desiredChannelNames := flat.channels.map (fun c => c.name)
  let chansSorted := lcSortByKey lc (fun c => c.name) discord.channels
  let chanPruneActs := channelUnmanagedActions prune desiredChannelNames chansSorted
  let chanUnm := channelUnmanagedList prune desiredChannelNames chansSorted
  let thActs := threadDesiredActionsW lc flat.threads chansSorted discord.threads
  let desiredThreadKeys := flat.threads.map threadSortKey
  let threadsSorted := lcSortByKey lc (fun t => t.name) discord.threads
  let thPruneActs := threadUnmanagedActions prune desiredThreadKeys chansSorted threadsSorted
  let thUnm := threadUnmanagedList prune desiredThreadKeys chansSorted threadsSorted
  let bindActs := bindingDesiredActionsW lc flat.bindings chansSorted openclaw
  let staleActs := staleBindingActionsW lc flat.bindings chansSorted openclaw
  ({ actions := catActs ++ catPruneActs ++ chanActs ++ chanPruneActs ++
                thActs ++ thPruneActs ++ bindActs ++ staleActs,
     unmanaged := catUnm ++ chanUnm ++ thUnm },
   { discord with categories := catsSorted, channels := chansSorted,
                  threads := threadsSorted })

/-- reconcile as the caller sees its return value. -/
def reconcile (desired : DesiredState) (discord : DiscordState)
    (openclaw : OpenClawState) (options : ReconcileOptions) : ReconcileResult :=
  (reconcileFull desired discord openclaw options).1

/-!
Rollback engine: snapshotToDesired (src/commands/rollback.ts).
-/

/-- categoryNameById map of snapshotToDesired: a JavaScript Map built by
setting id -&gt; name for each category in order, so for a duplicated id the
last write wins; lookup is modelled by searching the reversed list. -/
def lastCategoryNameById (categories : List ActualCategory) (cid : String) : Option String :=
  (categories.reverse.find? (fun c => decide (c.id = cid))).map (fun c => c.name)

/-- catName of one captured channel in snapshotToDesired: ch.categoryId is
tested for string truthiness, then looked up in categoryNameById; the
grouping branch tests the resolved name for truthiness as well, so an
empty resolved name behaves like no category. -/
def snapshotCatNameOf (categories : List ActualCategory) (ch : ActualChannel) :
    Option String :=
  match ch.categoryId with
  | none => none
  | some cid =>
      if cid = "" then none
      else
        match lastCategoryNameById categories cid with
        | none => none
        | some nm => if nm = "" then none else some nm

/-- DesiredChannel built from one captured channel (snapshotToDesired):
topic kept when truthy, restricted when truthy, threads when non-empty;
private and addBot are not copied. -/
def snapshotDesiredChannelOf (threads : List ActualThread) (ch : ActualChannel) :
    DesiredChannel :=
  let threadNames := (threads.filter (fun th => decide (th.parentChannelId = ch.id))).map
    (fun th => th.name)
  { name := ch.name,
    topic := if strTruthy ch.topic then ch.topic else none,
    restricted := if ch.restricted.getD false then some true else none,
    threads := if threadNames.isEmpty then none else some threadNames }

/-- Insertion into the channelsByCategory Map: an existing key keeps its
position and its list grows at the end; a new key is appended, matching
JavaScript Map iteration order. -/
def groupUpsert (k : String) (v : DesiredChannel) :
    List (String × List DesiredChannel) → List (String × List DesiredChannel)
  | [] => [(k, [v])]
  | (k', vs) :: rest =>
      if k' = k then (k', vs ++ [v]) :: rest
      else (k', vs) :: groupUpsert k v rest

/-- channelsByCategory of snapshotToDesired: the channels with a resolved
category name, grouped in one left-to-right pass.  (The source fills this
map and the top-level list in a single loop; the two passes here visit the
same channels in the same order.) -/
def snapshotChannelGroups (categories : List ActualCategory)
    (threads : List ActualThread) (channels : List ActualChannel) :
    List (String × List DesiredChannel) :=
  channels.foldl (fun acc ch =>
    match snapshotCatNameOf categories ch with
    | some catName => groupUpsert catName (snapshotDesiredChannelOf threads ch) acc
    | none => acc) []

/-- topLevelChannels of snapshotToDesired: captured channels with no
resolved category, in capture order. -/
def snapshotTopLevelChannels (categories : List ActualCategory)
    (threads : List ActualThread) (channels : List ActualChannel) : List DesiredChannel :=
  channels.filterMap (fun ch =>
    match snapshotCatNameOf categories ch with
    | some _ => none
    | none => some (snapshotDesiredChannelOf threads ch))

/-- agents record of snapshotToDesired: a JavaScript object keyed by agent
id; assignment keeps the position of an existing key and overwrites its
value, a new key is appended. -/
def recordSet (k v : String) : List (String × String) → List (String × String)
  | [] => [(k, v)]
  | (k', v') :: rest =>
      if k' = k then (k, v) :: rest
      else (k', v') :: recordSet k v rest

/-- agents of snapshotToDesired: every discord-kind routing binding whose
channel id is a captured channel id of this target, mapped to the captured
channel name (falling back to the raw id). -/
def snapshotAgents (channels : List ActualChannel) (openclawState : OpenClawState) :
    List (String × String) :=
  let channelIds := channels.map (fun c => c.id)
  openclawState.bindings.foldl (fun acc b =>
    if b.match_.channel ≠ "discord" then acc
    else if !(channelIds.contains b.match_.peer.id) then acc
    else
      let ch := channels.find? (fun c => decide (c.id = b.match_.peer.id))
      recordSet b.agentId ((ch.map (fun c => c.name)).getD b.match_.peer.id) acc) []

/-- Embedding of snapshotToDesired (src/commands/rollback.ts).  The
compatibility probe for a pre-categories snapshot shape (category singular
at the top level) always takes the categories-array branch here, because
the typed DiscordState of this model always carries the array field. -/
def snapshotToDesired (discordState : DiscordState) (guildId : String)
    (openclawState : OpenClawState) : DesiredState :=
  let categories := discordState.categories
  let groups := snapshotChannelGroups categories discordState.threads discordState.channels
  let topLevel := snapshotTopLevelChannels categories discordState.threads discordState.channels
  let channelEntries : List DesiredChannelEntry :=
    topLevel.map .chan ++
      categories.filterMap (fun cat =>
        let chans := ((groups.find? (fun e => decide (e.1 = cat.name))).map
          (fun e => e.2)).getD []
        if chans.isEmpty then none
        else some (.group { category := cat.name, channels := chans }))
  let agents := snapshotAgents discordState.channels openclawState
  { guild := guildId,
    channels := channelEntries,
    openclaw :=
      if agents.isEmpty then none
      else some { agents := agents.map (fun e => (e.1, AgentBindingValue.str e.2)) } }

/-!
Snapshot store (src/snapshot.ts).  The file system is modelled as a map
from path to file content; a stored file holds either the JavaScript value
its JSON text parses to (a snapshot-shaped record) or unparseable text.
JSON.stringify of a snapshot value followed by JSON.parse yields the value
back (all snapshot fields are JSON-safe), which the model reflects by
storing the parsed value directly.
-/

/-- One target's capture inside a snapshot (src/types.ts
MultiServerSnapshot.servers values). -/
structure ServerSnapshotEntry where
  guildId : String
  discord : DiscordState
deriving DecidableEq, Repr

/-- Combined snapshot (src/types.ts MultiServerSnapshot); servers is a
JavaScript object modelled as an association list in insertion order. -/
structure MultiServerSnapshot where
  timestamp : String
  configHash : String
  servers : List (String × ServerSnapshotEntry)
  openclaw : OpenClawState
deriving DecidableEq, Repr

/-- Parsed JSON value of a snapshot file as loadSnapshot's shim sees it:
the servers and discord keys may each be absent (the legacy single-server
shape has discord at the top level and no servers key). -/
structure RawSnapshot where
  timestamp : String
  configHash : String
  servers : Option (List (String × ServerSnapshotEntry)) := none
  discord : Option DiscordState := none
  openclaw : OpenClawState
deriving DecidableEq, Repr

/-- Content of one file of the modelled file system. -/
inductive FileContent
  | json (raw : RawSnapshot)
  | malformed
deriving DecidableEq, Repr

/-- Modelled file system. -/
def FS : Type := String → Option FileContent

/-- JSON.stringify of a typed MultiServerSnapshot: the four keys of the
value, no discord key at the top level. -/
def rawOfSnapshot (s : MultiServerSnapshot) : RawSnapshot :=
  { timestamp := s.timestamp, configHash := s.configHash,
    servers := some s.servers, discord := none, openclaw := s.openclaw }

/-- Embedding of saveSnapshot (src/snapshot.ts): serialize and fully
overwrite the file at path. -/
def saveSnapshot (fs : FS) (snapshot : MultiServerSnapshot) (path : String) : FS :=
  fun p => if p = path then some (.json (rawOfSnapshot snapshot)) else fs p

/-- Embedding of loadSnapshot (src/snapshot.ts): an absent file
(readFileSync throws) and unparseable content (JSON.parse throws) are both
caught and become null, modelled as none.  A parsed value with discord
present and servers absent is upgraded by the migration shim; anything
else is returned as the snapshot (the unchecked TypeScript cast:
a missing servers key is modelled as the empty record). -/
def loadSnapshot (fs : FS) (path : String) : Option MultiServerSnapshot :=
  match fs path with
  | none => none
  | some .malformed => none
  | some (.json raw) =>
      match raw.discord, raw.servers with
      | some d, none =>
          some { timestamp := raw.timestamp, configHash := raw.configHash,
                 servers := [("default", { guildId := "unknown", discord := d })],
                 openclaw := raw.openclaw }
      | _, _ =>
          some { timestamp := raw.timestamp, configHash := raw.configHash,
                 servers := raw.servers.getD [], openclaw := raw.openclaw }

/-!
Apply orchestrator (src/commands/apply.ts).  Network providers are
modelled as outcome oracles: each provider call either returns a value or
throws (Except.error).  The trace records every mutating call issued —
snapshot writes, workspace (Discord) apply calls and routing-store
(OpenClaw) apply calls — in issue order.  Output rendering (console and
JSON printing) is out of scope and not modelled; the JSON dry-run exit
code is computed from the same action data the source renders.
-/

/-- One target of an apply run: its config-derived desired inputs plus the
behaviour of its workspace provider.  Every provider call is a network
call and can throw, so each is an outcome oracle: the up-front state
fetch, the per-server client login, the channel-id lookup
(getChannelIdByName), the apply calls, and the verify call, whose
successful verdict is a Bool. -/
structure ServerRun where
  name : String
  guild : String
  channels : List DesiredChannelEntry
  openclaw : Option DesiredOpenClaw := none
  fetchOutcome : Except String DiscordState
  loginOutcome : Except String Unit := .ok ()
  discordApplyOutcome : List Action → Except String Unit
  resolveChannelId : String → Except String (Option String) := fun _ => .ok none
  discordVerifyOutcome : Except String Bool := .ok true

/-- Behaviour of the shared routing-store provider, when available.  Its
verify call can also throw. -/
structure OCRun where
  fetchOutcome : Except String OpenClawState
  applyOutcome : List Action → Except String Unit
  verifyOutcome : Except String Bool := .ok true

/-- One mutating call of an orchestration run. -/
inductive OrchEvent
  | snapshotSave (path : String) (snapshot : MultiServerSnapshot)
  | discordApply (server : String) (actions : List Action)
  | openclawApply (server : String) (actions : List Action)
deriving DecidableEq, Repr

/-- Embedding of filterActions (src/filter.ts). -/
def filterActions (actions : List Action) (rtFilter : Option (List ResourceType)) :
    List Action :=
  match rtFilter with
  | none => actions
  | some f => actions.filter (fun a => f.contains a.resourceType)

/-- Channel-id resolution the source performs on each binding action before
handing it to the routing-store provider (apply.ts: set
details.after.resolvedChannelId from getChannelIdByName when it returns an
id).  getChannelIdByName is a network call and can throw. -/
def resolveBindingAction (resolve : String → Except String (Option String)) (a : Action) :
    Except String Action :=
  match a.details with
  | none => .ok a
  | some det =>
      match det.after with
      | none => .ok a
      | some af =>
          match af.channelRef with
          | none => .ok a
          | some ref =>
              match resolve ref with
              | .error e => .error e
              | .ok none => .ok a
              | .ok (some cid) =>
                  let af2 := { af with resolvedChannelId := some cid }
                  .ok { a with details := some { det with after := some af2 } }

/-- The resolution loop over the binding actions, stopping at the first
throwing lookup. -/
def resolveBindingActions (resolve : String → Except String (Option String)) :
    List Action → Except String (List Action)
  | [] => .ok []
  | a :: rest =>
      match resolveBindingAction resolve a with
      | .error e => .error e
      | .ok a2 =>
          match resolveBindingActions resolve rest with
          | .error e => .error e
          | .ok rest2 => .ok (a2 :: rest2)

/-- What one target contributes to the run: its issued mutating calls, its
recorded failures, and whether it reached the per-server success output.
aborted is set when the target's processing threw outside every catch
(per-server login, the mutation-branch channel-id resolution, or a verify
rejection): the exception propagates and the remaining targets are never
processed. -/
structure ServerOutcome where
  events : List OrchEvent := []
  errors : List (String × String) := []
  succeeded : List String := []
  aborted : Option String := none
deriving DecidableEq, Repr

/-- Verification step at the end of one target's apply phase (apply.ts):
a false verdict from either provider is recorded as that target's failure,
but the verify awaits themselves sit inside try/finally with no catch, so
a rejection is an uncaught throw and aborts the run. -/
def applyVerifyPhase (ocp : Option OCRun) (s : ServerRun) (evs : List OrchEvent) :
    ServerOutcome :=
  match s.discordVerifyOutcome with
  | .error e => { events := evs, aborted := some e }
  | .ok false => { events := evs, errors := [(s.name, "Discord verification failed")] }
  | .ok true =>
      match ocp with
      | some oc =>
          match oc.verifyOutcome with
          | .error e => { events := evs, aborted := some e }
          | .ok false =>
              { events := evs, errors := [(s.name, "OpenClaw verification failed")] }
          | .ok true => { events := evs, succeeded := [s.name] }
      | none => { events := evs, succeeded := [s.name] }

/-- Mutation section of one target's apply phase (apply.ts): the two-phase
workspace apply — every non-delete action in one provider call, then every
delete action in a second call — followed by the channel-id resolution
loop, the routing-store apply of the binding actions, and verification.
The two apply calls are wrapped in per-server catches; the resolution loop
and the verify calls are only inside try/finally, so their throws abort
the run.  discordActions is the non-noop non-binding subset the source
computes just above this section. -/
def applyMutationPhase (ocp : Option OCRun) (s : ServerRun)
    (discordActions bindingActions : List Action) : ServerOutcome :=
  let deleteActions := discordActions.filter (fun a => decide (a.type = ActionType.delete))
  let nonDeleteActions := discordActions.filter (fun a => decide (a.type ≠ ActionType.delete))
  let ev1 := if nonDeleteActions.isEmpty then []
    else [OrchEvent.discordApply s.name nonDeleteActions]
  let r1 : Except String Unit := if nonDeleteActions.isEmpty then .ok ()
    else s.discordApplyOutcome nonDeleteActions
  match r1 with
  | .error e =>
      { events := ev1,
        errors := [(s.name, "Discord apply failed after 0/" ++
          toString discordActions.length ++ ": " ++ e)] }
  | .ok _ =>
      let ev2 := if deleteActions.isEmpty then []
        else [OrchEvent.discordApply s.name deleteActions]
      let r2 : Except String Unit := if deleteActions.isEmpty then .ok ()
        else s.discordApplyOutcome deleteActions
      match r2 with
      | .error e =>
          { events := ev1 ++ ev2,
            errors := [(s.name, "Discord apply failed after " ++
              toString nonDeleteActions.length ++ "/" ++
              toString discordActions.length ++ ": " ++ e)] }
      | .ok _ =>
          match ocp with
          | some oc =>
              if !bindingActions.isEmpty then
                match resolveBindingActions s.resolveChannelId bindingActions with
                | .error e => { events := ev1 ++ ev2, aborted := some e }
                | .ok resolved =>
                    match oc.applyOutcome resolved with
                    | .error e =>
                        { events := ev1 ++ ev2 ++ [.openclawApply s.name resolved],
                          errors := [(s.name, "OpenClaw apply failed: " ++ e)] }
                    | .ok _ =>
                        applyVerifyPhase ocp s (ev1 ++ ev2 ++ [.openclawApply s.name resolved])
              else applyVerifyPhase ocp s (ev1 ++ ev2)
          | none => applyVerifyPhase ocp s (ev1 ++ ev2)

/-- Per-target body of the apply loop (apply.ts, the for loop over
serverEntries), for one target whose state was already fetched.  Failures
thrown inside the per-server catches are recorded and end only this
target's processing; the fresh client's login in either branch is awaited
before any try block, so a login throw aborts the run.  In the gate-sync
branch the channel-id resolution sits inside the catch (its throw is
recorded); in the mutation branch it does not. -/
def applyServerPhase (ocp : Option OCRun) (openclawState : OpenClawState)
    (yes prune : Bool) (rtFilter : Option (List ResourceType))
    (s : ServerRun) (discordState : DiscordState) : ServerOutcome :=
  let desired : DesiredState :=
    { guild := s.guild, channels := s.channels, openclaw := s.openclaw }
  let actions := (reconcile desired discordState openclawState { prune := some prune }).actions
  let filteredActions := filterActions actions rtFilter
  let changes := filteredActions.filter (fun a => decide (a.type ≠ ActionType.noop))
  let bindingActions := filteredActions.filter
    (fun a => decide (a.resourceType = ResourceType.binding))
  if changes.isEmpty then
    match ocp with
    | some oc =>
        if yes && !bindingActions.isEmpty then
          match s.loginOutcome with
          | .error e => { aborted := some e }
          | .ok _ =>
              match resolveBindingActions s.resolveChannelId bindingActions with
              | .error e => { errors := [(s.name, "Routing gate sync failed: " ++ e)] }
              | .ok resolved =>
                  match oc.applyOutcome resolved with
                  | .ok _ => { events := [.openclawApply s.name resolved] }
                  | .error e =>
                      { events := [.openclawApply s.name resolved],
                        errors := [(s.name, "Routing gate sync failed: " ++ e)] }
        else {}
    | none => {}
  else if !yes then {}
  else
    match s.loginOutcome with
    | .error e => { aborted := some e }
    | .ok _ =>
        let discordActions := filteredActions.filter
          (fun a => decide (a.type ≠ ActionType.noop) && decide (a.resourceType ≠ ResourceType.binding))
        applyMutationPhase ocp s discordActions bindingActions

/-- The per-target loop: each target whose processing does not throw
uncaught is followed by the next, and outcomes are concatenated in target
order; an uncaught throw stops the loop at that target. -/
def applyServersLoop (ocp : Option OCRun) (openclawState : OpenClawState)
    (yes prune : Bool) (rtFilter : Option (List ResourceType)) :
    List (ServerRun × DiscordState) → ServerOutcome
  | [] => {}
  | (s, st) :: rest =>
      let o := applyServerPhase ocp openclawState yes prune rtFilter s st
      match o.aborted with
      | some _ => o
      | none =>
          let r := applyServersLoop ocp openclawState yes prune rtFilter rest
          { events := o.events ++ r.events, errors := o.errors ++ r.errors,
            succeeded := o.succeeded ++ r.succeeded, aborted := r.aborted }

/-- The up-front fetch loop (apply.ts): every target's workspace state is
fetched before anything mutates; a fetch failure is NOT caught (the
try/finally only releases the client) and aborts the whole command. -/
def fetchServerStates : List ServerRun → Except String (List (ServerRun × DiscordState))
  | [] => .ok []
  | s :: rest =>
      match s.fetchOutcome with
      | .error e => .error e
      | .ok st =>
          match fetchServerStates rest with
          | .error e => .error e
          | .ok sts => .ok ((s, st) :: sts)

/-- Result of an apply run that did not abort with an uncaught exception. -/
structure ApplyReport where
  exitCode : Int
  events : List OrchEvent
  errors : List (String × String)
  succeeded : List String
deriving Repr

/-- Embedding of the applyCommand orchestration (src/commands/apply.ts)
after config parsing and server-filter resolution (both out of scope):
routing-store resolve and fetch, the per-target fetch loop, the combined
pre-mutation snapshot, the per-target reconcile/apply loop, and the final
exit code: dry-run JSON returns 2 when any action is not a noop, a
confirmed run returns 1 exactly when at least one target failure was
recorded.  An uncaught throw anywhere (routing fetch, a workspace fetch,
or a per-target abort path) is the error case: no report is produced,
though calls already issued — including the snapshot write — have
happened. -/
def applyCommandModel (servers : List ServerRun) (ocp : Option OCRun)
    (yes prune json snapEnabled : Bool) (rtFilter : Option (List ResourceType))
    (snapshotPath timestamp configHash : String) (fs : FS) :
    Except String (ApplyReport × FS) :=
  match (match ocp with
         | none => Except.ok ({ bindings := [] } : OpenClawState)
         | some oc => oc.fetchOutcome) with
  | .error e => .error e
  | .ok openclawState =>
      match fetchServerStates servers with
      | .error e => .error e
      | .ok states =>
          let serverEntries : List (String × ServerSnapshotEntry) :=
            states.map (fun p => (p.1.name, { guildId := p.1.guild, discord := p.2 }))
          let doSnap := snapEnabled && yes
          let snapValue : MultiServerSnapshot :=
            { timestamp := timestamp, configHash := configHash,
              servers := serverEntries, openclaw := openclawState }
          let fs2 := if doSnap then saveSnapshot fs snapValue snapshotPath else fs
          let snapEvents := if doSnap then [OrchEvent.snapshotSave snapshotPath snapValue] else []
          let outcome := applyServersLoop ocp openclawState yes prune rtFilter states
          match outcome.aborted with
          | some e => .error e
          | none =>
          let hasChanges := states.any (fun p =>
            (filterActions (reconcile
                { guild := p.1.guild, channels := p.1.channels, openclaw := p.1.openclaw }
                p.2 openclawState { prune := some prune }).actions rtFilter).any
              (fun a => decide (a.type ≠ ActionType.noop)))
          let exitCode : Int :=
            if json && !yes then (if hasChanges then 2 else 0)
            else if !yes then 0
            else if outcome.errors.isEmpty then 0 else 1
          .ok ({ exitCode := exitCode, events := snapEvents ++ outcome.events,
                 errors := outcome.errors, succeeded := outcome.succeeded }, fs2)

/-!
Rollback engine (src/commands/rollback.ts).  Same oracle style as the
apply orchestrator.  Config parsing is out of scope (the parsed config is
an input); resolveSnapshotPath performs path-string derivation via
node:path and is passed in as the already-derived default path.
-/

/-- Per-server config section (src/types.ts ServerConfig). -/
structure ServerConfig where
  guild : String
  channels : List DesiredChannelEntry
  openclaw : Option DesiredOpenClaw := none
deriving DecidableEq, Repr

/-- Parsed configuration (src/types.ts ParsedConfig); servers in insertion
order. -/
structure ParsedConfig where
  servers : List (String × ServerConfig)
  singleServer : Bool := false
deriving DecidableEq, Repr

/-- Snapshot options (src/types.ts SnapshotOptions). -/
structure SnapshotOptions where
  enabled : Bool
  path : String
deriving DecidableEq, Repr

/-- Provider behaviour for a rollback run, keyed by server name (workspace
side) and guild id (routing side). -/
structure RollbackWorld where
  dFetch : String → Except String DiscordState
  dApply : String → List Action → Except String Unit
  dVerify : String → DiscordState → Bool
  ocAvailable : Bool
  ocFetchOutcome : Except String OpenClawState
  ocApply : String → List Action → Except String Unit

/-- One server's computed rollback work. -/
structure RollbackPlan where
  serverName : String
  guildId : String
  actions : List Action
deriving DecidableEq, Repr

/-- The dry-run compute loop of rollbackCommand: per captured server, fetch
current state (uncaught on failure), rebuild the synthetic desired state
from the snapshot, and reconcile it against current state.  The drift
reconcile of the current config against the snapshot state feeds only
formatDriftWarnings (rendering, out of scope) and does not affect control
flow.  Returns the plans and the collected current states, both in server
order. -/
def rollbackComputeLoop (world : RollbackWorld) (currentOC snapshotOC : OpenClawState) :
    List (String × ServerSnapshotEntry) →
    Except String (List RollbackPlan × List (String × ServerSnapshotEntry))
  | [] => .ok ([], [])
  | (name, ss) :: rest =>
      match world.dFetch name with
      | .error e => .error e
      | .ok currentDiscord =>
          let snapshotDesired := snapshotToDesired ss.discord ss.guildId snapshotOC
          let actions := (reconcile snapshotDesired currentDiscord currentOC {}).actions
          match rollbackComputeLoop world currentOC snapshotOC rest with
          | .error e => .error e
          | .ok (plans, states) =>
              .ok ({ serverName := name, guildId := ss.guildId, actions := actions } :: plans,
                   (name, { guildId := ss.guildId, discord := currentDiscord }) :: states)

/-- Workspace step of the rollback apply loop: one provider call with
every non-noop non-binding action (no two-phase split in rollback). -/
def rollbackDiscordStep (world : RollbackWorld) (serverName : String)
    (discordActions : List Action) : List OrchEvent × Option String :=
  if discordActions.isEmpty then ([], none)
  else
    match world.dApply serverName discordActions with
    | .ok _ => ([OrchEvent.discordApply serverName discordActions], none)
    | .error e => ([OrchEvent.discordApply serverName discordActions],
        some ("Discord rollback failed: " ++ e))

/-- Routing-store step of the rollback apply loop: the non-noop binding
actions, when a routing provider is available. -/
def rollbackOcStep (world : RollbackWorld) (hasOC : Bool) (p : RollbackPlan) :
    List OrchEvent × Option String :=
  if !hasOC then ([], none)
  else
    let bindingActions := p.actions.filter (fun a =>
      decide (a.type ≠ ActionType.noop) && decide (a.resourceType = ResourceType.binding))
    if bindingActions.isEmpty then ([], none)
    else
      match world.ocApply p.guildId bindingActions with
      | .ok _ => ([OrchEvent.openclawApply p.serverName bindingActions], none)
      | .error e => ([OrchEvent.openclawApply p.serverName bindingActions],
          some ("OpenClaw rollback failed: " ++ e))

/-- The apply loop of rollbackCommand: per server, the workspace step, then
the routing-store step, then verification against the snapshot's captured
state; each failure is recorded and ends only that server's processing. -/
def rollbackApplyLoop (world : RollbackWorld) (hasOC : Bool)
    (snapshotServers : List (String × ServerSnapshotEntry)) :
    List RollbackPlan → List OrchEvent × List (String × String)
  | [] => ([], [])
  | p :: rest =>
      let restOut := rollbackApplyLoop world hasOC snapshotServers rest
      let changes := p.actions.filter (fun a => decide (a.type ≠ ActionType.noop))
      if changes.isEmpty then restOut
      else
        let discordActions := p.actions.filter (fun a =>
          decide (a.type ≠ ActionType.noop) && decide (a.resourceType ≠ ResourceType.binding))
        match rollbackDiscordStep world p.serverName discordActions with
        | (evs, some err) =>
            (evs ++ restOut.1, (p.serverName, err) :: restOut.2)
        | (evs1, none) =>
            match rollbackOcStep world hasOC p with
            | (evs2, some err) =>
                (evs1 ++ evs2 ++ restOut.1, (p.serverName, err) :: restOut.2)
            | (evs2, none) =>
                let captured := ((snapshotServers.find?
                  (fun e => decide (e.1 = p.serverName))).map (fun e => e.2.discord)).getD
                  { categories := [], channels := [], threads := [], pins := [] }
                if !(world.dVerify p.serverName captured) then
                  (evs1 ++ evs2 ++ restOut.1,
                   (p.serverName, "Rollback verification failed") :: restOut.2)
                else (evs1 ++ evs2 ++ restOut.1, restOut.2)

/-- The pre-rollback snapshot rollbackCommand saves before mutating:
current state of every processed server plus the current routing state,
with the marker prefix on the config hash. -/
def rollbackPreSnapshot (timestamp configHash : String)
    (currentStates : List (String × ServerSnapshotEntry))
    (currentOC : OpenClawState) : MultiServerSnapshot :=
  { timestamp := timestamp, configHash := "pre-rollback-" ++ configHash,
    servers := currentStates, openclaw := currentOC }

/-- Snapshot path used by rollbackCommand for both the load and the
pre-rollback save (rollback.ts lines 32-34): an enabled explicit path wins,
otherwise the path derived from the config location. -/
def rollbackSnapshotPath (snapOpts : Option SnapshotOptions)
    (defaultSnapshotPath : String) : String :=
  match snapOpts with
  | some o => if o.enabled && decide (o.path ≠ "") then o.path else defaultSnapshotPath
  | none => defaultSnapshotPath

/-- Embedding of rollbackCommand (src/commands/rollback.ts): load the
snapshot (absence is immediately fatal with exit 1 and no mutation),
validate the server filter, fetch current state and compute per-server
rollback actions, stop in dry-run modes, save the pre-rollback snapshot,
then apply with per-server failure isolation; exit 1 when any server
failed. -/
def rollbackCommandModel (fs : FS) (yes json : Bool) (world : RollbackWorld)
    (snapOpts : Option SnapshotOptions) (serverFilter : Option String)
    (defaultSnapshotPath timestamp configHash : String) :
    Except String (Int × FS × List OrchEvent) :=
  let snapshotPath := rollbackSnapshotPath snapOpts defaultSnapshotPath
  match loadSnapshot fs snapshotPath with
  | none => .ok (1, fs, [])
  | some snapshot =>
      match (match serverFilter with
             | some f =>
                 match snapshot.servers.find? (fun e => decide (e.1 = f)) with
                 | none => none
                 | some e => some [e]
             | none => some snapshot.servers) with
      | none => .ok (1, fs, [])
      | some serverEntries =>
          match (if world.ocAvailable then world.ocFetchOutcome
                 else .ok { bindings := [] }) with
          | .error e => .error e
          | .ok currentOC =>
              match rollbackComputeLoop world currentOC snapshot.openclaw serverEntries with
              | .error e => .error e
              | .ok (plans, currentStates) =>
                  let hasChanges := plans.any (fun p =>
                    p.actions.any (fun a => decide (a.type ≠ ActionType.noop)))
                  if json && !yes then .ok (if hasChanges then 2 else 0, fs, [])
                  else if !hasChanges then .ok (0, fs, [])
                  else if !yes then .ok (0, fs, [])
                  else
                    let snapEnabled := match snapOpts with
                      | some o => o.enabled
                      | none => true
                    let pre := rollbackPreSnapshot timestamp configHash currentStates currentOC
                    let fs2 := if snapEnabled then saveSnapshot fs pre snapshotPath else fs
                    let snapEvents := if snapEnabled
                      then [OrchEvent.snapshotSave snapshotPath pre] else []
                    let appliedOut := rollbackApplyLoop world world.ocAvailable
                      snapshot.servers plans
                    let exitCode : Int := if appliedOut.2.isEmpty then 0 else 1
                    .ok (exitCode, fs2, snapEvents ++ appliedOut.1)

/-- Predicate on trace events: a provider mutation (not a snapshot write). -/
def isProviderApplyEvent : OrchEvent → Bool
  | .snapshotSave _ _ => false
  | .discordApply _ _ => true
  | .openclawApply _ _ => true

/-- Workspace actions a trace hands to the workspace provider, in issue
order. -/
def issuedDiscordActions (evs : List OrchEvent) : List Action :=
  evs.flatMap (fun e =>
    match e with
    | .discordApply _ acts => acts
    | _ => [])

/-!
Concrete example inputs used by the witness and counterexample theorems.
The cross-target inputs mirror the repository's own reconciler test
"does not flag bindings for channels outside this guild as stale".
-/

/-- Empty live workspace state. -/
def exEmptyDiscord : DiscordState := { categories := [], channels := [], threads := [], pins := [] }

/-- Empty routing state. -/
def exEmptyOpenClaw : OpenClawState := { bindings := [] }

/-- Desired state of the reconciler tests: one category, two channels, one
thread, one binding. -/
def exDesired : DesiredState :=
  { guild := "123",
    channels := [ .group { category := "Homelab", channels :=
      [ { name := "homelab", topic := some "Ops", threads := some ["K8s"] },
        { name := "homelab-alerts", topic := some "Alerts" } ] } ],
    openclaw := some { agents := [("main", .str "homelab")] } }

/-- Live state of target A for the cross-target isolation scenario: only
channel ch1 belongs to this target. -/
def c1Discord : DiscordState :=
  { categories := [{ id := "cat1", name := "Homelab", managedBy := some "disclaw" }],
    channels := [ { id := "ch1", name := "homelab", topic := some "Ops",
                    categoryId := some "cat1", managedBy := some "disclaw" } ],
    threads := [], pins := [] }

/-- Shared routing store holding target A's binding and another target's
binding (ch99 is not a channel of A). -/
def c1OpenClaw : OpenClawState :=
  { bindings :=
      [ { agentId := "main",
          match_ := { channel := "discord", peer := { kind := "channel", id := "ch1" } } },
        { agentId := "other-agent",
          match_ := { channel := "discord", peer := { kind := "channel", id := "ch99" } } } ] }

/-- Desired state with nothing in it, for the frame counterexample. -/
def c4Desired : DesiredState := { guild := "g", channels := [] }

/-- Workspace state whose categories arrive in non-alphabetical order. -/
def c4Discord : DiscordState :=
  { categories := [ { id := "2", name := "Beta" }, { id := "1", name := "Alpha" } ],
    channels := [], threads := [], pins := [] }

/-- Captured workspace state with one empty category, for the rollback
reconstruction counterexample. -/
def c5Discord : DiscordState :=
  { categories := [ { id := "c1", name := "Empty" } ],
    channels := [], threads := [], pins := [] }

/-- Captured workspace state for the rollback reconstruction witness: one
category with a channel, one top-level channel, a thread, and a binding. -/
def c5WitnessDiscord : DiscordState :=
  { categories := [ { id := "c1", name := "Ops" } ],
    channels := [ { id := "ch1", name := "general", topic := some "T", categoryId := some "c1" },
                  { id := "ch2", name := "lobby" } ],
    threads := [ { id := "t1", name := "Releases", parentChannelId := "ch1" } ],
    pins := [] }

/-- Captured routing state for the rollback reconstruction witness: one
in-target binding and one foreign binding. -/
def c5WitnessOpenClaw : OpenClawState :=
  { bindings :=
      [ { agentId := "main",
          match_ := { channel := "discord", peer := { kind := "channel", id := "ch1" } } },
        { agentId := "other",
          match_ := { channel := "discord", peer := { kind := "channel", id := "zz" } } } ] }

/-- Desired state naming only category Zulu, for the ordering
counterexample. -/
def c6Desired : DesiredState :=
  { guild := "g", channels := [ .group { category := "Zulu", channels := [] } ] }

/-- Workspace state holding categories Zulu and Beta. -/
def c6Discord : DiscordState :=
  { categories := [ { id := "1", name := "Zulu" }, { id := "2", name := "Beta" } ],
    channels := [], threads := [], pins := [] }

/-- Desired categories written as Beta then Alpha, both with no channels,
for the determinism example of the spec. -/
def c6BetaAlphaDesired : DesiredState :=
  { guild := "g",
    channels := [ .group { category := "Beta", channels := [] },
                  .group { category := "Alpha", channels := [] } ] }

/-- Workspace state for the prune-symmetry witness: one unmanaged category,
channel, and thread besides the managed ones. -/
def c7Discord : DiscordState :=
  { categories := [ { id := "cat1", name := "Homelab" }, { id := "cat9", name := "Junk" } ],
    channels := [ { id := "ch1", name := "homelab", topic := some "Ops", categoryId := some "cat1" },
                  { id := "ch2", name := "homelab-alerts", topic := some "Alerts", categoryId := some "cat1" },
                  { id := "ch9", name := "scratch", topic := some "S" } ],
    threads := [ { id := "th1", name := "K8s", parentChannelId := "ch1" },
                 { id := "th9", name := "Old", parentChannelId := "ch1" } ],
    pins := [] }

/-- Target A of the failure-isolation scenario: its workspace apply
throws. -/
def c2ServerA : ServerRun :=
  { name := "A", guild := "gA",
    channels := [ .chan { name := "a-chan" } ],
    fetchOutcome := .ok exEmptyDiscord,
    discordApplyOutcome := fun _ => .error "boom" }

/-- Target B of the failure-isolation scenario: everything succeeds. -/
def c2ServerB : ServerRun :=
  { name := "B", guild := "gB",
    channels := [ .chan { name := "b-chan" } ],
    fetchOutcome := .ok exEmptyDiscord,
    discordApplyOutcome := fun _ => .ok () }

/-- Target whose workspace fetch throws, for the fetch-abort
counterexample. -/
def c2ServerAFetchFail : ServerRun :=
  { name := "A", guild := "gA",
    channels := [ .chan { name := "a-chan" } ],
    fetchOutcome := .error "fetch boom",
    discordApplyOutcome := fun _ => .ok () }

/-- Target whose workspace applies succeed but whose verify call rejects,
for the verify-abort counterexample. -/
def c2ServerAVerifyThrow : ServerRun :=
  { name := "A", guild := "gA",
    channels := [ .chan { name := "a-chan" } ],
    fetchOutcome := .ok exEmptyDiscord,
    discordApplyOutcome := fun _ => .ok (),
    discordVerifyOutcome := .error "verify boom" }

/-- File system with no files. -/
def exEmptyFS : FS := fun _ => none

/-- Rollback provider behaviour for the snapshot-absent witness. -/
def c8World : RollbackWorld :=
  { dFetch := fun _ => .error "unused",
    dApply := fun _ _ => .ok (),
    dVerify := fun _ _ => true,
    ocAvailable := false,
    ocFetchOutcome := .ok { bindings := [] },
    ocApply := fun _ _ => .ok () }

/-- Snapshot placed on disk for the rollback-overwrite witness: one server
whose capture has a channel that no longer exists live. -/
def c10Snapshot : MultiServerSnapshot :=
  { timestamp := "t0", configHash := "h0",
    servers := [ ("s1", { guildId := "g1", discord :=
      { categories := [], channels := [ { id := "ch1", name := "general" } ],
        threads := [], pins := [] } }) ],
    openclaw := { bindings := [] } }

/-- File system holding only that snapshot at snap.json. -/
def c10FS : FS :=
  fun p => if p = "snap.json" then some (.json (rawOfSnapshot c10Snapshot)) else none

/-- Rollback provider behaviour for the overwrite witness: current live
state is empty, every mutation succeeds. -/
def c10World : RollbackWorld :=
  { dFetch := fun _ => .ok exEmptyDiscord,
    dApply := fun _ _ => .ok (),
    dVerify := fun _ _ => true,
    ocAvailable := false,
    ocFetchOutcome := .ok { bindings := [] },
    ocApply := fun _ _ => .ok () }

/-!
Theorems.  General lemmas about the modelled JavaScript sort come first,
then the claim theorems with their witnesses and counterexamples.
-/

theorem orderedInsertB_perm (le : α → α → Bool) (x : α) (l : List α) :
    List.Perm (orderedInsertB le x l) (x :: l) := by
  induction l with
  | nil => simp [orderedInsertB]
  | cons y ys ih =>
      by_cases h : le x y = true
      · simp [orderedInsertB, h]
      · simp only [orderedInsertB, h]
        rw [if_neg (by simp [h])]
        exact (List.Perm.cons y ih).trans (List.Perm.swap x y ys)

theorem insertionSortB_perm (le : α → α → Bool) (l : List α) :
    List.Perm (insertionSortB le l) l := by
  induction l with
  | nil => simp [insertionSortB]
  | cons x xs ih =>
      exact (orderedInsertB_perm le x (insertionSortB le xs)).trans (List.Perm.cons x ih)

theorem mem_orderedInsertB {le : α → α → Bool} {x z : α} {l : List α} :
    z ∈ orderedInsertB le x l ↔ z = x ∨ z ∈ l := by
  rw [(orderedInsertB_perm le x l).mem_iff]
  simp

theorem sorted_orderedInsertB (le : α → α → Bool)
    (htot : ∀ a b, le a b = true ∨ le b a = true)
    (htr : ∀ a b c, le a b = true → le b c = true → le a c = true)
    (x : α) (l : List α) (hl : List.Pairwise (fun a b => le a b = true) l) :
    List.Pairwise (fun a b => le a b = true) (orderedInsertB le x l) := by
  induction l with
  | nil => simp [orderedInsertB]
  | cons y ys ih =>
      rcases List.pairwise_cons.mp hl with ⟨hy, hys⟩
      by_cases h : le x y = true
      · simp only [orderedInsertB, if_pos h]
        refine List.pairwise_cons.mpr ⟨?_, hl⟩
        intro z hz
        rcases List.mem_cons.mp hz with rfl | hz
        · exact h
        · exact htr x y z h (hy z hz)
      · simp only [orderedInsertB, if_neg h]
        refine List.pairwise_cons.mpr ⟨?_, ih hys⟩
        intro z hz
        rcases mem_orderedInsertB.mp hz with hzx | hz
        · rcases htot x y with h' | h'
          · exact absurd h' h
          · rw [hzx]
            exact h'
        · exact hy z hz

theorem sorted_insertionSortB (le : α → α → Bool)
    (htot : ∀ a b, le a b = true ∨ le b a = true)
    (htr : ∀ a b c, le a b = true → le b c = true → le a c = true)
    (l : List α) :
    List.Pairwise (fun a b => le a b = true) (insertionSortB le l) := by
  induction l with
  | nil => simp [insertionSortB]
  | cons x xs ih => exact sorted_orderedInsertB le htot htr x _ ih

theorem jsStrLtChars_irrefl : ∀ l, jsStrLtChars l l = false
  | [] => rfl
  | a :: as => by simp [jsStrLtChars, jsStrLtChars_irrefl as]

theorem jsStrLtChars_trans : ∀ {a b c : List Char}, jsStrLtChars a b = true →
    jsStrLtChars b c = true → jsStrLtChars a c = true
  | [], [], _, h, _ => absurd h (by simp [jsStrLtChars])
  | [], _ :: _, [], _, h => absurd h (by simp [jsStrLtChars])
  | [], _ :: _, _ :: _, _, _ => by simp [jsStrLtChars]
  | _ :: _, [], _, h, _ => absurd h (by simp [jsStrLtChars])
  | _ :: _, _ :: _, [], _, h => absurd h (by simp [jsStrLtChars])
  | a :: as, b :: bs, c :: cs, h1, h2 => by
      by_cases hab : a = b
      · subst hab
        by_cases hbc : a = c
        · subst hbc
          simp only [jsStrLtChars, if_pos rfl] at h1 h2 ⊢
          exact jsStrLtChars_trans h1 h2
        · simp only [jsStrLtChars, if_pos rfl, if_neg hbc] at h2 ⊢
          exact h2
      · simp only [jsStrLtChars, if_neg hab] at h1
        have hab' : a < b := of_decide_eq_true h1
        by_cases hbc : b = c
        · subst hbc
          simp only [jsStrLtChars, if_neg hab]
          exact h1
        · simp only [jsStrLtChars, if_neg hbc] at h2
          have hbc' : b < c := of_decide_eq_true h2
          have hac' : a < c := lt_trans hab' hbc'
          have hac : a ≠ c := ne_of_lt hac'
          simp only [jsStrLtChars, if_neg hac]
          exact decide_eq_true hac'

theorem jsStrLtChars_total : ∀ a b : List Char,
    jsStrLtChars a b = true ∨ a = b ∨ jsStrLtChars b a = true
  | [], [] => Or.inr (Or.inl rfl)
  | [], _ :: _ => Or.inl (by simp [jsStrLtChars])
  | _ :: _, [] => Or.inr (Or.inr (by simp [jsStrLtChars]))
  | a :: as, b :: bs => by
      by_cases hab : a = b
      · subst hab
        rcases jsStrLtChars_total as bs with h | h | h
        · exact Or.inl (by simp [jsStrLtChars, h])
        · exact Or.inr (Or.inl (by rw [h]))
        · exact Or.inr (Or.inr (by simp [jsStrLtChars, h]))
      · rcases lt_trichotomy a b with h | h | h
        · exact Or.inl (by simp [jsStrLtChars, hab, h])
        · exact absurd h hab
        · exact Or.inr (Or.inr (by simp [jsStrLtChars, Ne.symm hab, h]))

theorem jsStrLtChars_asymm {a b : List Char} (h1 : jsStrLtChars a b = true)
    (h2 : jsStrLtChars b a = true) : False := by
  have := jsStrLtChars_trans h1 h2
  rw [jsStrLtChars_irrefl] at this
  exact Bool.false_ne_true this

theorem jsStrLe_total (a b : String) : jsStrLe a b = true ∨ jsStrLe b a = true := by
  unfold jsStrLe jsStrLt
  simp only [Bool.not_eq_true']
  cases h1 : jsStrLtChars b.data a.data with
  | false => exact Or.inl rfl
  | true =>
      cases h2 : jsStrLtChars a.data b.data with
      | false => exact Or.inr rfl
      | true => exact (jsStrLtChars_asymm h1 h2).elim

theorem jsStrLe_trans {a b c : String} (h1 : jsStrLe a b = true)
    (h2 : jsStrLe b c = true) : jsStrLe a c = true := by
  unfold jsStrLe jsStrLt at h1 h2 ⊢
  simp only [Bool.not_eq_true'] at h1 h2 ⊢
  cases hca : jsStrLtChars c.data a.data with
  | false => rfl
  | true =>
      exfalso
      rcases jsStrLtChars_total a.data b.data with h | h | h
      · have hcb := jsStrLtChars_trans hca h
        rw [h2] at hcb
        exact Bool.false_ne_true hcb
      · rw [h] at hca
        rw [h2] at hca
        exact Bool.false_ne_true hca
      · rw [h1] at h
        exact Bool.false_ne_true h

theorem loadSnapshot_saveSnapshot (fs : FS) (s : MultiServerSnapshot) (p : String) :
    loadSnapshot (saveSnapshot fs s p) p = some s := by
  cases s
  simp [loadSnapshot, saveSnapshot, rawOfSnapshot]

/-- C9: saving a snapshot and loading it back from the same path returns a
value deeply equal to the saved one, for every snapshot, path, and prior
file-system state. -/
theorem c9_snapshot_roundtrip (fs : FS) (s : MultiServerSnapshot) (p : String) :
    loadSnapshot (saveSnapshot fs s p) p = some s :=
  loadSnapshot_saveSnapshot fs s p

/-- C8: when the snapshot file is absent or unparseable, loadSnapshot
returns the explicit absent value (none, not an exception), and
rollbackCommand then exits with code 1 having issued no mutating call and
left the file system untouched. -/
theorem c8_snapshot_absent_is_fatal (fs : FS) (yes json : Bool) (world : RollbackWorld)
    (snapOpts : Option SnapshotOptions) (serverFilter : Option String)
    (defaultSnapshotPath timestamp configHash : String)
    (habs : fs (rollbackSnapshotPath snapOpts defaultSnapshotPath) = none ∨
      fs (rollbackSnapshotPath snapOpts defaultSnapshotPath) = some FileContent.malformed) :
    loadSnapshot fs (rollbackSnapshotPath snapOpts defaultSnapshotPath) = none ∧
    rollbackCommandModel fs yes json world snapOpts serverFilter
      defaultSnapshotPath timestamp configHash = .ok (1, fs, []) := by
  have hload : loadSnapshot fs (rollbackSnapshotPath snapOpts defaultSnapshotPath) = none := by
    rcases habs with h | h <;> simp [loadSnapshot, h]
  refine ⟨hload, ?_⟩
  simp only [rollbackCommandModel, hload]

theorem c8_witness :
    loadSnapshot exEmptyFS (rollbackSnapshotPath none "disclaw-snapshot.json") = none ∧
    rollbackCommandModel exEmptyFS true false c8World none none
      "disclaw-snapshot.json" "t" "h" = .ok (1, exEmptyFS, []) :=
  c8_snapshot_absent_is_fatal exEmptyFS true false c8World none none
    "disclaw-snapshot.json" "t" "h" (Or.inl rfl)

/-- C1: the stale-binding loop of reconcile scans every discord-kind
routing entry with no guard restricting it to the current target's live
channel set, so on the cross-target input of the repository's own test
(routing entry other-agent -&gt; ch99 where ch99 is not a channel of this
target) a binding delete naming other-agent IS emitted — the code
contradicts its test and the spec. -/
theorem c1_cross_target_stale_delete_emitted :
    (c1Discord.channels.map (fun c => c.id)).contains "ch99" = false ∧
    ((reconcile exDesired c1Discord c1OpenClaw {}).actions.filter
        (fun a => decide (a.type = ActionType.delete) &&
          decide (a.resourceType = ResourceType.binding))).map (fun a => a.name) =
      ["other-agent → ch99"] := by decide

/-- C4 counterexample: reconcile sorts the fetched workspace arrays in
place (Array.prototype.sort mutates), so on a workspace whose categories
arrive as Beta, Alpha the call leaves them reordered — the inputs are not
left unchanged. -/
theorem c4_counterexample :
    (reconcileFull c4Desired c4Discord exEmptyOpenClaw {}).2 ≠ c4Discord := by decide

/-- C4 amended: reconcile leaves the desired state and routing state
untouched and preserves the elements and pins of the workspace state, but
re-orders its categories, channels and threads arrays in place into
name-sorted order. -/
theorem c4_amended_frame (desired : DesiredState) (discord : DiscordState)
    (openclaw : OpenClawState) (options : ReconcileOptions) :
    ((reconcileFull desired discord openclaw options).2.categories =
        jsSortByKey (fun c => c.name) discord.categories ∧
      List.Perm (reconcileFull desired discord openclaw options).2.categories
        discord.categories) ∧
    ((reconcileFull desired discord openclaw options).2.channels =
        jsSortByKey (fun c => c.name) discord.channels ∧
      List.Perm (reconcileFull desired discord openclaw options).2.channels
        discord.channels) ∧
    ((reconcileFull desired discord openclaw options).2.threads =
        jsSortByKey (fun t => t.name) discord.threads ∧
      List.Perm (reconcileFull desired discord openclaw options).2.threads
        discord.threads) ∧
    (reconcileFull desired discord openclaw options).2.pins = discord.pins := by
  refine ⟨⟨rfl, ?_⟩, ⟨rfl, ?_⟩, ⟨rfl, ?_⟩, rfl⟩ <;> exact insertionSortB_perm _ _

/-- C6 counterexample: with a desired category Zulu present live and an
unmanaged live category Beta pruned, the returned action list carries the
category actions as Zulu then Beta — not in lexicographic name order. -/
theorem c6_counterexample :
    (((reconcile c6Desired c6Discord exEmptyOpenClaw { prune := some true }).actions.filter
        (fun a => decide (a.resourceType = ResourceType.category))).map (fun a => a.name) =
      ["Zulu", "Beta"]) ∧
    ¬ List.Pairwise (fun a b => jsStrLe a b = true) ["Zulu", "Beta"] := by decide

/-- C2 counterexample: a workspace fetch failure for target A is not
caught by the orchestrator (the up-front fetch loop has no catch), so the
whole run aborts with the exception: target B is never processed, nothing
is recorded or aggregated, and no report is produced. -/
theorem c2_counterexample :
    applyCommandModel [c2ServerAFetchFail, c2ServerB] none true false false false none
        "p" "t" "h" exEmptyFS = .error "fetch boom" ∧
    applyCommandModel [c2ServerAVerifyThrow, c2ServerB] none true false false false none
        "p" "t" "h" exEmptyFS = .error "verify boom" := ⟨rfl, rfl⟩

theorem issuedDiscordActions_nil : issuedDiscordActions [] = [] := rfl

theorem issuedDiscordActions_append (a b : List OrchEvent) :
    issuedDiscordActions (a ++ b) = issuedDiscordActions a ++ issuedDiscordActions b := by
  simp [issuedDiscordActions]

theorem applyVerifyPhase_events (ocp : Option OCRun) (s : ServerRun) (evs : List OrchEvent) :
    (applyVerifyPhase ocp s evs).events = evs := by
  rcases ocp with _ | oc
  · rcases h : s.discordVerifyOutcome with e | b
    · simp [applyVerifyPhase, h]
    · cases b <;> simp [applyVerifyPhase, h]
  · rcases h : s.discordVerifyOutcome with e | b
    · simp [applyVerifyPhase, h]
    · cases b
      · simp [applyVerifyPhase, h]
      · rcases h2 : oc.verifyOutcome with e2 | b2
        · simp [applyVerifyPhase, h, h2]
        · cases b2 <;> simp [applyVerifyPhase, h, h2]

set_option maxHeartbeats 1000000 in
theorem applyMutationPhase_issued (ocp : Option OCRun) (s : ServerRun)
    (discordActions bindingActions : List Action) :
    ∃ pre post,
      issuedDiscordActions (applyMutationPhase ocp s discordActions bindingActions).events =
        pre ++ post ∧
      (∀ a ∈ pre, a.type ≠ ActionType.delete) ∧
      (∀ a ∈ post, a.type = ActionType.delete) := by
  have hnd : ∀ a ∈ discordActions.filter (fun x => decide (x.type ≠ ActionType.delete)),
      a.type ≠ ActionType.delete := fun a ha => of_decide_eq_true (List.mem_filter.mp ha).2
  have hdl : ∀ a ∈ discordActions.filter (fun x => decide (x.type = ActionType.delete)),
      a.type = ActionType.delete := fun a ha => of_decide_eq_true (List.mem_filter.mp ha).2
  unfold applyMutationPhase
  generalize hg1 : List.filter (fun a => decide (a.type = ActionType.delete)) discordActions = dl
  generalize hg2 : List.filter (fun a => decide (a.type ≠ ActionType.delete)) discordActions = nd
  rw [hg1] at hdl
  rw [hg2] at hnd
  have resolved : List Action := []
  rcases ocp with _ | oc <;>
    by_cases h1 : nd.isEmpty = true <;>
    by_cases h2 : dl.isEmpty = true <;>
    by_cases hb : bindingActions.isEmpty = true <;>
    rcases hr1 : s.discordApplyOutcome nd with e1 | u1 <;>
    rcases hr2 : s.discordApplyOutcome dl with e2 | u2 <;>
    (try rcases hres : resolveBindingActions s.resolveChannelId bindingActions with e0 | resolved) <;>
    (try rcases hoc : oc.applyOutcome resolved with e3 | u3) <;>
    first
      | (refine ⟨[], [], ?_, fun a ha => absurd ha (List.not_mem_nil a),
            fun a ha => absurd ha (List.not_mem_nil a)⟩;
         simp [*, applyVerifyPhase_events, issuedDiscordActions]; done)
      | (refine ⟨nd, [], ?_, fun a ha => hnd a ha,
            fun a ha => absurd ha (List.not_mem_nil a)⟩;
         simp [*, applyVerifyPhase_events, issuedDiscordActions]; done)
      | (refine ⟨[], dl, ?_, fun a ha => absurd ha (List.not_mem_nil a),
            fun a ha => hdl a ha⟩;
         simp [*, applyVerifyPhase_events, issuedDiscordActions]; done)
      | (refine ⟨nd, dl, ?_, fun a ha => hnd a ha, fun a ha => hdl a ha⟩;
         simp [*, applyVerifyPhase_events, issuedDiscordActions]; done)

/-- C3: within one target's apply phase, the stream of actions handed to
the workspace provider splits as all non-delete (create/update) actions
followed by all delete actions — every create and update is issued before
any delete, for every input and every provider behaviour. -/
theorem c3_phase_ordering (ocp : Option OCRun) (openclawState : OpenClawState)
    (yes prune : Bool) (rtFilter : Option (List ResourceType))
    (s : ServerRun) (discordState : DiscordState) :
    ∃ pre post,
      issuedDiscordActions
          (applyServerPhase ocp openclawState yes prune rtFilter s discordState).events =
        pre ++ post ∧
      (∀ a ∈ pre, a.type ≠ ActionType.delete) ∧
      (∀ a ∈ post, a.type = ActionType.delete) := by
  have hnil : ∃ pre post,
      (([] : List Action) = pre ++ post) ∧
      (∀ a ∈ pre, a.type ≠ ActionType.delete) ∧
      (∀ a ∈ post, a.type = ActionType.delete) :=
    ⟨[], [], rfl, fun a ha => absurd ha (List.not_mem_nil a),
      fun a ha => absurd ha (List.not_mem_nil a)⟩
  rcases ocp with _ | oc
  all_goals unfold applyServerPhase
  all_goals dsimp only
  · split
    · exact hnil
    · split
      · exact hnil
      · rcases hl : s.loginOutcome with e | u
        · exact hnil
        · exact applyMutationPhase_issued none s _ _
  · split
    · split
      · rcases hl : s.loginOutcome with e | u
        · exact hnil
        · dsimp only
          split
          · exact hnil
          · split <;> exact hnil
      · exact hnil
    · split
      · exact hnil
      · rcases hl : s.loginOutcome with e | u
        · exact hnil
        · exact applyMutationPhase_issued (some oc) s _ _

theorem applyServersLoop_eq (ocp : Option OCRun) (ocs : OpenClawState)
    (yes prune : Bool) (rtF : Option (List ResourceType))
    (l : List (ServerRun × DiscordState))
    (hab : ∀ p ∈ l, (applyServerPhase ocp ocs yes prune rtF p.1 p.2).aborted = none) :
    applyServersLoop ocp ocs yes prune rtF l =
      { events := l.flatMap (fun p => (applyServerPhase ocp ocs yes prune rtF p.1 p.2).events),
        errors := l.flatMap (fun p => (applyServerPhase ocp ocs yes prune rtF p.1 p.2).errors),
        succeeded := l.flatMap
          (fun p => (applyServerPhase ocp ocs yes prune rtF p.1 p.2).succeeded),
        aborted := none } := by
  induction l with
  | nil => rfl
  | cons p rest ih =>
      have h1 := hab p (List.mem_cons_self p rest)
      have ih2 := ih (fun q hq => hab q (List.mem_cons_of_mem p hq))
      simp [applyServersLoop, h1, ih2]

theorem fetchServerStates_names {l : List ServerRun}
    {sts : List (ServerRun × DiscordState)} (h : fetchServerStates l = .ok sts) :
    sts.map Prod.fst = l := by
  induction l generalizing sts with
  | nil =>
      simp only [fetchServerStates] at h
      cases h
      rfl
  | cons s rest ih =>
      simp only [fetchServerStates] at h
      rcases hs : s.fetchOutcome with e | st
      · rw [hs] at h
        cases h
      · rw [hs] at h
        rcases hr : fetchServerStates rest with e | sts2
        · rw [hr] at h
          cases h
        · rw [hr] at h
          cases h
          simpa using ih hr

/-- C2 amended: per-target failure isolation holds exactly for the steps
the per-server catches cover.  Once the routing-store fetch and every
target's workspace fetch have succeeded, and no target's processing hits
one of the uncaught throw paths (the per-server client login, the
channel-id resolution of the mutation branch, or a provider verify
rejection — none of which the source catches), then: a workspace-apply or
routing-apply throw and a false verify verdict are each recorded against
their own target, every target is processed, the report aggregates each
target's events, recorded failures and successes in target order, and the
exit code is 0 exactly when no target failure was recorded. -/
theorem c2_amended_isolation (servers : List ServerRun) (ocp : Option OCRun)
    (prune json snapEnabled : Bool) (rtFilter : Option (List ResourceType))
    (snapshotPath timestamp configHash : String) (fs : FS)
    (openclawState : OpenClawState) (states : List (ServerRun × DiscordState))
    (hoc : (match ocp with
            | none => Except.ok ({ bindings := [] } : OpenClawState)
            | some oc => oc.fetchOutcome) = Except.ok openclawState)
    (hstates : fetchServerStates servers = Except.ok states)
    (hnoabort : ∀ p ∈ states,
      (applyServerPhase ocp openclawState true prune rtFilter p.1 p.2).aborted = none) :
    ∃ fs2,
      applyCommandModel servers ocp true prune json snapEnabled rtFilter
          snapshotPath timestamp configHash fs =
        Except.ok
          ({ exitCode := if (states.flatMap (fun p =>
                (applyServerPhase ocp openclawState true prune rtFilter p.1 p.2).errors)).isEmpty
              then 0 else 1,
             events := (if snapEnabled then
                 [OrchEvent.snapshotSave snapshotPath
                   { timestamp := timestamp, configHash := configHash,
                     servers := states.map
                       (fun p => (p.1.name, { guildId := p.1.guild, discord := p.2 })),
                     openclaw := openclawState }] else []) ++
               states.flatMap (fun p =>
                 (applyServerPhase ocp openclawState true prune rtFilter p.1 p.2).events),
             errors := states.flatMap (fun p =>
               (applyServerPhase ocp openclawState true prune rtFilter p.1 p.2).errors),
             succeeded := states.flatMap (fun p =>
               (applyServerPhase ocp openclawState true prune rtFilter p.1 p.2).succeeded) },
           fs2) ∧
      ∀ s0 ∈ servers, ∃ st, (s0, st) ∈ states := by
  refine ⟨if snapEnabled && true then saveSnapshot fs
    { timestamp := timestamp, configHash := configHash,
      servers := states.map (fun p => (p.1.name, { guildId := p.1.guild, discord := p.2 })),
      openclaw := openclawState } snapshotPath else fs, ?_, ?_⟩
  · unfold applyCommandModel
    rw [hoc, hstates]
    dsimp only
    rw [applyServersLoop_eq _ _ _ _ _ _ hnoabort]
    simp
  · intro s0 hs0
    have hnames := fetchServerStates_names hstates
    rw [← hnames] at hs0
    rcases List.mem_map.mp hs0 with ⟨p, hp, hfst⟩
    exact ⟨p.2, by rw [← hfst]; exact hp⟩

theorem rollbackDiscordStep_events (world : RollbackWorld) (n : String)
    (acts : List Action) (evs : List OrchEvent) (err : Option String)
    (h : rollbackDiscordStep world n acts = (evs, err)) :
    ∀ e ∈ evs, isProviderApplyEvent e = true := by
  unfold rollbackDiscordStep at h
  split at h
  · cases h
    simp
  · split at h <;> (cases h; simp [isProviderApplyEvent])

theorem rollbackOcStep_events (world : RollbackWorld) (hasOC : Bool) (p : RollbackPlan)
    (evs : List OrchEvent) (err : Option String)
    (h : rollbackOcStep world hasOC p = (evs, err)) :
    ∀ e ∈ evs, isProviderApplyEvent e = true := by
  unfold rollbackOcStep at h
  split at h
  · cases h
    simp
  · dsimp only at h
    split at h
    · cases h
      simp
    · split at h <;> (cases h; simp [isProviderApplyEvent])

theorem rollbackApplyLoop_events_kind (world : RollbackWorld) (hasOC : Bool)
    (ss : List (String × ServerSnapshotEntry)) :
    ∀ (plans : List RollbackPlan), ∀ e ∈ (rollbackApplyLoop world hasOC ss plans).1,
      isProviderApplyEvent e = true := by
  intro plans
  induction plans with
  | nil => simp [rollbackApplyLoop]
  | cons p rest ih =>
      intro e he
      simp only [rollbackApplyLoop] at he
      split at he
      · exact ih e he
      · split at he
        next evs err heq =>
          dsimp only at he
          rcases List.mem_append.mp he with h | h
          · exact rollbackDiscordStep_events world p.serverName _ evs (some err) heq e h
          · exact ih e h
        next evs1 heq1 =>
          split at he
          next evs2 err heq2 =>
            dsimp only at he
            rcases List.mem_append.mp he with h | h
            · rcases List.mem_append.mp h with h2 | h2
              · exact rollbackDiscordStep_events world p.serverName _ evs1 none heq1 e h2
              · exact rollbackOcStep_events world hasOC p evs2 (some err) heq2 e h2
            · exact ih e h
          next evs2 heq2 =>
            split at he <;>
              (dsimp only at he
               rcases List.mem_append.mp he with h | h
               · rcases List.mem_append.mp h with h2 | h2
                 · exact rollbackDiscordStep_events world p.serverName _ evs1 none heq1 e h2
                 · exact rollbackOcStep_events world hasOC p evs2 none heq2 e h2
               · exact ih e h)

/-- C10: during a confirmed rollback with snapshotting enabled, if any
mutating call happens at all, the first one is the write of the
pre-rollback snapshot to the very path the rollback snapshot was loaded
from; every later event is a provider apply, and after the run the file at
that path holds the pre-rollback capture (config hash marked
pre-rollback-), so the snapshot that was being restored is no longer on
disk and a failed rollback cannot be retried from it. -/
theorem c10_pre_rollback_snapshot_overwrites (fs : FS) (json : Bool)
    (world : RollbackWorld) (snapOpts : Option SnapshotOptions) (serverFilter : Option String)
    (defaultSnapshotPath timestamp configHash : String)
    (c : Int) (fs2 : FS) (evs : List OrchEvent)
    (henabled : (match snapOpts with | some o => o.enabled | none => true) = true)
    (hrun : rollbackCommandModel fs true json world snapOpts serverFilter
        defaultSnapshotPath timestamp configHash = Except.ok (c, fs2, evs))
    (hne : evs ≠ []) :
    ∃ pre tail,
      evs = OrchEvent.snapshotSave (rollbackSnapshotPath snapOpts defaultSnapshotPath) pre
          :: tail ∧
      (∀ e ∈ tail, isProviderApplyEvent e = true) ∧
      loadSnapshot fs2 (rollbackSnapshotPath snapOpts defaultSnapshotPath) = some pre ∧
      pre.configHash = "pre-rollback-" ++ configHash := by
  unfold rollbackCommandModel at hrun
  dsimp only at hrun
  cases hload : loadSnapshot fs (rollbackSnapshotPath snapOpts defaultSnapshotPath) with
  | none =>
      rw [hload] at hrun
      dsimp only at hrun
      cases hrun
      exact absurd rfl hne
  | some snapshot =>
      rw [hload] at hrun
      dsimp only at hrun
      rcases hval : (match serverFilter with
          | some f =>
              match snapshot.servers.find?
                  (fun e : String × ServerSnapshotEntry => decide (e.1 = f)) with
              | none => none
              | some e => some [e]
          | none => some snapshot.servers) with _ | serverEntries
      · rw [hval] at hrun
        dsimp only at hrun
        cases hrun
        exact absurd rfl hne
      · rw [hval] at hrun
        dsimp only at hrun
        rcases hoc : (if world.ocAvailable = true then world.ocFetchOutcome
            else Except.ok ({ bindings := [] } : OpenClawState)) with e | currentOC
        · rw [hoc] at hrun
          dsimp only at hrun
          cases hrun
        · rw [hoc] at hrun
          dsimp only at hrun
          rcases hcomp : rollbackComputeLoop world currentOC snapshot.openclaw serverEntries
            with e | pc
          · rw [hcomp] at hrun
            dsimp only at hrun
            cases hrun
          · rcases pc with ⟨plans, currentStates⟩
            rw [hcomp] at hrun
            dsimp only at hrun
            rw [show (json && !true) = false from by simp] at hrun
            simp only [Bool.false_eq_true, if_false] at hrun
            cases hch : plans.any (fun p => p.actions.any (fun a => decide (a.type ≠ ActionType.noop))) with
            | false =>
                rw [hch] at hrun
                simp only [Bool.not_false, if_true] at hrun
                cases hrun
                exact absurd rfl hne
            | true =>
                rw [hch] at hrun
                simp only [Bool.not_true, Bool.false_eq_true, if_false] at hrun
                rw [henabled] at hrun
                simp only [if_true] at hrun
                cases hrun
                refine ⟨rollbackPreSnapshot timestamp configHash currentStates currentOC,
                  (rollbackApplyLoop world world.ocAvailable snapshot.servers plans).1,
                  rfl, ?_, ?_, rfl⟩
                · exact fun e he => rollbackApplyLoop_events_kind world world.ocAvailable
                    snapshot.servers plans e he
                · exact loadSnapshot_saveSnapshot fs _ _

theorem c10_witness :
    ∃ c fs2 evs,
      rollbackCommandModel c10FS true false c10World none none "snap.json" "t2" "h2" =
        Except.ok (c, fs2, evs) ∧
      ∃ pre tail,
        evs = OrchEvent.snapshotSave (rollbackSnapshotPath none "snap.json") pre :: tail ∧
        (∀ e ∈ tail, isProviderApplyEvent e = true) ∧
        loadSnapshot fs2 (rollbackSnapshotPath none "snap.json") = some pre ∧
        pre.configHash = "pre-rollback-" ++ "h2" := by
  refine ⟨_, _, _, rfl, ?_⟩
  exact c10_pre_rollback_snapshot_overwrites c10FS false c10World none none
    "snap.json" "t2" "h2" _ _ _ rfl rfl (by decide)

theorem c2_witness :
    ∃ report fs2,
      applyCommandModel [c2ServerA, c2ServerB] none true false false false none
          "p" "t" "h" exEmptyFS = Except.ok (report, fs2) ∧
      report.exitCode = 1 ∧
      report.errors.map Prod.fst = ["A"] ∧
      report.succeeded = ["B"] ∧
      report.events.map (fun e => match e with
        | OrchEvent.snapshotSave q _ => q
        | OrchEvent.discordApply n _ => n
        | OrchEvent.openclawApply n _ => n) = ["A", "B"] := by
  obtain ⟨fs2, happ, hall⟩ := c2_amended_isolation [c2ServerA, c2ServerB] none false false
    false none "p" "t" "h" exEmptyFS { bindings := [] }
    [(c2ServerA, exEmptyDiscord), (c2ServerB, exEmptyDiscord)] rfl rfl (by decide)
  exact ⟨_, fs2, happ, by decide, by decide, by decide, by decide⟩

theorem jsSortStrings_pairwise (l : List String) :
    List.Pairwise (fun a b => jsStrLe a b = true) (jsSortStrings l) :=
  sorted_insertionSortB jsStrLe jsStrLe_total (fun _ _ _ h1 h2 => jsStrLe_trans h1 h2) l

theorem jsSortByKey_pairwise (key : α → String) (l : List α) :
    List.Pairwise (fun a b => jsStrLe (key a) (key b) = true) (jsSortByKey key l) :=
  sorted_insertionSortB _ (fun a b => jsStrLe_total (key a) (key b))
    (fun _ _ _ h1 h2 => jsStrLe_trans h1 h2) l

theorem lcSortByKey_pairwise (lc : String → String → Bool)
    (hlcTot : ∀ a b, lc a b = true ∨ lc b a = true)
    (hlcTrans : ∀ a b c, lc a b = true → lc b c = true → lc a c = true)
    (key : α → String) (l : List α) :
    List.Pairwise (fun a b => lc (key a) (key b) = true) (lcSortByKey lc key l) :=
  sorted_insertionSortB _ (fun a b => hlcTot (key a) (key b))
    (fun _ _ _ h1 h2 => hlcTrans _ _ _ h1 h2) l

theorem reconcileFullW_jsStrLe (desired : DesiredState) (discord : DiscordState)
    (openclaw : OpenClawState) (options : ReconcileOptions) :
    reconcileFullW jsStrLe desired discord openclaw options =
      reconcileFull desired discord openclaw options := rfl

theorem categoryDesiredActions_names (fc : List String) (cats : List ActualCategory) :
    (categoryDesiredActions fc cats).map (fun a => a.name) = jsSortStrings fc := by
  unfold categoryDesiredActions
  rw [List.map_map]
  have h : ∀ x ∈ jsSortStrings fc,
      ((fun a => a.name) ∘ (fun catName =>
        match cats.find? (fun c => decide (c.name = catName)) with
        | none =>
            ({ type := .create, resourceType := .category, name := catName,
               details := some { after := some { name := some catName } } } : Action)
        | some _ => { type := .noop, resourceType := .category, name := catName })) x = x := by
    intro x hx
    cases h : cats.find? (fun c => decide (c.name = x)) <;> simp [h, Function.comp]
  rw [List.map_congr_left h]
  simp

theorem channelDesiredActionsW_names (lc : String → String → Bool)
    (fchans : List FlatDesiredChannel)
    (chans : List ActualChannel) (cats : List ActualCategory) :
    (channelDesiredActionsW lc fchans chans cats).map (fun a => a.name) =
      (lcSortByKey lc (fun c => c.name) fchans).map (fun c => c.name) := by
  unfold channelDesiredActionsW
  rw [List.map_map]
  apply List.map_congr_left
  intro x hx
  cases h : chans.find? (fun c => decide (c.name = x.name)) with
  | none => simp [h, Function.comp]
  | some existing =>
      simp only [Function.comp, h]
      split <;> rfl

theorem threadDesiredActionsW_names (lc : String → String → Bool)
    (ft : List FlatDesiredThread)
    (chans : List ActualChannel) (threads : List ActualThread) :
    (threadDesiredActionsW lc ft chans threads).map (fun a => a.name) =
      (lcSortByKey lc threadSortKey ft).map (fun t => t.name) := by
  unfold threadDesiredActionsW
  rw [List.map_map]
  apply List.map_congr_left
  intro x hx
  dsimp only [Function.comp]
  split <;> rfl

theorem categoryUnmanagedActions_names_pairwise (le : String → String → Bool) (prune : Bool) (dn : List String)
    (cats : List ActualCategory)
    (h : List.Pairwise (fun a b => le a.name b.name = true) cats) :
    List.Pairwise (fun a b => le a b = true)
      ((categoryUnmanagedActions prune dn cats).map (fun a => a.name)) := by
  rw [List.pairwise_map]
  unfold categoryUnmanagedActions
  rw [List.pairwise_filterMap]
  refine h.imp ?_
  intro a b hab x hx y hy
  have hxa : x.name = a.name := by
    simp only [Option.mem_def] at hx
    by_cases h1 : dn.contains a.name = true
    · rw [if_pos h1] at hx
      exact Option.noConfusion hx
    · rw [if_neg h1] at hx
      by_cases h2 : prune = true
      · rw [if_pos h2] at hx
        injection hx with hx
        rw [← hx]
      · rw [if_neg h2] at hx
        exact Option.noConfusion hx
  have hyb : y.name = b.name := by
    simp only [Option.mem_def] at hy
    by_cases h1 : dn.contains b.name = true
    · rw [if_pos h1] at hy
      exact Option.noConfusion hy
    · rw [if_neg h1] at hy
      by_cases h2 : prune = true
      · rw [if_pos h2] at hy
        injection hy with hy
        rw [← hy]
      · rw [if_neg h2] at hy
        exact Option.noConfusion hy
  rw [hxa, hyb]
  exact hab

theorem channelUnmanagedActions_names_pairwise (le : String → String → Bool) (prune : Bool) (dn : List String)
    (chans : List ActualChannel)
    (h : List.Pairwise (fun a b => le a.name b.name = true) chans) :
    List.Pairwise (fun a b => le a b = true)
      ((channelUnmanagedActions prune dn chans).map (fun a => a.name)) := by
  rw [List.pairwise_map]
  unfold channelUnmanagedActions
  rw [List.pairwise_filterMap]
  refine h.imp ?_
  intro a b hab x hx y hy
  have hxa : x.name = a.name := by
    simp only [Option.mem_def] at hx
    by_cases h1 : dn.contains a.name = true
    · rw [if_pos h1] at hx
      exact Option.noConfusion hx
    · rw [if_neg h1] at hx
      by_cases h2 : prune = true
      · rw [if_pos h2] at hx
        injection hx with hx
        rw [← hx]
      · rw [if_neg h2] at hx
        exact Option.noConfusion hx
  have hyb : y.name = b.name := by
    simp only [Option.mem_def] at hy
    by_cases h1 : dn.contains b.name = true
    · rw [if_pos h1] at hy
      exact Option.noConfusion hy
    · rw [if_neg h1] at hy
      by_cases h2 : prune = true
      · rw [if_pos h2] at hy
        injection hy with hy
        rw [← hy]
      · rw [if_neg h2] at hy
        exact Option.noConfusion hy
  rw [hxa, hyb]
  exact hab

theorem threadUnmanagedActions_names_pairwise (le : String → String → Bool) (prune : Bool) (dk : List String)
    (chans : List ActualChannel) (threads : List ActualThread)
    (h : List.Pairwise (fun a b => le a.name b.name = true) threads) :
    List.Pairwise (fun a b => le a b = true)
      ((threadUnmanagedActions prune dk chans threads).map (fun a => a.name)) := by
  rw [List.pairwise_map]
  unfold threadUnmanagedActions
  rw [List.pairwise_filterMap]
  refine h.imp ?_
  intro a b hab x hx y hy
  have hxa : x.name = a.name := by
    simp only [Option.mem_def] at hx
    by_cases h1 : dk.contains (actualThreadKey chans a) = true
    · rw [if_pos h1] at hx
      exact Option.noConfusion hx
    · rw [if_neg h1] at hx
      by_cases h2 : prune = true
      · rw [if_pos h2] at hx
        injection hx with hx
        rw [← hx]
      · rw [if_neg h2] at hx
        exact Option.noConfusion hx
  have hyb : y.name = b.name := by
    simp only [Option.mem_def] at hy
    by_cases h1 : dk.contains (actualThreadKey chans b) = true
    · rw [if_pos h1] at hy
      exact Option.noConfusion hy
    · rw [if_neg h1] at hy
      by_cases h2 : prune = true
      · rw [if_pos h2] at hy
        injection hy with hy
        rw [← hy]
      · rw [if_neg h2] at hy
        exact Option.noConfusion hy
  rw [hxa, hyb]
  exact hab

/-- C6 amended: the action list is emitted in fixed stage order — desired
categories, unmanaged categories, desired channels, unmanaged channels,
desired threads, unmanaged threads, desired bindings, stale bindings —
and each stage is internally sorted by the comparator that stage uses in
the source: the desired-category stage by the default string sort
(UTF-16 code-unit order, modelled by jsStrLe), and the seven
localeCompare-based stages by the runtime locale's collation, stated here
for an arbitrary total transitive comparator lc of which the concrete
embedding is the code-point instance (first conjunct); categories and
channels are keyed by name, desired threads by their parent:name key,
unmanaged threads by thread name, desired bindings by agent name, stale
binding deletes by agent id.  reconcile is a pure function of its inputs
and the comparator, so two calls on identical inputs return the
identical list, and the spec's Beta/Alpha example — a default-sorted
stage — yields create Alpha then create Beta. -/
theorem c6_amended_ordering (lc : String → String → Bool)
    (hlcTot : ∀ a b, lc a b = true ∨ lc b a = true)
    (hlcTrans : ∀ a b c, lc a b = true → lc b c = true → lc a c = true)
    (desired : DesiredState) (discord : DiscordState)
    (openclaw : OpenClawState) (options : ReconcileOptions) :
    (reconcileFullW jsStrLe desired discord openclaw options =
      reconcileFull desired discord openclaw options) ∧
    ((reconcileFullW lc desired discord openclaw options).1.actions =
      categoryDesiredActions (flattenDesiredState desired).categories discord.categories ++
      categoryUnmanagedActions (options.prune.getD false) (flattenDesiredState desired).categories (lcSortByKey lc (fun c => c.name) discord.categories) ++
      channelDesiredActionsW lc (flattenDesiredState desired).channels discord.channels (lcSortByKey lc (fun c => c.name) discord.categories) ++
      channelUnmanagedActions (options.prune.getD false)
        ((flattenDesiredState desired).channels.map (fun c => c.name)) (lcSortByKey lc (fun c => c.name) discord.channels) ++
      threadDesiredActionsW lc (flattenDesiredState desired).threads (lcSortByKey lc (fun c => c.name) discord.channels) discord.threads ++
      threadUnmanagedActions (options.prune.getD false)
        ((flattenDesiredState desired).threads.map threadSortKey) (lcSortByKey lc (fun c => c.name) discord.channels) (lcSortByKey lc (fun t => t.name) discord.threads) ++
      bindingDesiredActionsW lc (flattenDesiredState desired).bindings (lcSortByKey lc (fun c => c.name) discord.channels) openclaw ++
      staleBindingActionsW lc (flattenDesiredState desired).bindings (lcSortByKey lc (fun c => c.name) discord.channels) openclaw) ∧
    List.Pairwise (fun a b => jsStrLe a b = true)
      ((categoryDesiredActions (flattenDesiredState desired).categories discord.categories).map (fun a => a.name)) ∧
    List.Pairwise (fun a b => lc a b = true)
      ((categoryUnmanagedActions (options.prune.getD false) (flattenDesiredState desired).categories (lcSortByKey lc (fun c => c.name) discord.categories)).map (fun a => a.name)) ∧
    List.Pairwise (fun a b => lc a b = true)
      ((channelDesiredActionsW lc (flattenDesiredState desired).channels discord.channels (lcSortByKey lc (fun c => c.name) discord.categories)).map
        (fun a => a.name)) ∧
    List.Pairwise (fun a b => lc a b = true)
      ((channelUnmanagedActions (options.prune.getD false)
        ((flattenDesiredState desired).channels.map (fun c => c.name)) (lcSortByKey lc (fun c => c.name) discord.channels)).map (fun a => a.name)) ∧
    ((threadDesiredActionsW lc (flattenDesiredState desired).threads (lcSortByKey lc (fun c => c.name) discord.channels) discord.threads).map
        (fun a => a.name) =
      (lcSortByKey lc threadSortKey (flattenDesiredState desired).threads).map (fun t => t.name)) ∧
    List.Pairwise (fun a b => lc a b = true)
      ((lcSortByKey lc threadSortKey (flattenDesiredState desired).threads).map threadSortKey) ∧
    List.Pairwise (fun a b => lc a b = true)
      ((threadUnmanagedActions (options.prune.getD false)
        ((flattenDesiredState desired).threads.map threadSortKey) (lcSortByKey lc (fun c => c.name) discord.channels) (lcSortByKey lc (fun t => t.name) discord.threads)).map (fun a => a.name)) ∧
    List.Pairwise (fun a b => lc a b = true)
      ((lcSortByKey lc (fun b => b.agentName) (flattenDesiredState desired).bindings).map
        (fun b => b.agentName)) ∧
    List.Pairwise (fun a b => lc a b = true)
      ((lcSortByKey lc (fun b => b.agentId)
        (openclaw.bindings.filter (fun b => decide (b.match_.channel = "discord")))).map
        (fun b => b.agentId)) ∧
    (reconcile c6BetaAlphaDesired exEmptyDiscord exEmptyOpenClaw {}).actions =
      [ { type := .create, resourceType := .category, name := "Alpha",
          details := some { after := some { name := some "Alpha" } } },
        { type := .create, resourceType := .category, name := "Beta",
          details := some { after := some { name := some "Beta" } } } ] := by
  refine ⟨rfl, rfl, ?_, ?_, ?_, ?_, ?_, ?_, ?_, ?_, ?_, by decide⟩
  · rw [categoryDesiredActions_names]
    exact jsSortStrings_pairwise _
  · exact categoryUnmanagedActions_names_pairwise lc _ _ _
      (lcSortByKey_pairwise lc hlcTot hlcTrans _ _)
  · rw [channelDesiredActionsW_names]
    exact List.pairwise_map.mpr (lcSortByKey_pairwise lc hlcTot hlcTrans _ _)
  · exact channelUnmanagedActions_names_pairwise lc _ _ _
      (lcSortByKey_pairwise lc hlcTot hlcTrans _ _)
  · exact threadDesiredActionsW_names lc _ _ _
  · exact List.pairwise_map.mpr (lcSortByKey_pairwise lc hlcTot hlcTrans _ _)
  · exact threadUnmanagedActions_names_pairwise lc _ _ _ _
      (lcSortByKey_pairwise lc hlcTot hlcTrans _ _)
  · exact List.pairwise_map.mpr (lcSortByKey_pairwise lc hlcTot hlcTrans _ _)
  · exact List.pairwise_map.mpr (lcSortByKey_pairwise lc hlcTot hlcTrans _ _)

/-- Witness for C6 (amended): the comparator hypotheses hold of the
code-point comparator (totality and transitivity of jsStrLe), and the
theorem applies at it on the concrete Zulu/Beta workspace. -/
theorem c6_amended_witness :
    ((∀ a b, jsStrLe a b = true ∨ jsStrLe b a = true) ∧
     (∀ a b c, jsStrLe a b = true → jsStrLe b c = true → jsStrLe a c = true)) ∧
    ((reconcileFullW jsStrLe c6Desired c6Discord exEmptyOpenClaw ({ prune := some true } : ReconcileOptions) =
      reconcileFull c6Desired c6Discord exEmptyOpenClaw ({ prune := some true } : ReconcileOptions)) ∧
    ((reconcileFullW jsStrLe c6Desired c6Discord exEmptyOpenClaw ({ prune := some true } : ReconcileOptions)).1.actions =
      categoryDesiredActions (flattenDesiredState c6Desired).categories c6Discord.categories ++
      categoryUnmanagedActions (({ prune := some true } : ReconcileOptions).prune.getD false) (flattenDesiredState c6Desired).categories (lcSortByKey jsStrLe (fun c => c.name) c6Discord.categories) ++
      channelDesiredActionsW jsStrLe (flattenDesiredState c6Desired).channels c6Discord.channels (lcSortByKey jsStrLe (fun c => c.name) c6Discord.categories) ++
      channelUnmanagedActions (({ prune := some true } : ReconcileOptions).prune.getD false)
        ((flattenDesiredState c6Desired).channels.map (fun c => c.name)) (lcSortByKey jsStrLe (fun c => c.name) c6Discord.channels) ++
      threadDesiredActionsW jsStrLe (flattenDesiredState c6Desired).threads (lcSortByKey jsStrLe (fun c => c.name) c6Discord.channels) c6Discord.threads ++
      threadUnmanagedActions (({ prune := some true } : ReconcileOptions).prune.getD false)
        ((flattenDesiredState c6Desired).threads.map threadSortKey) (lcSortByKey jsStrLe (fun c => c.name) c6Discord.channels) (lcSortByKey jsStrLe (fun t => t.name) c6Discord.threads) ++
      bindingDesiredActionsW jsStrLe (flattenDesiredState c6Desired).bindings (lcSortByKey jsStrLe (fun c => c.name) c6Discord.channels) exEmptyOpenClaw ++
      staleBindingActionsW jsStrLe (flattenDesiredState c6Desired).bindings (lcSortByKey jsStrLe (fun c => c.name) c6Discord.channels) exEmptyOpenClaw) ∧
    List.Pairwise (fun a b => jsStrLe a b = true)
      ((categoryDesiredActions (flattenDesiredState c6Desired).categories c6Discord.categories).map (fun a => a.name)) ∧
    List.Pairwise (fun a b => jsStrLe a b = true)
      ((categoryUnmanagedActions (({ prune := some true } : ReconcileOptions).prune.getD false) (flattenDesiredState c6Desired).categories (lcSortByKey jsStrLe (fun c => c.name) c6Discord.categories)).map (fun a => a.name)) ∧
    List.Pairwise (fun a b => jsStrLe a b = true)
      ((channelDesiredActionsW jsStrLe (flattenDesiredState c6Desired).channels c6Discord.channels (lcSortByKey jsStrLe (fun c => c.name) c6Discord.categories)).map
        (fun a => a.name)) ∧
    List.Pairwise (fun a b => jsStrLe a b = true)
      ((channelUnmanagedActions (({ prune := some true } : ReconcileOptions).prune.getD false)
        ((flattenDesiredState c6Desired).channels.map (fun c => c.name)) (lcSortByKey jsStrLe (fun c => c.name) c6Discord.channels)).map (fun a => a.name)) ∧
    ((threadDesiredActionsW jsStrLe (flattenDesiredState c6Desired).threads (lcSortByKey jsStrLe (fun c => c.name) c6Discord.channels) c6Discord.threads).map
        (fun a => a.name) =
      (lcSortByKey jsStrLe threadSortKey (flattenDesiredState c6Desired).threads).map (fun t => t.name)) ∧
    List.Pairwise (fun a b => jsStrLe a b = true)
      ((lcSortByKey jsStrLe threadSortKey (flattenDesiredState c6Desired).threads).map threadSortKey) ∧
    List.Pairwise (fun a b => jsStrLe a b = true)
      ((threadUnmanagedActions (({ prune := some true } : ReconcileOptions).prune.getD false)
        ((flattenDesiredState c6Desired).threads.map threadSortKey) (lcSortByKey jsStrLe (fun c => c.name) c6Discord.channels) (lcSortByKey jsStrLe (fun t => t.name) c6Discord.threads)).map (fun a => a.name)) ∧
    List.Pairwise (fun a b => jsStrLe a b = true)
      ((lcSortByKey jsStrLe (fun b => b.agentName) (flattenDesiredState c6Desired).bindings).map
        (fun b => b.agentName)) ∧
    List.Pairwise (fun a b => jsStrLe a b = true)
      ((lcSortByKey jsStrLe (fun b => b.agentId)
        (exEmptyOpenClaw.bindings.filter (fun b => decide (b.match_.channel = "discord")))).map
        (fun b => b.agentId)) ∧
    (reconcile c6BetaAlphaDesired exEmptyDiscord exEmptyOpenClaw {}).actions =
      [ { type := .create, resourceType := .category, name := "Alpha",
          details := some { after := some { name := some "Alpha" } } },
        { type := .create, resourceType := .category, name := "Beta",
          details := some { after := some { name := some "Beta" } } } ]) :=
  ⟨⟨jsStrLe_total, fun _ _ _ h1 h2 => jsStrLe_trans h1 h2⟩,
   c6_amended_ordering jsStrLe jsStrLe_total (fun _ _ _ h1 h2 => jsStrLe_trans h1 h2)
     c6Desired c6Discord exEmptyOpenClaw ({ prune := some true } : ReconcileOptions)⟩

theorem countP_key_eq_one {α : Type _} {κ : Type _} [DecidableEq κ] (key : α → κ)
    (l : List α) (a : α) (hmem : a ∈ l) (hnd : (l.map key).Nodup) :
    l.countP (fun x => decide (key x = key a)) = 1 := by
  induction l with
  | nil => cases hmem
  | cons h t ih =>
      rw [List.map_cons, List.nodup_cons] at hnd
      rcases List.mem_cons.mp hmem with rfl | hmem2
      · rw [List.countP_cons_of_pos _ _ (by simp)]
        have hz : t.countP (fun x => decide (key x = key a)) = 0 :=
          List.countP_eq_zero.mpr (fun x hx hpx =>
            hnd.1 ((of_decide_eq_true hpx) ▸ List.mem_map.mpr ⟨x, hx, rfl⟩))
        rw [hz]
      · rw [List.countP_cons_of_neg _ _ ?_]
        · exact ih hmem2 hnd.2
        · intro hph
          have hk : key h = key a := of_decide_eq_true hph
          exact hnd.1 (hk ▸ List.mem_map.mpr ⟨a, hmem2, rfl⟩)

theorem countP_eq_one_unique {α : Type _} {κ : Type _} [DecidableEq κ] (key : α → κ)
    (l : List α) (a : α) (hmem : a ∈ l) (hnd : (l.map key).Nodup) (p : α → Bool)
    (hpa : p a = true) (himp : ∀ x ∈ l, p x = true → key x = key a) :
    l.countP p = 1 := by
  have hle : l.countP p ≤ l.countP (fun x => decide (key x = key a)) :=
    List.countP_mono_left (fun x hx hpx => decide_eq_true (himp x hx hpx))
  have hkey := countP_key_eq_one key l a hmem hnd
  have hpos : 0 < l.countP p := List.countP_pos_iff.mpr ⟨a, hmem, hpa⟩
  omega

theorem jsSortByKey_perm (key : α → String) (l : List α) :
    List.Perm (jsSortByKey key l) l := insertionSortB_perm _ l

theorem categoryDesiredActions_mem (fc : List String) (cats : List ActualCategory) :
    ∀ a ∈ categoryDesiredActions fc cats,
      a.resourceType = ResourceType.category ∧ a.type ≠ ActionType.delete := by
  intro a ha
  rcases List.mem_map.mp ha with ⟨x, hx, rfl⟩
  cases h : cats.find? (fun c => decide (c.name = x)) <;> simp [h]

theorem channelDesiredActions_mem (fchans : List FlatDesiredChannel)
    (chans : List ActualChannel) (cats : List ActualCategory) :
    ∀ a ∈ channelDesiredActions fchans chans cats,
      a.resourceType = ResourceType.channel ∧ a.type ≠ ActionType.delete := by
  intro a ha
  rcases List.mem_map.mp ha with ⟨x, hx, rfl⟩
  cases h : chans.find? (fun c => decide (c.name = x.name)) with
  | none => simp [h]
  | some existing =>
      simp only [h]
      split <;> simp

theorem threadDesiredActions_mem (ft : List FlatDesiredThread)
    (chans : List ActualChannel) (threads : List ActualThread) :
    ∀ a ∈ threadDesiredActions ft chans threads,
      a.resourceType = ResourceType.thread ∧ a.type ≠ ActionType.delete := by
  intro a ha
  rcases List.mem_map.mp ha with ⟨x, hx, rfl⟩
  dsimp only
  split <;> simp

theorem bindingDesiredActions_mem (fb : List FlatDesiredBinding)
    (chans : List ActualChannel) (openclaw : OpenClawState) :
    ∀ a ∈ bindingDesiredActions fb chans openclaw,
      a.resourceType = ResourceType.binding := by
  intro a ha
  rcases List.mem_map.mp ha with ⟨x, hx, rfl⟩
  dsimp only
  split <;> simp

theorem staleBindingActions_mem (fb : List FlatDesiredBinding)
    (chans : List ActualChannel) (openclaw : OpenClawState) :
    ∀ a ∈ staleBindingActions fb chans openclaw,
      a.resourceType = ResourceType.binding := by
  intro a ha
  rcases List.mem_filterMap.mp ha with ⟨x, hx, hfx⟩
  dsimp only at hfx
  by_cases h1 : (desiredBindingKeys fb chans).contains (x.agentId ++ ":" ++ x.match_.peer.id) = true
  · rw [if_pos h1] at hfx
    cases hfx
  · rw [if_neg h1] at hfx
    injection hfx with hfx
    rw [← hfx]

theorem channelUnmanagedActions_mem (prune : Bool) (dn : List String)
    (chans : List ActualChannel) :
    ∀ a ∈ channelUnmanagedActions prune dn chans,
      a.resourceType = ResourceType.channel ∧ a.type = ActionType.delete := by
  intro a ha
  rcases List.mem_filterMap.mp ha with ⟨x, hx, hfx⟩
  by_cases h1 : dn.contains x.name = true
  · rw [if_pos h1] at hfx
    cases hfx
  · rw [if_neg h1] at hfx
    by_cases h2 : prune = true
    · rw [if_pos h2] at hfx
      injection hfx with hfx
      rw [← hfx]
      exact ⟨rfl, rfl⟩
    · rw [if_neg h2] at hfx
      cases hfx

theorem countP_eq_zero_of_all {α : Type _} {l : List α} {p : α → Bool}
    (h : ∀ a ∈ l, p a = false) : l.countP p = 0 :=
  List.countP_eq_zero.mpr (fun a ha => by rw [h a ha]; simp)

theorem categoryUnmanagedList_mem (prune : Bool) (dn : List String)
    (cats : List ActualCategory) :
    ∀ u ∈ categoryUnmanagedList prune dn cats, u.resourceType = ResourceType.category := by
  intro u hu
  rcases List.mem_filterMap.mp hu with ⟨x, hx, hfx⟩
  by_cases h1 : dn.contains x.name = true
  · rw [if_pos h1] at hfx
    cases hfx
  · rw [if_neg h1] at hfx
    by_cases h2 : prune = true
    · rw [if_pos h2] at hfx
      cases hfx
    · rw [if_neg h2] at hfx
      injection hfx with hfx
      rw [← hfx]

theorem channelUnmanagedList_mem (prune : Bool) (dn : List String)
    (chans : List ActualChannel) :
    ∀ u ∈ channelUnmanagedList prune dn chans, u.resourceType = ResourceType.channel := by
  intro u hu
  rcases List.mem_filterMap.mp hu with ⟨x, hx, hfx⟩
  by_cases h1 : dn.contains x.name = true
  · rw [if_pos h1] at hfx
    cases hfx
  · rw [if_neg h1] at hfx
    by_cases h2 : prune = true
    · rw [if_pos h2] at hfx
      cases hfx
    · rw [if_neg h2] at hfx
      injection hfx with hfx
      rw [← hfx]

theorem threadUnmanagedList_mem (prune : Bool) (dk : List String)
    (chans : List ActualChannel) (threads : List ActualThread) :
    ∀ u ∈ threadUnmanagedList prune dk chans threads,
      u.resourceType = ResourceType.thread := by
  intro u hu
  rcases List.mem_filterMap.mp hu with ⟨x, hx, hfx⟩
  by_cases h1 : dk.contains (actualThreadKey chans x) = true
  · rw [if_pos h1] at hfx
    cases hfx
  · rw [if_neg h1] at hfx
    by_cases h2 : prune = true
    · rw [if_pos h2] at hfx
      cases hfx
    · rw [if_neg h2] at hfx
      injection hfx with hfx
      rw [← hfx]

theorem categoryUnmanagedActions_mem (prune : Bool) (dn : List String)
    (cats : List ActualCategory) :
    ∀ a ∈ categoryUnmanagedActions prune dn cats,
      a.resourceType = ResourceType.category ∧ a.type = ActionType.delete := by
  intro a ha
  rcases List.mem_filterMap.mp ha with ⟨x, hx, hfx⟩
  by_cases h1 : dn.contains x.name = true
  · rw [if_pos h1] at hfx
    cases hfx
  · rw [if_neg h1] at hfx
    by_cases h2 : prune = true
    · rw [if_pos h2] at hfx
      injection hfx with hfx
      rw [← hfx]
      exact ⟨rfl, rfl⟩
    · rw [if_neg h2] at hfx
      cases hfx

theorem threadUnmanagedActions_mem (prune : Bool) (dk : List String)
    (chans : List ActualChannel) (threads : List ActualThread) :
    ∀ a ∈ threadUnmanagedActions prune dk chans threads,
      a.resourceType = ResourceType.thread ∧ a.type = ActionType.delete := by
  intro a ha
  rcases List.mem_filterMap.mp ha with ⟨x, hx, hfx⟩
  by_cases h1 : dk.contains (actualThreadKey chans x) = true
  · rw [if_pos h1] at hfx
    cases hfx
  · rw [if_neg h1] at hfx
    by_cases h2 : prune = true
    · rw [if_pos h2] at hfx
      injection hfx with hfx
      rw [← hfx]
      exact ⟨rfl, rfl⟩
    · rw [if_neg h2] at hfx
      cases hfx

theorem categoryUnmanagedList_countP_one (dn : List String) (cats : List ActualCategory)
    (cat : ActualCategory) (hmem : cat ∈ cats) (hnd : (cats.map (fun c => c.id)).Nodup)
    (hnot : dn.contains cat.name = false) :
    (categoryUnmanagedList false dn (jsSortByKey (fun c => c.name) cats)).countP
      (fun u => decide (u = { resourceType := ResourceType.category,
                              name := cat.name, id := cat.id })) = 1 := by
  unfold categoryUnmanagedList
  rw [List.countP_filterMap]
  rw [(jsSortByKey_perm (fun c => c.name) cats).countP_eq]
  refine countP_eq_one_unique (fun c => c.id) cats cat hmem hnd _ ?_ ?_
  · have hnot2 : cat.name ∉ dn := by simpa using hnot
    simp [hnot2]
  · intro x hx hpx
    by_cases h1 : x.name ∈ dn
    · simp [h1] at hpx
    · simp [h1] at hpx
      exact hpx.2

theorem categoryUnmanagedActions_countP_one (dn : List String) (cats : List ActualCategory)
    (cat : ActualCategory) (hmem : cat ∈ cats) (hnd : (cats.map (fun c => c.id)).Nodup)
    (hnot : dn.contains cat.name = false) :
    (categoryUnmanagedActions true dn (jsSortByKey (fun c => c.name) cats)).countP
      (fun a => decide (a = { type := ActionType.delete,
                              resourceType := ResourceType.category, name := cat.name,
                              details := some { before := some { id := some cat.id } } })) = 1 := by
  unfold categoryUnmanagedActions
  rw [List.countP_filterMap]
  rw [(jsSortByKey_perm (fun c => c.name) cats).countP_eq]
  refine countP_eq_one_unique (fun c => c.id) cats cat hmem hnd _ ?_ ?_
  · have hnot2 : cat.name ∉ dn := by simpa using hnot
    simp [hnot2]
  · intro x hx hpx
    by_cases h1 : x.name ∈ dn
    · simp [h1] at hpx
    · simp [h1] at hpx
      exact hpx.2

theorem channelUnmanagedList_countP_one (dn : List String) (chans : List ActualChannel)
    (ch : ActualChannel) (hmem : ch ∈ chans) (hnd : (chans.map (fun c => c.id)).Nodup)
    (hnot : dn.contains ch.name = false) :
    (channelUnmanagedList false dn (jsSortByKey (fun c => c.name) chans)).countP
      (fun u => decide (u = { resourceType := ResourceType.channel,
                              name := ch.name, id := ch.id, topic := ch.topic })) = 1 := by
  unfold channelUnmanagedList
  rw [List.countP_filterMap]
  rw [(jsSortByKey_perm (fun c => c.name) chans).countP_eq]
  refine countP_eq_one_unique (fun c => c.id) chans ch hmem hnd _ ?_ ?_
  · have hnot2 : ch.name ∉ dn := by simpa using hnot
    simp [hnot2]
  · intro x hx hpx
    by_cases h1 : x.name ∈ dn
    · simp [h1] at hpx
    · simp [h1] at hpx
      exact hpx.2.1

theorem channelUnmanagedActions_countP_one (dn : List String) (chans : List ActualChannel)
    (ch : ActualChannel) (hmem : ch ∈ chans) (hnd : (chans.map (fun c => c.id)).Nodup)
    (hnot : dn.contains ch.name = false) :
    (channelUnmanagedActions true dn (jsSortByKey (fun c => c.name) chans)).countP
      (fun a => decide (a = { type := ActionType.delete,
                              resourceType := ResourceType.channel, name := ch.name,
                              details := some { before := some { id := some ch.id, topic := some ch.topic } } })) = 1 := by
  unfold channelUnmanagedActions
  rw [List.countP_filterMap]
  rw [(jsSortByKey_perm (fun c => c.name) chans).countP_eq]
  refine countP_eq_one_unique (fun c => c.id) chans ch hmem hnd _ ?_ ?_
  · have hnot2 : ch.name ∉ dn := by simpa using hnot
    simp [hnot2]
  · intro x hx hpx
    by_cases h1 : x.name ∈ dn
    · simp [h1] at hpx
    · simp [h1] at hpx
      exact hpx.2.1

theorem threadUnmanagedList_countP_one (dk : List String) (chansSorted : List ActualChannel)
    (threads : List ActualThread) (th : ActualThread) (hmem : th ∈ threads)
    (hnd : (threads.map (fun t => t.id)).Nodup)
    (hnot : dk.contains (actualThreadKey chansSorted th) = false) :
    (threadUnmanagedList false dk chansSorted
        (jsSortByKey (fun t => t.name) threads)).countP
      (fun u => decide (u = { resourceType := ResourceType.thread,
                              name := th.name, id := th.id })) = 1 := by
  unfold threadUnmanagedList
  rw [List.countP_filterMap]
  rw [(jsSortByKey_perm (fun t => t.name) threads).countP_eq]
  refine countP_eq_one_unique (fun t => t.id) threads th hmem hnd _ ?_ ?_
  · have hnot2 : actualThreadKey chansSorted th ∉ dk := by simpa using hnot
    simp [hnot2]
  · intro x hx hpx
    by_cases h1 : actualThreadKey chansSorted x ∈ dk
    · simp [h1] at hpx
    · simp [h1] at hpx
      exact hpx.2

theorem threadUnmanagedActions_countP_one (dk : List String) (chansSorted : List ActualChannel)
    (threads : List ActualThread) (th : ActualThread) (hmem : th ∈ threads)
    (hnd : (threads.map (fun t => t.id)).Nodup)
    (hnot : dk.contains (actualThreadKey chansSorted th) = false) :
    (threadUnmanagedActions true dk chansSorted
        (jsSortByKey (fun t => t.name) threads)).countP
      (fun a => decide (a = { type := ActionType.delete,
                              resourceType := ResourceType.thread, name := th.name,
                              details := some { before := some { id := some th.id, parentChannelId := some th.parentChannelId } } })) = 1 := by
  unfold threadUnmanagedActions
  rw [List.countP_filterMap]
  rw [(jsSortByKey_perm (fun t => t.name) threads).countP_eq]
  refine countP_eq_one_unique (fun t => t.id) threads th hmem hnd _ ?_ ?_
  · have hnot2 : actualThreadKey chansSorted th ∉ dk := by simpa using hnot
    simp [hnot2]
  · intro x hx hpx
    by_cases h1 : actualThreadKey chansSorted x ∈ dk
    · simp [h1] at hpx
    · simp [h1] at hpx
      exact hpx.2.1

theorem countP_zero_of_rt (l : List Action) (rt : ResourceType)
    (hall : ∀ a ∈ l, a.resourceType = rt) (p : Action → Bool)
    (hp : ∀ a, a.resourceType = rt → p a = false) : l.countP p = 0 :=
  countP_eq_zero_of_all (fun a ha => hp a (hall a ha))


theorem categoryUnmanagedActions_false_nil (dn : List String) (l : List ActualCategory) :
    categoryUnmanagedActions false dn l = [] := by
  unfold categoryUnmanagedActions
  refine List.filterMap_eq_nil_iff.mpr (fun a ha => ?_)
  by_cases h : dn.contains a.name = true <;> simp [h]

theorem channelUnmanagedActions_false_nil (dn : List String) (l : List ActualChannel) :
    channelUnmanagedActions false dn l = [] := by
  unfold channelUnmanagedActions
  refine List.filterMap_eq_nil_iff.mpr (fun a ha => ?_)
  by_cases h : dn.contains a.name = true <;> simp [h]

theorem threadUnmanagedActions_false_nil (dk : List String) (chans : List ActualChannel)
    (l : List ActualThread) :
    threadUnmanagedActions false dk chans l = [] := by
  unfold threadUnmanagedActions
  refine List.filterMap_eq_nil_iff.mpr (fun a ha => ?_)
  by_cases h : dk.contains (actualThreadKey chans a) = true <;> simp [h]

theorem categoryUnmanagedList_true_nil (dn : List String) (l : List ActualCategory) :
    categoryUnmanagedList true dn l = [] := by
  unfold categoryUnmanagedList
  refine List.filterMap_eq_nil_iff.mpr (fun a ha => ?_)
  by_cases h : dn.contains a.name = true <;> simp [h]

theorem channelUnmanagedList_true_nil (dn : List String) (l : List ActualChannel) :
    channelUnmanagedList true dn l = [] := by
  unfold channelUnmanagedList
  refine List.filterMap_eq_nil_iff.mpr (fun a ha => ?_)
  by_cases h : dn.contains a.name = true <;> simp [h]

theorem threadUnmanagedList_true_nil (dk : List String) (chans : List ActualChannel)
    (l : List ActualThread) :
    threadUnmanagedList true dk chans l = [] := by
  unfold threadUnmanagedList
  refine List.filterMap_eq_nil_iff.mpr (fun a ha => ?_)
  by_cases h : dk.contains (actualThreadKey chans a) = true <;> simp [h]

theorem c7cat (desired : DesiredState) (discord : DiscordState) (openclaw : OpenClawState)
    (cat : ActualCategory) (hmem : cat ∈ discord.categories)
    (hnot : (flattenDesiredState desired).categories.contains cat.name = false)
    (hnd : (discord.categories.map (fun c => c.id)).Nodup) :
    (reconcile desired discord openclaw { prune := some false }).unmanaged.countP
        (fun u => decide (u = { resourceType := ResourceType.category,
                                name := cat.name, id := cat.id })) = 1 ∧
    (reconcile desired discord openclaw { prune := some false }).actions.countP
        (fun a => decide (a.type = ActionType.delete) &&
          decide (a.resourceType = ResourceType.category) &&
          decide (a.name = cat.name)) = 0 ∧
    (reconcile desired discord openclaw { prune := some true }).actions.countP
        (fun a => decide (a = { type := ActionType.delete,
                                resourceType := ResourceType.category, name := cat.name,
                                details := some { before := some { id := some cat.id } } })) = 1 ∧
    (reconcile desired discord openclaw { prune := some true }).unmanaged.countP
        (fun u => decide (u.resourceType = ResourceType.category) &&
          decide (u.name = cat.name)) = 0 := by
  have hrt_ne : (ResourceType.category = ResourceType.channel) = False := by simp
  refine ⟨?_, ?_, ?_, ?_⟩
  · show (categoryUnmanagedList false (flattenDesiredState desired).categories
        (jsSortByKey (fun c => c.name) discord.categories) ++
      channelUnmanagedList false ((flattenDesiredState desired).channels.map (fun c => c.name))
        (jsSortByKey (fun c => c.name) discord.channels) ++
      threadUnmanagedList false ((flattenDesiredState desired).threads.map threadSortKey)
        (jsSortByKey (fun c => c.name) discord.channels)
        (jsSortByKey (fun t => t.name) discord.threads)).countP _ = 1
    simp only [List.countP_append]
    have h1 := categoryUnmanagedList_countP_one (flattenDesiredState desired).categories
      discord.categories cat hmem hnd hnot
    have h2 : (channelUnmanagedList false
        ((flattenDesiredState desired).channels.map (fun c => c.name))
        (jsSortByKey (fun c => c.name) discord.channels)).countP
        (fun u => decide (u = { resourceType := ResourceType.category,
                                name := cat.name, id := cat.id })) = 0 :=
      countP_eq_zero_of_all (fun u hu => decide_eq_false (fun heq => by
        have hrt := channelUnmanagedList_mem _ _ _ u hu
        rw [heq] at hrt
        simp at hrt))
    have h3 : (threadUnmanagedList false
        ((flattenDesiredState desired).threads.map threadSortKey)
        (jsSortByKey (fun c => c.name) discord.channels)
        (jsSortByKey (fun t => t.name) discord.threads)).countP
        (fun u => decide (u = { resourceType := ResourceType.category,
                                name := cat.name, id := cat.id })) = 0 :=
      countP_eq_zero_of_all (fun u hu => decide_eq_false (fun heq => by
        have hrt := threadUnmanagedList_mem _ _ _ _ u hu
        rw [heq] at hrt
        simp at hrt))
    omega
  · show (categoryDesiredActions (flattenDesiredState desired).categories discord.categories ++
      categoryUnmanagedActions false (flattenDesiredState desired).categories (jsSortByKey (fun c => c.name) discord.categories) ++
      channelDesiredActions (flattenDesiredState desired).channels discord.channels (jsSortByKey (fun c => c.name) discord.categories) ++
      channelUnmanagedActions false ((flattenDesiredState desired).channels.map (fun c => c.name)) (jsSortByKey (fun c => c.name) discord.channels) ++
      threadDesiredActions (flattenDesiredState desired).threads (jsSortByKey (fun c => c.name) discord.channels) discord.threads ++
      threadUnmanagedActions false ((flattenDesiredState desired).threads.map threadSortKey) (jsSortByKey (fun c => c.name) discord.channels) (jsSortByKey (fun t => t.name) discord.threads) ++
      bindingDesiredActions (flattenDesiredState desired).bindings (jsSortByKey (fun c => c.name) discord.channels) openclaw ++
      staleBindingActions (flattenDesiredState desired).bindings (jsSortByKey (fun c => c.name) discord.channels) openclaw).countP _ = 0
    simp only [List.countP_append]
    have z1 : (categoryDesiredActions (flattenDesiredState desired).categories discord.categories).countP
        (fun a => decide (a.type = ActionType.delete) &&
          decide (a.resourceType = ResourceType.category) &&
          decide (a.name = cat.name)) = 0 :=
      countP_eq_zero_of_all (fun a ha => by
        have h := categoryDesiredActions_mem _ _ a ha
        simp [h.2])
    have z2 : (categoryUnmanagedActions false (flattenDesiredState desired).categories (jsSortByKey (fun c => c.name) discord.categories)).countP
        (fun a => decide (a.type = ActionType.delete) &&
          decide (a.resourceType = ResourceType.category) &&
          decide (a.name = cat.name)) = 0 := by
      rw [categoryUnmanagedActions_false_nil]
      rfl
    have z3 : (channelDesiredActions (flattenDesiredState desired).channels discord.channels (jsSortByKey (fun c => c.name) discord.categories)).countP
        (fun a => decide (a.type = ActionType.delete) &&
          decide (a.resourceType = ResourceType.category) &&
          decide (a.name = cat.name)) = 0 :=
      countP_eq_zero_of_all (fun a ha => by
        have h := channelDesiredActions_mem _ _ _ a ha
        simp [h.1])
    have z4 : (channelUnmanagedActions false ((flattenDesiredState desired).channels.map (fun c => c.name)) (jsSortByKey (fun c => c.name) discord.channels)).countP
        (fun a => decide (a.type = ActionType.delete) &&
          decide (a.resourceType = ResourceType.category) &&
          decide (a.name = cat.name)) = 0 :=
      countP_eq_zero_of_all (fun a ha => by
        have h := channelUnmanagedActions_mem _ _ _ a ha
        simp [h.1])
    have z5 : (threadDesiredActions (flattenDesiredState desired).threads (jsSortByKey (fun c => c.name) discord.channels) discord.threads).countP
        (fun a => decide (a.type = ActionType.delete) &&
          decide (a.resourceType = ResourceType.category) &&
          decide (a.name = cat.name)) = 0 :=
      countP_eq_zero_of_all (fun a ha => by
        have h := threadDesiredActions_mem _ _ _ a ha
        simp [h.1])
    have z6 : (threadUnmanagedActions false ((flattenDesiredState desired).threads.map threadSortKey) (jsSortByKey (fun c => c.name) discord.channels) (jsSortByKey (fun t => t.name) discord.threads)).countP
        (fun a => decide (a.type = ActionType.delete) &&
          decide (a.resourceType = ResourceType.category) &&
          decide (a.name = cat.name)) = 0 :=
      countP_eq_zero_of_all (fun a ha => by
        have h := threadUnmanagedActions_mem _ _ _ _ a ha
        simp [h.1])
    have z7 : (bindingDesiredActions (flattenDesiredState desired).bindings (jsSortByKey (fun c => c.name) discord.channels) openclaw).countP
        (fun a => decide (a.type = ActionType.delete) &&
          decide (a.resourceType = ResourceType.category) &&
          decide (a.name = cat.name)) = 0 :=
      countP_eq_zero_of_all (fun a ha => by
        have h := bindingDesiredActions_mem _ _ _ a ha
        simp [h])
    have z8 : (staleBindingActions (flattenDesiredState desired).bindings (jsSortByKey (fun c => c.name) discord.channels) openclaw).countP
        (fun a => decide (a.type = ActionType.delete) &&
          decide (a.resourceType = ResourceType.category) &&
          decide (a.name = cat.name)) = 0 :=
      countP_eq_zero_of_all (fun a ha => by
        have h := staleBindingActions_mem _ _ _ a ha
        simp [h])
    omega
  · show (categoryDesiredActions (flattenDesiredState desired).categories discord.categories ++
      categoryUnmanagedActions true (flattenDesiredState desired).categories (jsSortByKey (fun c => c.name) discord.categories) ++
      channelDesiredActions (flattenDesiredState desired).channels discord.channels (jsSortByKey (fun c => c.name) discord.categories) ++
      channelUnmanagedActions true ((flattenDesiredState desired).channels.map (fun c => c.name)) (jsSortByKey (fun c => c.name) discord.channels) ++
      threadDesiredActions (flattenDesiredState desired).threads (jsSortByKey (fun c => c.name) discord.channels) discord.threads ++
      threadUnmanagedActions true ((flattenDesiredState desired).threads.map threadSortKey) (jsSortByKey (fun c => c.name) discord.channels) (jsSortByKey (fun t => t.name) discord.threads) ++
      bindingDesiredActions (flattenDesiredState desired).bindings (jsSortByKey (fun c => c.name) discord.channels) openclaw ++
      staleBindingActions (flattenDesiredState desired).bindings (jsSortByKey (fun c => c.name) discord.channels) openclaw).countP _ = 1
    simp only [List.countP_append]
    have h1 := categoryUnmanagedActions_countP_one (flattenDesiredState desired).categories discord.categories cat hmem hnd hnot
    have z1 : (categoryDesiredActions (flattenDesiredState desired).categories discord.categories).countP
        (fun a => decide (a = { type := ActionType.delete,
                                resourceType := ResourceType.category, name := cat.name,
                                details := some { before := some { id := some cat.id } } })) = 0 :=
      countP_eq_zero_of_all (fun a ha => decide_eq_false (fun heq => by
        have h := categoryDesiredActions_mem _ _ a ha
        rw [heq] at h
        simp at h))
    have z3 : (channelDesiredActions (flattenDesiredState desired).channels discord.channels (jsSortByKey (fun c => c.name) discord.categories)).countP
        (fun a => decide (a = { type := ActionType.delete,
                                resourceType := ResourceType.category, name := cat.name,
                                details := some { before := some { id := some cat.id } } })) = 0 :=
      countP_eq_zero_of_all (fun a ha => decide_eq_false (fun heq => by
        have h := channelDesiredActions_mem _ _ _ a ha
        rw [heq] at h
        simp at h))
    have z4 : (channelUnmanagedActions true ((flattenDesiredState desired).channels.map (fun c => c.name)) (jsSortByKey (fun c => c.name) discord.channels)).countP
        (fun a => decide (a = { type := ActionType.delete,
                                resourceType := ResourceType.category, name := cat.name,
                                details := some { before := some { id := some cat.id } } })) = 0 :=
      countP_eq_zero_of_all (fun a ha => decide_eq_false (fun heq => by
        have h := channelUnmanagedActions_mem _ _ _ a ha
        rw [heq] at h
        simp at h))
    have z5 : (threadDesiredActions (flattenDesiredState desired).threads (jsSortByKey (fun c => c.name) discord.channels) discord.threads).countP
        (fun a => decide (a = { type := ActionType.delete,
                                resourceType := ResourceType.category, name := cat.name,
                                details := some { before := some { id := some cat.id } } })) = 0 :=
      countP_eq_zero_of_all (fun a ha => decide_eq_false (fun heq => by
        have h := threadDesiredActions_mem _ _ _ a ha
        rw [heq] at h
        simp at h))
    have z6 : (threadUnmanagedActions true ((flattenDesiredState desired).threads.map threadSortKey) (jsSortByKey (fun c => c.name) discord.channels) (jsSortByKey (fun t => t.name) discord.threads)).countP
        (fun a => decide (a = { type := ActionType.delete,
                                resourceType := ResourceType.category, name := cat.name,
                                details := some { before := some { id := some cat.id } } })) = 0 :=
      countP_eq_zero_of_all (fun a ha => decide_eq_false (fun heq => by
        have h := threadUnmanagedActions_mem _ _ _ _ a ha
        rw [heq] at h
        simp at h))
    have z7 : (bindingDesiredActions (flattenDesiredState desired).bindings (jsSortByKey (fun c => c.name) discord.channels) openclaw).countP
        (fun a => decide (a = { type := ActionType.delete,
                                resourceType := ResourceType.category, name := cat.name,
                                details := some { before := some { id := some cat.id } } })) = 0 :=
      countP_eq_zero_of_all (fun a ha => decide_eq_false (fun heq => by
        have h := bindingDesiredActions_mem _ _ _ a ha
        rw [heq] at h
        simp at h))
    have z8 : (staleBindingActions (flattenDesiredState desired).bindings (jsSortByKey (fun c => c.name) discord.channels) openclaw).countP
        (fun a => decide (a = { type := ActionType.delete,
                                resourceType := ResourceType.category, name := cat.name,
                                details := some { before := some { id := some cat.id } } })) = 0 :=
      countP_eq_zero_of_all (fun a ha => decide_eq_false (fun heq => by
        have h := staleBindingActions_mem _ _ _ a ha
        rw [heq] at h
        simp at h))
    omega
  · show (categoryUnmanagedList true (flattenDesiredState desired).categories (jsSortByKey (fun c => c.name) discord.categories) ++
      channelUnmanagedList true ((flattenDesiredState desired).channels.map (fun c => c.name)) (jsSortByKey (fun c => c.name) discord.channels) ++
      threadUnmanagedList true ((flattenDesiredState desired).threads.map threadSortKey) (jsSortByKey (fun c => c.name) discord.channels) (jsSortByKey (fun t => t.name) discord.threads)).countP _ = 0
    simp only [List.countP_append]
    have z1 : (categoryUnmanagedList true (flattenDesiredState desired).categories (jsSortByKey (fun c => c.name) discord.categories)).countP
        (fun u => decide (u.resourceType = ResourceType.category) &&
          decide (u.name = cat.name)) = 0 := by
      rw [categoryUnmanagedList_true_nil]
      rfl
    have z2 : (channelUnmanagedList true ((flattenDesiredState desired).channels.map (fun c => c.name)) (jsSortByKey (fun c => c.name) discord.channels)).countP
        (fun u => decide (u.resourceType = ResourceType.category) &&
          decide (u.name = cat.name)) = 0 :=
      countP_eq_zero_of_all (fun u hu => by
        have h := channelUnmanagedList_mem _ _ _ u hu
        simp [h])
    have z3 : (threadUnmanagedList true ((flattenDesiredState desired).threads.map threadSortKey) (jsSortByKey (fun c => c.name) discord.channels) (jsSortByKey (fun t => t.name) discord.threads)).countP
        (fun u => decide (u.resourceType = ResourceType.category) &&
          decide (u.name = cat.name)) = 0 :=
      countP_eq_zero_of_all (fun u hu => by
        have h := threadUnmanagedList_mem _ _ _ _ u hu
        simp [h])
    omega

theorem c7chan (desired : DesiredState) (discord : DiscordState) (openclaw : OpenClawState)
    (ch : ActualChannel) (hmem : ch ∈ discord.channels)
    (hnot : ((flattenDesiredState desired).channels.map (fun c => c.name)).contains ch.name = false)
    (hnd : (discord.channels.map (fun c => c.id)).Nodup) :
    (reconcile desired discord openclaw { prune := some false }).unmanaged.countP
        (fun u => decide (u = { resourceType := ResourceType.channel,
                                name := ch.name, id := ch.id, topic := ch.topic })) = 1 ∧
    (reconcile desired discord openclaw { prune := some false }).actions.countP
        (fun a => decide (a.type = ActionType.delete) &&
          decide (a.resourceType = ResourceType.channel) &&
          decide (a.name = ch.name)) = 0 ∧
    (reconcile desired discord openclaw { prune := some true }).actions.countP
        (fun a => decide (a = { type := ActionType.delete,
                                resourceType := ResourceType.channel, name := ch.name,
                                details := some { before := some { id := some ch.id, topic := some ch.topic } } })) = 1 ∧
    (reconcile desired discord openclaw { prune := some true }).unmanaged.countP
        (fun u => decide (u.resourceType = ResourceType.channel) &&
          decide (u.name = ch.name)) = 0 := by
  refine ⟨?_, ?_, ?_, ?_⟩
  · show (categoryUnmanagedList false (flattenDesiredState desired).categories (jsSortByKey (fun c => c.name) discord.categories) ++
      channelUnmanagedList false ((flattenDesiredState desired).channels.map (fun c => c.name)) (jsSortByKey (fun c => c.name) discord.channels) ++
      threadUnmanagedList false ((flattenDesiredState desired).threads.map threadSortKey) (jsSortByKey (fun c => c.name) discord.channels) (jsSortByKey (fun t => t.name) discord.threads)).countP _ = 1
    simp only [List.countP_append]
    have u0 : (categoryUnmanagedList false (flattenDesiredState desired).categories (jsSortByKey (fun c => c.name) discord.categories)).countP
        (fun u => decide (u = { resourceType := ResourceType.channel,
                                name := ch.name, id := ch.id, topic := ch.topic })) = 0 :=
      countP_eq_zero_of_all (fun u hu => decide_eq_false (fun heq => by
        have hrt := categoryUnmanagedList_mem _ _ _ u hu
        rw [heq] at hrt
        simp at hrt))
    have u1 := channelUnmanagedList_countP_one ((flattenDesiredState desired).channels.map (fun c => c.name))
      discord.channels ch hmem hnd hnot
    have u2 : (threadUnmanagedList false ((flattenDesiredState desired).threads.map threadSortKey) (jsSortByKey (fun c => c.name) discord.channels) (jsSortByKey (fun t => t.name) discord.threads)).countP
        (fun u => decide (u = { resourceType := ResourceType.channel,
                                name := ch.name, id := ch.id, topic := ch.topic })) = 0 :=
      countP_eq_zero_of_all (fun u hu => decide_eq_false (fun heq => by
        have hrt := threadUnmanagedList_mem _ _ _ _ u hu
        rw [heq] at hrt
        simp at hrt))
    omega
  · show (categoryDesiredActions (flattenDesiredState desired).categories discord.categories ++
      categoryUnmanagedActions false (flattenDesiredState desired).categories (jsSortByKey (fun c => c.name) discord.categories) ++
      channelDesiredActions (flattenDesiredState desired).channels discord.channels (jsSortByKey (fun c => c.name) discord.categories) ++
      channelUnmanagedActions false ((flattenDesiredState desired).channels.map (fun c => c.name)) (jsSortByKey (fun c => c.name) discord.channels) ++
      threadDesiredActions (flattenDesiredState desired).threads (jsSortByKey (fun c => c.name) discord.channels) discord.threads ++
      threadUnmanagedActions false ((flattenDesiredState desired).threads.map threadSortKey) (jsSortByKey (fun c => c.name) discord.channels) (jsSortByKey (fun t => t.name) discord.threads) ++
      bindingDesiredActions (flattenDesiredState desired).bindings (jsSortByKey (fun c => c.name) discord.channels) openclaw ++
      staleBindingActions (flattenDesiredState desired).bindings (jsSortByKey (fun c => c.name) discord.channels) openclaw).countP _ = 0
    simp only [List.countP_append]
    have z0 : (categoryDesiredActions (flattenDesiredState desired).categories discord.categories).countP
        (fun a => decide (a.type = ActionType.delete) &&
          decide (a.resourceType = ResourceType.channel) &&
          decide (a.name = ch.name)) = 0 :=
      countP_eq_zero_of_all (fun a ha => by
        have h := categoryDesiredActions_mem _ _ a ha
        simp [h.1])
    have z1 : (categoryUnmanagedActions false (flattenDesiredState desired).categories (jsSortByKey (fun c => c.name) discord.categories)).countP
        (fun a => decide (a.type = ActionType.delete) &&
          decide (a.resourceType = ResourceType.channel) &&
          decide (a.name = ch.name)) = 0 :=
      countP_eq_zero_of_all (fun a ha => by
        have h := categoryUnmanagedActions_mem _ _ _ a ha
        simp [h.1])
    have z2 : (channelDesiredActions (flattenDesiredState desired).channels discord.channels (jsSortByKey (fun c => c.name) discord.categories)).countP
        (fun a => decide (a.type = ActionType.delete) &&
          decide (a.resourceType = ResourceType.channel) &&
          decide (a.name = ch.name)) = 0 :=
      countP_eq_zero_of_all (fun a ha => by
        have h := channelDesiredActions_mem _ _ _ a ha
        simp [h.2])
    have z3 : (channelUnmanagedActions false ((flattenDesiredState desired).channels.map (fun c => c.name)) (jsSortByKey (fun c => c.name) discord.channels)).countP
        (fun a => decide (a.type = ActionType.delete) &&
          decide (a.resourceType = ResourceType.channel) &&
          decide (a.name = ch.name)) = 0 := by
      rw [channelUnmanagedActions_false_nil]
      rfl
    have z4 : (threadDesiredActions (flattenDesiredState desired).threads (jsSortByKey (fun c => c.name) discord.channels) discord.threads).countP
        (fun a => decide (a.type = ActionType.delete) &&
          decide (a.resourceType = ResourceType.channel) &&
          decide (a.name = ch.name)) = 0 :=
      countP_eq_zero_of_all (fun a ha => by
        have h := threadDesiredActions_mem _ _ _ a ha
        simp [h.1])
    have z5 : (threadUnmanagedActions false ((flattenDesiredState desired).threads.map threadSortKey) (jsSortByKey (fun c => c.name) discord.channels) (jsSortByKey (fun t => t.name) discord.threads)).countP
        (fun a => decide (a.type = ActionType.delete) &&
          decide (a.resourceType = ResourceType.channel) &&
          decide (a.name = ch.name)) = 0 :=
      countP_eq_zero_of_all (fun a ha => by
        have h := threadUnmanagedActions_mem _ _ _ _ a ha
        simp [h.1])
    have z6 : (bindingDesiredActions (flattenDesiredState desired).bindings (jsSortByKey (fun c => c.name) discord.channels) openclaw).countP
        (fun a => decide (a.type = ActionType.delete) &&
          decide (a.resourceType = ResourceType.channel) &&
          decide (a.name = ch.name)) = 0 :=
      countP_eq_zero_of_all (fun a ha => by
        have h := bindingDesiredActions_mem _ _ _ a ha
        simp [h])
    have z7 : (staleBindingActions (flattenDesiredState desired).bindings (jsSortByKey (fun c => c.name) discord.channels) openclaw).countP
        (fun a => decide (a.type = ActionType.delete) &&
          decide (a.resourceType = ResourceType.channel) &&
          decide (a.name = ch.name)) = 0 :=
      countP_eq_zero_of_all (fun a ha => by
        have h := staleBindingActions_mem _ _ _ a ha
        simp [h])
    omega
  · show (categoryDesiredActions (flattenDesiredState desired).categories discord.categories ++
      categoryUnmanagedActions true (flattenDesiredState desired).categories (jsSortByKey (fun c => c.name) discord.categories) ++
      channelDesiredActions (flattenDesiredState desired).channels discord.channels (jsSortByKey (fun c => c.name) discord.categories) ++
      channelUnmanagedActions true ((flattenDesiredState desired).channels.map (fun c => c.name)) (jsSortByKey (fun c => c.name) discord.channels) ++
      threadDesiredActions (flattenDesiredState desired).threads (jsSortByKey (fun c => c.name) discord.channels) discord.threads ++
      threadUnmanagedActions true ((flattenDesiredState desired).threads.map threadSortKey) (jsSortByKey (fun c => c.name) discord.channels) (jsSortByKey (fun t => t.name) discord.threads) ++
      bindingDesiredActions (flattenDesiredState desired).bindings (jsSortByKey (fun c => c.name) discord.channels) openclaw ++
      staleBindingActions (flattenDesiredState desired).bindings (jsSortByKey (fun c => c.name) discord.channels) openclaw).countP _ = 1
    simp only [List.countP_append]
    have w0 : (categoryDesiredActions (flattenDesiredState desired).categories discord.categories).countP
        (fun a => decide (a = { type := ActionType.delete,
                                resourceType := ResourceType.channel, name := ch.name,
                                details := some { before := some { id := some ch.id, topic := some ch.topic } } })) = 0 :=
      countP_eq_zero_of_all (fun a ha => decide_eq_false (fun heq => by
        have h := categoryDesiredActions_mem _ _ a ha
        rw [heq] at h
        simp at h))
    have w1 : (categoryUnmanagedActions true (flattenDesiredState desired).categories (jsSortByKey (fun c => c.name) discord.categories)).countP
        (fun a => decide (a = { type := ActionType.delete,
                                resourceType := ResourceType.channel, name := ch.name,
                                details := some { before := some { id := some ch.id, topic := some ch.topic } } })) = 0 :=
      countP_eq_zero_of_all (fun a ha => decide_eq_false (fun heq => by
        have h := categoryUnmanagedActions_mem _ _ _ a ha
        rw [heq] at h
        simp at h))
    have w2 : (channelDesiredActions (flattenDesiredState desired).channels discord.channels (jsSortByKey (fun c => c.name) discord.categories)).countP
        (fun a => decide (a = { type := ActionType.delete,
                                resourceType := ResourceType.channel, name := ch.name,
                                details := some { before := some { id := some ch.id, topic := some ch.topic } } })) = 0 :=
      countP_eq_zero_of_all (fun a ha => decide_eq_false (fun heq => by
        have h := channelDesiredActions_mem _ _ _ a ha
        rw [heq] at h
        simp at h))
    have w3 := channelUnmanagedActions_countP_one ((flattenDesiredState desired).channels.map (fun c => c.name))
      discord.channels ch hmem hnd hnot
    have w4 : (threadDesiredActions (flattenDesiredState desired).threads (jsSortByKey (fun c => c.name) discord.channels) discord.threads).countP
        (fun a => decide (a = { type := ActionType.delete,
                                resourceType := ResourceType.channel, name := ch.name,
                                details := some { before := some { id := some ch.id, topic := some ch.topic } } })) = 0 :=
      countP_eq_zero_of_all (fun a ha => decide_eq_false (fun heq => by
        have h := threadDesiredActions_mem _ _ _ a ha
        rw [heq] at h
        simp at h))
    have w5 : (threadUnmanagedActions true ((flattenDesiredState desired).threads.map threadSortKey) (jsSortByKey (fun c => c.name) discord.channels) (jsSortByKey (fun t => t.name) discord.threads)).countP
        (fun a => decide (a = { type := ActionType.delete,
                                resourceType := ResourceType.channel, name := ch.name,
                                details := some { before := some { id := some ch.id, topic := some ch.topic } } })) = 0 :=
      countP_eq_zero_of_all (fun a ha => decide_eq_false (fun heq => by
        have h := threadUnmanagedActions_mem _ _ _ _ a ha
        rw [heq] at h
        simp at h))
    have w6 : (bindingDesiredActions (flattenDesiredState desired).bindings (jsSortByKey (fun c => c.name) discord.channels) openclaw).countP
        (fun a => decide (a = { type := ActionType.delete,
                                resourceType := ResourceType.channel, name := ch.name,
                                details := some { before := some { id := some ch.id, topic := some ch.topic } } })) = 0 :=
      countP_eq_zero_of_all (fun a ha => decide_eq_false (fun heq => by
        have h := bindingDesiredActions_mem _ _ _ a ha
        rw [heq] at h
        simp at h))
    have w7 : (staleBindingActions (flattenDesiredState desired).bindings (jsSortByKey (fun c => c.name) discord.channels) openclaw).countP
        (fun a => decide (a = { type := ActionType.delete,
                                resourceType := ResourceType.channel, name := ch.name,
                                details := some { before := some { id := some ch.id, topic := some ch.topic } } })) = 0 :=
      countP_eq_zero_of_all (fun a ha => decide_eq_false (fun heq => by
        have h := staleBindingActions_mem _ _ _ a ha
        rw [heq] at h
        simp at h))
    omega
  · show (categoryUnmanagedList true (flattenDesiredState desired).categories (jsSortByKey (fun c => c.name) discord.categories) ++
      channelUnmanagedList true ((flattenDesiredState desired).channels.map (fun c => c.name)) (jsSortByKey (fun c => c.name) discord.channels) ++
      threadUnmanagedList true ((flattenDesiredState desired).threads.map threadSortKey) (jsSortByKey (fun c => c.name) discord.channels) (jsSortByKey (fun t => t.name) discord.threads)).countP _ = 0
    simp only [List.countP_append]
    have v0 : (categoryUnmanagedList true (flattenDesiredState desired).categories (jsSortByKey (fun c => c.name) discord.categories)).countP
        (fun u => decide (u.resourceType = ResourceType.channel) &&
          decide (u.name = ch.name)) = 0 :=
      countP_eq_zero_of_all (fun u hu => by
        have h := categoryUnmanagedList_mem _ _ _ u hu
        simp [h])
    have v1 : (channelUnmanagedList true ((flattenDesiredState desired).channels.map (fun c => c.name)) (jsSortByKey (fun c => c.name) discord.channels)).countP
        (fun u => decide (u.resourceType = ResourceType.channel) &&
          decide (u.name = ch.name)) = 0 := by
      rw [channelUnmanagedList_true_nil]
      rfl
    have v2 : (threadUnmanagedList true ((flattenDesiredState desired).threads.map threadSortKey) (jsSortByKey (fun c => c.name) discord.channels) (jsSortByKey (fun t => t.name) discord.threads)).countP
        (fun u => decide (u.resourceType = ResourceType.channel) &&
          decide (u.name = ch.name)) = 0 :=
      countP_eq_zero_of_all (fun u hu => by
        have h := threadUnmanagedList_mem _ _ _ _ u hu
        simp [h])
    omega

theorem c7thread (desired : DesiredState) (discord : DiscordState) (openclaw : OpenClawState)
    (th : ActualThread) (hmem : th ∈ discord.threads)
    (hnot : ((flattenDesiredState desired).threads.map threadSortKey).contains (actualThreadKey (jsSortByKey (fun c => c.name) discord.channels) th) = false)
    (hnd : (discord.threads.map (fun t => t.id)).Nodup) :
    (reconcile desired discord openclaw { prune := some false }).unmanaged.countP
        (fun u => decide (u = { resourceType := ResourceType.thread,
                                name := th.name, id := th.id })) = 1 ∧
    (reconcile desired discord openclaw { prune := some false }).actions.countP
        (fun a => decide (a.type = ActionType.delete) &&
          decide (a.resourceType = ResourceType.thread) &&
          decide (a.name = th.name)) = 0 ∧
    (reconcile desired discord openclaw { prune := some true }).actions.countP
        (fun a => decide (a = { type := ActionType.delete,
                                resourceType := ResourceType.thread, name := th.name,
                                details := some { before := some { id := some th.id, parentChannelId := some th.parentChannelId } } })) = 1 ∧
    (reconcile desired discord openclaw { prune := some true }).unmanaged.countP
        (fun u => decide (u.resourceType = ResourceType.thread) &&
          decide (u.name = th.name)) = 0 := by
  refine ⟨?_, ?_, ?_, ?_⟩
  · show (categoryUnmanagedList false (flattenDesiredState desired).categories (jsSortByKey (fun c => c.name) discord.categories) ++
      channelUnmanagedList false ((flattenDesiredState desired).channels.map (fun c => c.name)) (jsSortByKey (fun c => c.name) discord.channels) ++
      threadUnmanagedList false ((flattenDesiredState desired).threads.map threadSortKey) (jsSortByKey (fun c => c.name) discord.channels) (jsSortByKey (fun t => t.name) discord.threads)).countP _ = 1
    simp only [List.countP_append]
    have u0 : (categoryUnmanagedList false (flattenDesiredState desired).categories (jsSortByKey (fun c => c.name) discord.categories)).countP
        (fun u => decide (u = { resourceType := ResourceType.thread,
                                name := th.name, id := th.id })) = 0 :=
      countP_eq_zero_of_all (fun u hu => decide_eq_false (fun heq => by
        have hrt := categoryUnmanagedList_mem _ _ _ u hu
        rw [heq] at hrt
        simp at hrt))
    have u1 : (channelUnmanagedList false ((flattenDesiredState desired).channels.map (fun c => c.name)) (jsSortByKey (fun c => c.name) discord.channels)).countP
        (fun u => decide (u = { resourceType := ResourceType.thread,
                                name := th.name, id := th.id })) = 0 :=
      countP_eq_zero_of_all (fun u hu => decide_eq_false (fun heq => by
        have hrt := channelUnmanagedList_mem _ _ _ u hu
        rw [heq] at hrt
        simp at hrt))
    have u2 := threadUnmanagedList_countP_one ((flattenDesiredState desired).threads.map threadSortKey)
      (jsSortByKey (fun c => c.name) discord.channels) discord.threads th hmem hnd hnot
    omega
  · show (categoryDesiredActions (flattenDesiredState desired).categories discord.categories ++
      categoryUnmanagedActions false (flattenDesiredState desired).categories (jsSortByKey (fun c => c.name) discord.categories) ++
      channelDesiredActions (flattenDesiredState desired).channels discord.channels (jsSortByKey (fun c => c.name) discord.categories) ++
      channelUnmanagedActions false ((flattenDesiredState desired).channels.map (fun c => c.name)) (jsSortByKey (fun c => c.name) discord.channels) ++
      threadDesiredActions (flattenDesiredState desired).threads (jsSortByKey (fun c => c.name) discord.channels) discord.threads ++
      threadUnmanagedActions false ((flattenDesiredState desired).threads.map threadSortKey) (jsSortByKey (fun c => c.name) discord.channels) (jsSortByKey (fun t => t.name) discord.threads) ++
      bindingDesiredActions (flattenDesiredState desired).bindings (jsSortByKey (fun c => c.name) discord.channels) openclaw ++
      staleBindingActions (flattenDesiredState desired).bindings (jsSortByKey (fun c => c.name) discord.channels) openclaw).countP _ = 0
    simp only [List.countP_append]
    have z0 : (categoryDesiredActions (flattenDesiredState desired).categories discord.categories).countP
        (fun a => decide (a.type = ActionType.delete) &&
          decide (a.resourceType = ResourceType.thread) &&
          decide (a.name = th.name)) = 0 :=
      countP_eq_zero_of_all (fun a ha => by
        have h := categoryDesiredActions_mem _ _ a ha
        simp [h.1])
    have z1 : (categoryUnmanagedActions false (flattenDesiredState desired).categories (jsSortByKey (fun c => c.name) discord.categories)).countP
        (fun a => decide (a.type = ActionType.delete) &&
          decide (a.resourceType = ResourceType.thread) &&
          decide (a.name = th.name)) = 0 :=
      countP_eq_zero_of_all (fun a ha => by
        have h := categoryUnmanagedActions_mem _ _ _ a ha
        simp [h.1])
    have z2 : (channelDesiredActions (flattenDesiredState desired).channels discord.channels (jsSortByKey (fun c => c.name) discord.categories)).countP
        (fun a => decide (a.type = ActionType.delete) &&
          decide (a.resourceType = ResourceType.thread) &&
          decide (a.name = th.name)) = 0 :=
      countP_eq_zero_of_all (fun a ha => by
        have h := channelDesiredActions_mem _ _ _ a ha
        simp [h.1])
    have z3 : (channelUnmanagedActions false ((flattenDesiredState desired).channels.map (fun c => c.name)) (jsSortByKey (fun c => c.name) discord.channels)).countP
        (fun a => decide (a.type = ActionType.delete) &&
          decide (a.resourceType = ResourceType.thread) &&
          decide (a.name = th.name)) = 0 :=
      countP_eq_zero_of_all (fun a ha => by
        have h := channelUnmanagedActions_mem _ _ _ a ha
        simp [h.1])
    have z4 : (threadDesiredActions (flattenDesiredState desired).threads (jsSortByKey (fun c => c.name) discord.channels) discord.threads).countP
        (fun a => decide (a.type = ActionType.delete) &&
          decide (a.resourceType = ResourceType.thread) &&
          decide (a.name = th.name)) = 0 :=
      countP_eq_zero_of_all (fun a ha => by
        have h := threadDesiredActions_mem _ _ _ a ha
        simp [h.2])
    have z5 : (threadUnmanagedActions false ((flattenDesiredState desired).threads.map threadSortKey) (jsSortByKey (fun c => c.name) discord.channels) (jsSortByKey (fun t => t.name) discord.threads)).countP
        (fun a => decide (a.type = ActionType.delete) &&
          decide (a.resourceType = ResourceType.thread) &&
          decide (a.name = th.name)) = 0 := by
      rw [threadUnmanagedActions_false_nil]
      rfl
    have z6 : (bindingDesiredActions (flattenDesiredState desired).bindings (jsSortByKey (fun c => c.name) discord.channels) openclaw).countP
        (fun a => decide (a.type = ActionType.delete) &&
          decide (a.resourceType = ResourceType.thread) &&
          decide (a.name = th.name)) = 0 :=
      countP_eq_zero_of_all (fun a ha => by
        have h := bindingDesiredActions_mem _ _ _ a ha
        simp [h])
    have z7 : (staleBindingActions (flattenDesiredState desired).bindings (jsSortByKey (fun c => c.name) discord.channels) openclaw).countP
        (fun a => decide (a.type = ActionType.delete) &&
          decide (a.resourceType = ResourceType.thread) &&
          decide (a.name = th.name)) = 0 :=
      countP_eq_zero_of_all (fun a ha => by
        have h := staleBindingActions_mem _ _ _ a ha
        simp [h])
    omega
  · show (categoryDesiredActions (flattenDesiredState desired).categories discord.categories ++
      categoryUnmanagedActions true (flattenDesiredState desired).categories (jsSortByKey (fun c => c.name) discord.categories) ++
      channelDesiredActions (flattenDesiredState desired).channels discord.channels (jsSortByKey (fun c => c.name) discord.categories) ++
      channelUnmanagedActions true ((flattenDesiredState desired).channels.map (fun c => c.name)) (jsSortByKey (fun c => c.name) discord.channels) ++
      threadDesiredActions (flattenDesiredState desired).threads (jsSortByKey (fun c => c.name) discord.channels) discord.threads ++
      threadUnmanagedActions true ((flattenDesiredState desired).threads.map threadSortKey) (jsSortByKey (fun c => c.name) discord.channels) (jsSortByKey (fun t => t.name) discord.threads) ++
      bindingDesiredActions (flattenDesiredState desired).bindings (jsSortByKey (fun c => c.name) discord.channels) openclaw ++
      staleBindingActions (flattenDesiredState desired).bindings (jsSortByKey (fun c => c.name) discord.channels) openclaw).countP _ = 1
    simp only [List.countP_append]
    have w0 : (categoryDesiredActions (flattenDesiredState desired).categories discord.categories).countP
        (fun a => decide (a = { type := ActionType.delete,
                                resourceType := ResourceType.thread, name := th.name,
                                details := some { before := some { id := some th.id, parentChannelId := some th.parentChannelId } } })) = 0 :=
      countP_eq_zero_of_all (fun a ha => decide_eq_false (fun heq => by
        have h := categoryDesiredActions_mem _ _ a ha
        rw [heq] at h
        simp at h))
    have w1 : (categoryUnmanagedActions true (flattenDesiredState desired).categories (jsSortByKey (fun c => c.name) discord.categories)).countP
        (fun a => decide (a = { type := ActionType.delete,
                                resourceType := ResourceType.thread, name := th.name,
                                details := some { before := some { id := some th.id, parentChannelId := some th.parentChannelId } } })) = 0 :=
      countP_eq_zero_of_all (fun a ha => decide_eq_false (fun heq => by
        have h := categoryUnmanagedActions_mem _ _ _ a ha
        rw [heq] at h
        simp at h))
    have w2 : (channelDesiredActions (flattenDesiredState desired).channels discord.channels (jsSortByKey (fun c => c.name) discord.categories)).countP
        (fun a => decide (a = { type := ActionType.delete,
                                resourceType := ResourceType.thread, name := th.name,
                                details := some { before := some { id := some th.id, parentChannelId := some th.parentChannelId } } })) = 0 :=
      countP_eq_zero_of_all (fun a ha => decide_eq_false (fun heq => by
        have h := channelDesiredActions_mem _ _ _ a ha
        rw [heq] at h
        simp at h))
    have w3 : (channelUnmanagedActions true ((flattenDesiredState desired).channels.map (fun c => c.name)) (jsSortByKey (fun c => c.name) discord.channels)).countP
        (fun a => decide (a = { type := ActionType.delete,
                                resourceType := ResourceType.thread, name := th.name,
                                details := some { before := some { id := some th.id, parentChannelId := some th.parentChannelId } } })) = 0 :=
      countP_eq_zero_of_all (fun a ha => decide_eq_false (fun heq => by
        have h := channelUnmanagedActions_mem _ _ _ a ha
        rw [heq] at h
        simp at h))
    have w4 : (threadDesiredActions (flattenDesiredState desired).threads (jsSortByKey (fun c => c.name) discord.channels) discord.threads).countP
        (fun a => decide (a = { type := ActionType.delete,
                                resourceType := ResourceType.thread, name := th.name,
                                details := some { before := some { id := some th.id, parentChannelId := some th.parentChannelId } } })) = 0 :=
      countP_eq_zero_of_all (fun a ha => decide_eq_false (fun heq => by
        have h := threadDesiredActions_mem _ _ _ a ha
        rw [heq] at h
        simp at h))
    have w5 := threadUnmanagedActions_countP_one ((flattenDesiredState desired).threads.map threadSortKey)
      (jsSortByKey (fun c => c.name) discord.channels) discord.threads th hmem hnd hnot
    have w6 : (bindingDesiredActions (flattenDesiredState desired).bindings (jsSortByKey (fun c => c.name) discord.channels) openclaw).countP
        (fun a => decide (a = { type := ActionType.delete,
                                resourceType := ResourceType.thread, name := th.name,
                                details := some { before := some { id := some th.id, parentChannelId := some th.parentChannelId } } })) = 0 :=
      countP_eq_zero_of_all (fun a ha => decide_eq_false (fun heq => by
        have h := bindingDesiredActions_mem _ _ _ a ha
        rw [heq] at h
        simp at h))
    have w7 : (staleBindingActions (flattenDesiredState desired).bindings (jsSortByKey (fun c => c.name) discord.channels) openclaw).countP
        (fun a => decide (a = { type := ActionType.delete,
                                resourceType := ResourceType.thread, name := th.name,
                                details := some { before := some { id := some th.id, parentChannelId := some th.parentChannelId } } })) = 0 :=
      countP_eq_zero_of_all (fun a ha => decide_eq_false (fun heq => by
        have h := staleBindingActions_mem _ _ _ a ha
        rw [heq] at h
        simp at h))
    omega
  · show (categoryUnmanagedList true (flattenDesiredState desired).categories (jsSortByKey (fun c => c.name) discord.categories) ++
      channelUnmanagedList true ((flattenDesiredState desired).channels.map (fun c => c.name)) (jsSortByKey (fun c => c.name) discord.channels) ++
      threadUnmanagedList true ((flattenDesiredState desired).threads.map threadSortKey) (jsSortByKey (fun c => c.name) discord.channels) (jsSortByKey (fun t => t.name) discord.threads)).countP _ = 0
    simp only [List.countP_append]
    have v0 : (categoryUnmanagedList true (flattenDesiredState desired).categories (jsSortByKey (fun c => c.name) discord.categories)).countP
        (fun u => decide (u.resourceType = ResourceType.thread) &&
          decide (u.name = th.name)) = 0 :=
      countP_eq_zero_of_all (fun u hu => by
        have h := categoryUnmanagedList_mem _ _ _ u hu
        simp [h])
    have v1 : (channelUnmanagedList true ((flattenDesiredState desired).channels.map (fun c => c.name)) (jsSortByKey (fun c => c.name) discord.channels)).countP
        (fun u => decide (u.resourceType = ResourceType.thread) &&
          decide (u.name = th.name)) = 0 :=
      countP_eq_zero_of_all (fun u hu => by
        have h := channelUnmanagedList_mem _ _ _ u hu
        simp [h])
    have v2 : (threadUnmanagedList true ((flattenDesiredState desired).threads.map threadSortKey) (jsSortByKey (fun c => c.name) discord.channels) (jsSortByKey (fun t => t.name) discord.threads)).countP
        (fun u => decide (u.resourceType = ResourceType.thread) &&
          decide (u.name = th.name)) = 0 := by
      rw [threadUnmanagedList_true_nil]
      rfl
    omega

/-- C7: Prune symmetry. For every live category, channel, or thread whose
name (or parent:name key, for threads) has no desired counterpart: with
prune=false the reconciler reports exactly one matching unmanaged entry and
emits no delete action for it, while with prune=true it emits exactly one
delete action carrying the resource's live id in details.before and reports
no matching unmanaged entry. Stated under the assumption that live resource
ids are unique per kind, which Discord guarantees. -/
theorem c7_prune_symmetry (desired : DesiredState) (discord : DiscordState)
    (openclaw : OpenClawState)
    (hndCat : (discord.categories.map (fun c => c.id)).Nodup)
    (hndCh : (discord.channels.map (fun c => c.id)).Nodup)
    (hndTh : (discord.threads.map (fun t => t.id)).Nodup) :
    (∀ cat ∈ discord.categories,
      (flattenDesiredState desired).categories.contains cat.name = false →
      (reconcile desired discord openclaw { prune := some false }).unmanaged.countP
          (fun u => decide (u = { resourceType := ResourceType.category,
                                  name := cat.name, id := cat.id })) = 1 ∧
      (reconcile desired discord openclaw { prune := some false }).actions.countP
          (fun a => decide (a.type = ActionType.delete) &&
            decide (a.resourceType = ResourceType.category) &&
            decide (a.name = cat.name)) = 0 ∧
      (reconcile desired discord openclaw { prune := some true }).actions.countP
          (fun a => decide (a = { type := ActionType.delete,
                                  resourceType := ResourceType.category, name := cat.name,
                                  details := some { before := some { id := some cat.id } } })) = 1 ∧
      (reconcile desired discord openclaw { prune := some true }).unmanaged.countP
          (fun u => decide (u.resourceType = ResourceType.category) &&
            decide (u.name = cat.name)) = 0) ∧
    (∀ ch ∈ discord.channels,
      ((flattenDesiredState desired).channels.map (fun c => c.name)).contains ch.name = false →
      (reconcile desired discord openclaw { prune := some false }).unmanaged.countP
          (fun u => decide (u = { resourceType := ResourceType.channel,
                                  name := ch.name, id := ch.id, topic := ch.topic })) = 1 ∧
      (reconcile desired discord openclaw { prune := some false }).actions.countP
          (fun a => decide (a.type = ActionType.delete) &&
            decide (a.resourceType = ResourceType.channel) &&
            decide (a.name = ch.name)) = 0 ∧
      (reconcile desired discord openclaw { prune := some true }).actions.countP
          (fun a => decide (a = { type := ActionType.delete,
                                  resourceType := ResourceType.channel, name := ch.name,
                                  details := some { before := some { id := some ch.id, topic := some ch.topic } } })) = 1 ∧
      (reconcile desired discord openclaw { prune := some true }).unmanaged.countP
          (fun u => decide (u.resourceType = ResourceType.channel) &&
            decide (u.name = ch.name)) = 0) ∧
    (∀ th ∈ discord.threads,
      ((flattenDesiredState desired).threads.map threadSortKey).contains (actualThreadKey (jsSortByKey (fun c => c.name) discord.channels) th) = false →
      (reconcile desired discord openclaw { prune := some false }).unmanaged.countP
          (fun u => decide (u = { resourceType := ResourceType.thread,
                                  name := th.name, id := th.id })) = 1 ∧
      (reconcile desired discord openclaw { prune := some false }).actions.countP
          (fun a => decide (a.type = ActionType.delete) &&
            decide (a.resourceType = ResourceType.thread) &&
            decide (a.name = th.name)) = 0 ∧
      (reconcile desired discord openclaw { prune := some true }).actions.countP
          (fun a => decide (a = { type := ActionType.delete,
                                  resourceType := ResourceType.thread, name := th.name,
                                  details := some { before := some { id := some th.id, parentChannelId := some th.parentChannelId } } })) = 1 ∧
      (reconcile desired discord openclaw { prune := some true }).unmanaged.countP
          (fun u => decide (u.resourceType = ResourceType.thread) &&
            decide (u.name = th.name)) = 0) :=
  ⟨fun cat hmem hnot => c7cat desired discord openclaw cat hmem hnot hndCat,
   fun ch hmem hnot => c7chan desired discord openclaw ch hmem hnot hndCh,
   fun th hmem hnot => c7thread desired discord openclaw th hmem hnot hndTh⟩

/-- Witness for C7: on the concrete example workspace with a stray
category, channel and thread, the id-uniqueness hypotheses hold and the
prune-symmetry conclusion follows by applying the theorem. -/
theorem c7_prune_symmetry_witness :
    ((c7Discord.categories.map (fun c => c.id)).Nodup ∧
     (c7Discord.channels.map (fun c => c.id)).Nodup ∧
     (c7Discord.threads.map (fun t => t.id)).Nodup) ∧
    ((∀ cat ∈ c7Discord.categories,
      (flattenDesiredState exDesired).categories.contains cat.name = false →
      (reconcile exDesired c7Discord c1OpenClaw { prune := some false }).unmanaged.countP
          (fun u => decide (u = { resourceType := ResourceType.category,
                                  name := cat.name, id := cat.id })) = 1 ∧
      (reconcile exDesired c7Discord c1OpenClaw { prune := some false }).actions.countP
          (fun a => decide (a.type = ActionType.delete) &&
            decide (a.resourceType = ResourceType.category) &&
            decide (a.name = cat.name)) = 0 ∧
      (reconcile exDesired c7Discord c1OpenClaw { prune := some true }).actions.countP
          (fun a => decide (a = { type := ActionType.delete,
                                  resourceType := ResourceType.category, name := cat.name,
                                  details := some { before := some { id := some cat.id } } })) = 1 ∧
      (reconcile exDesired c7Discord c1OpenClaw { prune := some true }).unmanaged.countP
          (fun u => decide (u.resourceType = ResourceType.category) &&
            decide (u.name = cat.name)) = 0) ∧
    (∀ ch ∈ c7Discord.channels,
      ((flattenDesiredState exDesired).channels.map (fun c => c.name)).contains ch.name = false →
      (reconcile exDesired c7Discord c1OpenClaw { prune := some false }).unmanaged.countP
          (fun u => decide (u = { resourceType := ResourceType.channel,
                                  name := ch.name, id := ch.id, topic := ch.topic })) = 1 ∧
      (reconcile exDesired c7Discord c1OpenClaw { prune := some false }).actions.countP
          (fun a => decide (a.type = ActionType.delete) &&
            decide (a.resourceType = ResourceType.channel) &&
            decide (a.name = ch.name)) = 0 ∧
      (reconcile exDesired c7Discord c1OpenClaw { prune := some true }).actions.countP
          (fun a => decide (a = { type := ActionType.delete,
                                  resourceType := ResourceType.channel, name := ch.name,
                                  details := some { before := some { id := some ch.id, topic := some ch.topic } } })) = 1 ∧
      (reconcile exDesired c7Discord c1OpenClaw { prune := some true }).unmanaged.countP
          (fun u => decide (u.resourceType = ResourceType.channel) &&
            decide (u.name = ch.name)) = 0) ∧
    (∀ th ∈ c7Discord.threads,
      ((flattenDesiredState exDesired).threads.map threadSortKey).contains (actualThreadKey (jsSortByKey (fun c => c.name) c7Discord.channels) th) = false →
      (reconcile exDesired c7Discord c1OpenClaw { prune := some false }).unmanaged.countP
          (fun u => decide (u = { resourceType := ResourceType.thread,
                                  name := th.name, id := th.id })) = 1 ∧
      (reconcile exDesired c7Discord c1OpenClaw { prune := some false }).actions.countP
          (fun a => decide (a.type = ActionType.delete) &&
            decide (a.resourceType = ResourceType.thread) &&
            decide (a.name = th.name)) = 0 ∧
      (reconcile exDesired c7Discord c1OpenClaw { prune := some true }).actions.countP
          (fun a => decide (a = { type := ActionType.delete,
                                  resourceType := ResourceType.thread, name := th.name,
                                  details := some { before := some { id := some th.id, parentChannelId := some th.parentChannelId } } })) = 1 ∧
      (reconcile exDesired c7Discord c1OpenClaw { prune := some true }).unmanaged.countP
          (fun u => decide (u.resourceType = ResourceType.thread) &&
            decide (u.name = th.name)) = 0)) :=
  ⟨by decide,
   c7_prune_symmetry exDesired c7Discord c1OpenClaw (by decide) (by decide) (by decide)⟩

theorem recordSet_find (k v a : String) (l : List (String × String)) :
    (recordSet k v l).find? (fun e => decide (e.1 = a)) =
      if a = k then some (k, v) else l.find? (fun e => decide (e.1 = a)) := by
  induction l with
  | nil =>
      by_cases h : a = k
      · simp [recordSet, h]
      · have h2 : ¬ (k = a) := fun hh => h hh.symm
        simp [recordSet, h, h2]
  | cons hd t ih =>
      rcases hd with ⟨k', v'⟩
      by_cases h1 : k' = k
      · subst h1
        by_cases h : a = k'
        · simp [recordSet, h]
        · have h2 : ¬ (k' = a) := fun hh => h hh.symm
          simp [recordSet, h, h2]
      · by_cases h : a = k'
        · subst h
          rw [if_neg h1]
          simp [recordSet, h1]
        · have h2 : ¬ (k' = a) := fun hh => h hh.symm
          simp [recordSet, h1, h2, ih]

theorem snapshotAgentsLoop_find (channels : List ActualChannel) (a : String) :
    ∀ (bs : List ActualBinding) (acc : List (String × String)),
      ((bs.foldl (fun acc b =>
          if b.match_.channel ≠ "discord" then acc
          else if !((channels.map (fun c => c.id)).contains b.match_.peer.id) then acc
          else
            recordSet b.agentId
              (((channels.find? (fun c => decide (c.id = b.match_.peer.id))).map
                (fun c => c.name)).getD b.match_.peer.id) acc) acc).find?
          (fun e => decide (e.1 = a))) =
        match bs.reverse.find? (fun b => decide (b.agentId = a) &&
            decide (b.match_.channel = "discord") &&
            (channels.map (fun c => c.id)).contains b.match_.peer.id) with
        | some b => some (a,
            ((channels.find? (fun c => decide (c.id = b.match_.peer.id))).map
              (fun c => c.name)).getD b.match_.peer.id)
        | none => acc.find? (fun e => decide (e.1 = a)) := by
  intro bs
  induction bs with
  | nil => intro acc; simp
  | cons b t ih =>
      intro acc
      rw [List.foldl_cons, List.reverse_cons, List.find?_append, ih]
      cases hfind : t.reverse.find? (fun b => decide (b.agentId = a) &&
          decide (b.match_.channel = "discord") &&
          (channels.map (fun c => c.id)).contains b.match_.peer.id) with
      | some b' => rfl
      | none =>
          dsimp only [Option.none_or]
          by_cases hd : b.match_.channel = "discord"
          · by_cases hc : (channels.map (fun c => c.id)).contains b.match_.peer.id = true
            · rw [if_neg (fun hne => hne hd), if_neg (by rw [hc]; simp)]
              by_cases ha : b.agentId = a
              · rw [List.find?_cons_of_pos _ (by rw [ha, hd, hc]; simp), recordSet_find,
                  if_pos ha.symm, ha]
              · rw [List.find?_cons_of_neg _ (by simp [ha]), recordSet_find,
                  if_neg (fun hh => ha hh.symm)]
                rfl
            · have hc2 : (channels.map (fun c => c.id)).contains b.match_.peer.id = false := by
                rw [Bool.eq_false_iff]
                exact hc
              rw [if_neg (fun hne => hne hd), if_pos (by rw [hc2]; rfl),
                List.find?_cons_of_neg _ (by rw [hc2, Bool.and_false]; exact Bool.false_ne_true)]
              rfl
          · rw [if_pos hd, List.find?_cons_of_neg _ (by simp [hd])]
            rfl

theorem snapshotAgents_find (channels : List ActualChannel) (oc : OpenClawState)
    (a : String) :
    (snapshotAgents channels oc).find? (fun e => decide (e.1 = a)) =
      match oc.bindings.reverse.find? (fun b => decide (b.agentId = a) &&
          decide (b.match_.channel = "discord") &&
          (channels.map (fun c => c.id)).contains b.match_.peer.id) with
      | some b => some (a,
          ((channels.find? (fun c => decide (c.id = b.match_.peer.id))).map
            (fun c => c.name)).getD b.match_.peer.id)
      | none => none :=
  snapshotAgentsLoop_find channels a oc.bindings []

theorem groupUpsert_find_self (k : String) (v : DesiredChannel)
    (l : List (String × List DesiredChannel)) :
    (groupUpsert k v l).find? (fun e => decide (e.1 = k)) =
      some (k, (((l.find? (fun e => decide (e.1 = k))).map (fun e => e.2)).getD []) ++ [v]) := by
  induction l with
  | nil => simp [groupUpsert]
  | cons hd t ih =>
      rcases hd with ⟨k', vs⟩
      by_cases h1 : k' = k
      · subst h1
        simp [groupUpsert]
      · simp [groupUpsert, h1, ih]

theorem groupUpsert_find_other (k : String) (v : DesiredChannel) (a : String)
    (hne : a ≠ k) (l : List (String × List DesiredChannel)) :
    (groupUpsert k v l).find? (fun e => decide (e.1 = a)) =
      l.find? (fun e => decide (e.1 = a)) := by
  induction l with
  | nil =>
      have h2 : ¬ (k = a) := fun hh => hne hh.symm
      simp [groupUpsert, h2]
  | cons hd t ih =>
      rcases hd with ⟨k', vs⟩
      show (if k' = k then (k', vs ++ [v]) :: t
          else (k', vs) :: groupUpsert k v t).find? (fun e => decide (e.1 = a)) = _
      by_cases h1 : k' = k
      · rw [if_pos h1]
        have h2 : ¬ (k' = a) := by
          rw [h1]
          exact fun hh => hne hh.symm
        rw [List.find?_cons_of_neg _ (by simp [h2]),
          List.find?_cons_of_neg _ (by simp [h2])]
      · rw [if_neg h1]
        by_cases h2 : k' = a
        · rw [List.find?_cons_of_pos _ (by simp [h2]),
            List.find?_cons_of_pos _ (by simp [h2])]
        · rw [List.find?_cons_of_neg _ (by simp [h2]),
            List.find?_cons_of_neg _ (by simp [h2])]
          exact ih

theorem snapshotGroupsLoop_mem (categories : List ActualCategory)
    (threads : List ActualThread) (nm : String) (d : DesiredChannel) :
    ∀ (chs : List ActualChannel) (acc : List (String × List DesiredChannel)),
      ((∃ pr, acc.find? (fun e => decide (e.1 = nm)) = some pr ∧ d ∈ pr.2) ∨
        (∃ ch ∈ chs, snapshotCatNameOf categories ch = some nm ∧
          snapshotDesiredChannelOf threads ch = d)) →
      ∃ pr, ((chs.foldl (fun acc ch =>
          match snapshotCatNameOf categories ch with
          | some catName => groupUpsert catName (snapshotDesiredChannelOf threads ch) acc
          | none => acc) acc).find? (fun e => decide (e.1 = nm))) = some pr ∧ d ∈ pr.2 := by
  intro chs
  induction chs with
  | nil =>
      intro acc h
      rcases h with h | ⟨ch, hmem, _, _⟩
      · exact h
      · cases hmem
  | cons ch t ih =>
      intro acc h
      rw [List.foldl_cons]
      rcases h with ⟨pr, hfind, hd⟩ | ⟨ch0, hmem, hcn, hdes⟩
      · cases hcn : snapshotCatNameOf categories ch with
        | none =>
            exact ih acc (Or.inl ⟨pr, hfind, hd⟩)
        | some c =>
            by_cases hc : c = nm
            · subst hc
              refine ih _ (Or.inl ⟨(c, (((acc.find? (fun e => decide (e.1 = c))).map
                  (fun e => e.2)).getD []) ++ [snapshotDesiredChannelOf threads ch]), ?_, ?_⟩)
              · exact groupUpsert_find_self c _ acc
              · rw [hfind]
                exact List.mem_append_left _ hd
            · refine ih _ (Or.inl ⟨pr, ?_, hd⟩)
              rw [groupUpsert_find_other c _ nm (fun hh => hc hh.symm) acc]
              exact hfind
      · rcases List.mem_cons.mp hmem with rfl | hmem2
        · rw [hcn, hdes]
          refine ih _ (Or.inl ⟨(nm, (((acc.find? (fun e => decide (e.1 = nm))).map
              (fun e => e.2)).getD []) ++ [d]), ?_, ?_⟩)
          · exact groupUpsert_find_self nm d acc
          · exact List.mem_append_right _ (List.mem_cons_self d [])
        · cases hcn2 : snapshotCatNameOf categories ch with
          | none =>
              exact ih acc (Or.inr ⟨ch0, hmem2, hcn, hdes⟩)
          | some c =>
              exact ih _ (Or.inr ⟨ch0, hmem2, hcn, hdes⟩)

theorem snapshotCatNameOf_some (categories : List ActualCategory) (ch : ActualChannel)
    (nm : String) (h : snapshotCatNameOf categories ch = some nm) :
    ∃ cat ∈ categories, cat.name = nm := by
  unfold snapshotCatNameOf at h
  cases hcid : ch.categoryId with
  | none =>
      rw [hcid] at h
      dsimp only at h
      cases h
  | some cid =>
      rw [hcid] at h
      dsimp only at h
      by_cases h1 : cid = ""
      · rw [if_pos h1] at h; cases h
      · rw [if_neg h1] at h
        cases hl : lastCategoryNameById categories cid with
        | none =>
            rw [hl] at h
            dsimp only at h
            cases h
        | some nm' =>
            rw [hl] at h
            dsimp only at h
            by_cases h2 : nm' = ""
            · rw [if_pos h2] at h; cases h
            · rw [if_neg h2] at h
              injection h with h
              unfold lastCategoryNameById at hl
              cases hf : categories.reverse.find? (fun c => decide (c.id = cid)) with
              | none => rw [hf] at hl; cases hl
              | some cat =>
                  rw [hf] at hl
                  injection hl with hl
                  have hl2 : cat.name = nm' := hl
                  exact ⟨cat, List.mem_reverse.mp (List.mem_of_find?_eq_some hf),
                    by rw [hl2, h]⟩

theorem snapshotToDesired_topLevel_mem (discordState : DiscordState) (guildId : String)
    (openclawState : OpenClawState) (ch : ActualChannel)
    (hmem : ch ∈ discordState.channels)
    (hcn : snapshotCatNameOf discordState.categories ch = none) :
    DesiredChannelEntry.chan (snapshotDesiredChannelOf discordState.threads ch) ∈
      (snapshotToDesired discordState guildId openclawState).channels := by
  refine List.mem_append_left _ (List.mem_map.mpr
    ⟨snapshotDesiredChannelOf discordState.threads ch, ?_, rfl⟩)
  unfold snapshotTopLevelChannels
  exact List.mem_filterMap.mpr ⟨ch, hmem, by rw [hcn]⟩

theorem snapshotToDesired_grouped_mem (discordState : DiscordState) (guildId : String)
    (openclawState : OpenClawState) (ch : ActualChannel) (nm : String)
    (hmem : ch ∈ discordState.channels)
    (hcn : snapshotCatNameOf discordState.categories ch = some nm) :
    ∃ chans, DesiredChannelEntry.group { category := nm, channels := chans } ∈
        (snapshotToDesired discordState guildId openclawState).channels ∧
      snapshotDesiredChannelOf discordState.threads ch ∈ chans := by
  obtain ⟨cat, hcatmem, hname⟩ := snapshotCatNameOf_some discordState.categories ch nm hcn
  obtain ⟨pr, hfind, hd⟩ := snapshotGroupsLoop_mem discordState.categories
    discordState.threads nm (snapshotDesiredChannelOf discordState.threads ch)
    discordState.channels [] (Or.inr ⟨ch, hmem, hcn, rfl⟩)
  refine ⟨pr.2, List.mem_append_right _ (List.mem_filterMap.mpr ⟨cat, hcatmem, ?_⟩), hd⟩
  have hfind2 : (snapshotChannelGroups discordState.categories discordState.threads
      discordState.channels).find? (fun e => decide (e.1 = cat.name)) = some pr := by
    rw [hname]
    exact hfind
  have hempty : pr.2.isEmpty = false := by
    cases hp : pr.2 with
    | nil => rw [hp] at hd; cases hd
    | cons x xs => rfl
  dsimp only
  rw [hfind2, hname]
  simp only [Option.map_some', Option.getD_some]
  rw [hempty]
  rfl

/-- C5 counterexample: a rollback snapshot that captured a category with no
channels.  The category appears in the capture, but the synthetic desired
state built by snapshotToDesired contains no channel entry at all: a
captured category whose grouped channel list is empty is dropped, so the
synthetic desired state does not contain every captured category. -/
theorem c5_counterexample :
    (c5Discord.categories.map (fun c => c.name)).contains "Empty" = true ∧
    (snapshotToDesired c5Discord "g" { bindings := [] }).channels.isEmpty = true := by
  decide

/-- C5 (amended): what snapshotToDesired actually reconstructs.  Every
captured channel whose captured category linkage resolves to a (truthy)
category name appears, rebuilt with its captured topic, restricted flag and
the names of the captured threads attached to its id, inside a group entry
named by that category; a captured channel with no resolved linkage appears
as a top-level entry; a captured category appears only through such group
entries, so one with no grouped channel is dropped.  The agents record
contains an entry for an agent exactly when the routing capture has a
discord-kind binding of that agent whose peer id is a captured channel id
of this target (the cross-target guard), and its value is the captured name
of the channel referenced by the last such binding (falling back to the raw
id), so earlier bindings of the same agent are overwritten rather than all
retained. -/
theorem c5_amended (discordState : DiscordState) (guildId : String)
    (openclawState : OpenClawState) :
    (∀ ch ∈ discordState.channels,
      snapshotCatNameOf discordState.categories ch = none →
      DesiredChannelEntry.chan (snapshotDesiredChannelOf discordState.threads ch) ∈
        (snapshotToDesired discordState guildId openclawState).channels) ∧
    (∀ ch ∈ discordState.channels, ∀ nm,
      snapshotCatNameOf discordState.categories ch = some nm →
      ∃ chans, DesiredChannelEntry.group { category := nm, channels := chans } ∈
          (snapshotToDesired discordState guildId openclawState).channels ∧
        snapshotDesiredChannelOf discordState.threads ch ∈ chans) ∧
    (∀ ch : ActualChannel,
      (snapshotDesiredChannelOf discordState.threads ch).threads =
        (if ((discordState.threads.filter
            (fun th => decide (th.parentChannelId = ch.id))).map
            (fun th => th.name)).isEmpty then none
         else some ((discordState.threads.filter
            (fun th => decide (th.parentChannelId = ch.id))).map (fun th => th.name)))) ∧
    (∀ a : String,
      (snapshotAgents discordState.channels openclawState).find?
          (fun e => decide (e.1 = a)) =
        match openclawState.bindings.reverse.find? (fun b => decide (b.agentId = a) &&
            decide (b.match_.channel = "discord") &&
            (discordState.channels.map (fun c => c.id)).contains b.match_.peer.id) with
        | some b => some (a,
            ((discordState.channels.find?
              (fun c => decide (c.id = b.match_.peer.id))).map
              (fun c => c.name)).getD b.match_.peer.id)
        | none => none) ∧
    (snapshotToDesired discordState guildId openclawState).openclaw =
      (if (snapshotAgents discordState.channels openclawState).isEmpty then none
       else some { agents := (snapshotAgents discordState.channels openclawState).map
                     (fun e => (e.1, AgentBindingValue.str e.2)) }) :=
  ⟨fun ch hmem hcn => snapshotToDesired_topLevel_mem discordState guildId openclawState
      ch hmem hcn,
   fun ch hmem nm hcn => snapshotToDesired_grouped_mem discordState guildId openclawState
      ch nm hmem hcn,
   fun _ => rfl,
   fun a => snapshotAgents_find discordState.channels openclawState a,
   rfl⟩

/-- Witness for C5 (amended): on the concrete captured state, the
uncategorised channel lobby satisfies the hypotheses of the top-level part
and the categorised channel general those of the grouped part, and the
theorem yields their entries. -/
theorem c5_amended_witness :
    (({ id := "ch2", name := "lobby" } : ActualChannel) ∈ c5WitnessDiscord.channels ∧
      snapshotCatNameOf c5WitnessDiscord.categories { id := "ch2", name := "lobby" } = none ∧
      ({ id := "ch1", name := "general", topic := some "T",
         categoryId := some "c1" } : ActualChannel) ∈ c5WitnessDiscord.channels ∧
      snapshotCatNameOf c5WitnessDiscord.categories
        { id := "ch1", name := "general", topic := some "T",
          categoryId := some "c1" } = some "Ops") ∧
    (DesiredChannelEntry.chan (snapshotDesiredChannelOf c5WitnessDiscord.threads
        { id := "ch2", name := "lobby" }) ∈
      (snapshotToDesired c5WitnessDiscord "g" c5WitnessOpenClaw).channels) ∧
    (∃ chans, DesiredChannelEntry.group { category := "Ops", channels := chans } ∈
        (snapshotToDesired c5WitnessDiscord "g" c5WitnessOpenClaw).channels ∧
      snapshotDesiredChannelOf c5WitnessDiscord.threads
        { id := "ch1", name := "general", topic := some "T",
          categoryId := some "c1" } ∈ chans) :=
  ⟨⟨by decide, by decide, by decide, by decide⟩,
   (c5_amended c5WitnessDiscord "g" c5WitnessOpenClaw).1 _ (by decide) (by decide),
   (c5_amended c5WitnessDiscord "g" c5WitnessOpenClaw).2.1 _ (by decide) "Ops" (by decide)⟩

end Disclaw
